import Mathlib

/-!
The emp3r0r coordinator: command/result correlation and module execution

A shallow embedding of the coordinator-side code of `core/internal/cc/modules`
(`mod.go`, `modcustom.go`, `modportfwd.go`), of `core/internal/cc/operator`
(`completer.go`, `fs.go`) and of the helpers of `core/lib/util` (`str.go`, `file.go`).

Conventions of the embedding.

* A Go `map[string]V` is an association list `List (String × V)`; lookup is the
  comma-ok read, `mapDelete` is the builtin `delete`, `mapSet` is an assignment.
  A map that may be `nil` is an `Option` of such a list.
* A Go pointer to a `ModuleConfig` is an address `Nat` into `World.heap`; a pointer
  that may be `nil` is an `Option`.
* Calls that leave the process (logging, `CmdSender`, the file system, `sh -c`,
  the interactive bridge) are recorded, in program order, as `Event`s; their
  outcomes in one run are supplied by an `Oracle`.
* A Go run-time panic ends the run; the events emitted before it are kept.
* The library functions that the helpers call (`strings.Fields`, `strings.TrimSpace`,
  the record reader of `encoding/csv`, `rand.Intn`, the verb `%x` of `fmt`) are
  written out as functions with their documented behaviour; the two texts that `ParseCmd`
  gets from `uuid.NewString` are fresh symbols.
* The transport's inbound path runs concurrently with the wait loops; what it has done to
  the pending-result table before each poll is `Oracle.arrivals`. The goroutine started by
  `go mod()` is run to completion after the call that launched it.
-/

namespace Emp3r0r

/-! ## Go maps and strings -/

/-- The comma-ok read `v, ok := m[k]` of a Go map: `none` when `k` is not a key. -/
def mapGet {V : Type} (m : List (String × V)) (k : String) : Option V :=
  match m with
  | [] => none
  | (k1, v) :: rest => if k1 = k then some v else mapGet rest k

/-- The builtin `delete(m, k)`. -/
def mapDelete {V : Type} (m : List (String × V)) (k : String) : List (String × V) :=
  m.filter (fun e => decide (e.1 ≠ k))

/-- The assignment `m[k] = v` on an allocated map. -/
def mapSet {V : Type} (m : List (String × V)) (k : String) (v : V) : List (String × V) :=
  match m with
  | [] => [(k, v)]
  | (k1, v1) :: rest => if k1 = k then (k, v) :: rest else (k1, v1) :: mapSet rest k v

/-- The function `strings.ToLower`: every rune is mapped by `unicode.ToLower`. On ASCII that
turns `A`..`Z` into `a`..`z`; `unicodeToLower` is `unicode.ToLower` on the runes outside
ASCII (the case tables of package `unicode`). -/
def ToLower (unicodeToLower : Char → Char) (s : String) : String :=
  String.mk (s.data.map (fun c => if c.toNat < 128 then c.toLower else unicodeToLower c))

/-- The function `strings.ReplaceAll(s, string(c), r)` for a one-character pattern `c`. -/
def replaceAllChar (s : String) (c : Char) (r : String) : String :=
  String.mk (List.flatten (s.data.map (fun x => if x = c then r.data else [x])))

/-- Pieces of `cs` between occurrences of `sep`, with `cur` the piece being read (reversed). -/
def splitAux (sep : Char) : List Char → List Char → List String
  | [], cur => [String.mk cur.reverse]
  | c :: cs, cur =>
    if c = sep then String.mk cur.reverse :: splitAux sep cs []
    else splitAux sep cs (c :: cur)

/-- The function `strings.Split(s, string(sep))` for a one-character separator. -/
def Split (s : String) (sep : Char) : List String :=
  splitAux sep s.data []

/-- Whether `p` is a prefix of `s` (character lists). -/
def startsWith : List Char → List Char → Bool
  | [], _ => true
  | _ :: _, [] => false
  | a :: p, b :: s => a = b && startsWith p s

/-- Whether `p` occurs in `s` as a contiguous block (character lists). -/
def containsChars (p : List Char) : List Char → Bool
  | [] => startsWith p []
  | c :: s => startsWith p (c :: s) || containsChars p s

/-- The function `strings.Contains(s, substr)`. -/
def Contains (s substr : String) : Bool :=
  containsChars substr.data s.data

/-! ## Data model -/

/-- Raw file contents. -/
abbrev Bytes := List UInt8

/-- The struct `def.ModOption`: one option of a module. -/
structure ModOption where
  Name : String
  Desc : String
  Val : String
  Vals : List String
deriving DecidableEq, Repr

/-- The agent-side part of a module manifest (`config.AgentConfig`). -/
structure AgentModuleConfig where
  Exec : String := ""
  PayloadType : String := ""
  Files : List String := []
  InMemory : Bool := false
  IsInteractive : Bool := false
deriving DecidableEq, Repr

/-- The struct `def.ModuleConfig`. `Options` is a Go `map[string]*ModOption`: `none` is the
nil map (a manifest without an `options` object), and an entry `(k, none)` is a nil pointer. -/
structure ModuleConfig where
  Name : String := ""
  Platform : String := ""
  IsLocal : Bool := false
  Build : String := ""
  Path : String := ""
  Author : String := ""
  Date : String := ""
  Comment : String := ""
  Options : Option (List (String × Option ModOption)) := some []
  AgentConfig : AgentModuleConfig := {}
deriving DecidableEq, Repr

/-- The fields of a connected agent that the coordinator code reads here. -/
structure Agent where
  Tag : String
  GOOS : String
deriving DecidableEq, Repr

/-- The fields of `network.PortFwdSession` that the module code sets or reads. The context
and its cancel function are left out: cancelling is recorded as an event that names the
registry key. `SendCmdFunc` tells whether the field was set (to `CmdSender`, the only value
assigned here); `Agent` is a pointer and may be nil. -/
structure PortFwdSession where
  Protocol : String := ""
  Lport : String := ""
  To : String := ""
  BindAddr : String := ""
  Description : String := ""
  Timeout : Int := 0
  SendCmdFunc : Bool := false
  Agent : Option Agent := none
deriving DecidableEq, Repr

/-- The functions stored in `ModuleRunners`; `moduleCustom` is registered for every module
loaded from a manifest by `InitModules`. -/
inductive Runner
  | moduleCmd | moduleShell | moduleProxy | modulePortFwd | moduleLPE | moduleLogCleaner
  | moduleVaccine | moduleInjector | moduleBring2CC | modListener | module_ssh_harvester
  | moduleDownloader | moduleFileServer | moduleMemDump | moduleElfPatch | moduleCustom
deriving DecidableEq, Repr

/-- What `os.Stat` can find at a path: a regular file, a directory, or an entry whose
stat fails with an error other than not-exist. -/
inductive Node
  | file (data : Bytes)
  | dir
  | denied
deriving DecidableEq, Repr

/-- The coordinator's file system: path ↦ node; an absent path does not exist. -/
abbrev FS := List (String × Node)

/-- The mutable state the code works on: the globals of package `live`, `def.Modules`,
`ModuleRunners`, the `ModuleConfig` objects they point to, and the file system. -/
structure World where
  ActiveModule : Option Nat := none
  ActiveAgent : Option Agent := none
  Modules : List (String × Nat) := []
  ModuleRunners : List (String × Runner) := []
  heap : Nat → ModuleConfig := fun _ => {}
  CmdResults : List (String × String) := []
  fs : FS := []
  /-- the registry `network.PortFwds`, listed in the order in which a `range` over it visits
  the sessions in this run (Go fixes no order) -/
  PortFwds : List (String × PortFwdSession) := []

/-- The functions of package `logging`. -/
inductive Level
  | debug | info | print | success | warning | error
deriving DecidableEq, Repr

/-- One observable action of the code, in program order. -/
inductive Event
  /-- a call `logging.<lvl>f(format, args...)` -/
  | log (lvl : Level) (format : String) (args : List String)
  /-- the statement `go mod()` of `ModuleRun` -/
  | launch (r : Runner)
  /-- a call of `os.Chdir` -/
  | chdir (dir : String)
  /-- a call of `os.Setenv` -/
  | setenv (name val : String)
  /-- running `sh -c script` -/
  | exec (script : String)
  /-- a call of `os.ReadFile` -/
  | readFile (path : String)
  /-- a call of `arc.CompressXz` -/
  | compressXz (data : Bytes)
  /-- a call of `os.WriteFile` -/
  | writeFile (path : String) (data : Bytes)
  /-- a call of `util.TarXZ` -/
  | tarXZ (dir archive : String)
  /-- a call `CmdSender(cmd, id, tag)` -/
  | send (cmd id tag : String)
  /-- a call of `util.TakeABlink` -/
  | blink
  /-- a call of `SSHClient` -/
  | ssh (shell args port : String)
  /-- a Go run-time panic: the run ends here -/
  | panic (reason : String)
  /-- a call `session.Cancel()` on the session registered under `id` -/
  | cancel (id : String)
  /-- the goroutine that runs `pf.RunPortFwd()` -/
  | runPortFwd (pf : PortFwdSession)
  /-- the goroutine that runs `pf.InitReversedPortFwd()` -/
  | initReversedPortFwd (pf : PortFwdSession)
deriving DecidableEq, Repr

/-- Constants of packages `def` and `live` and the pure library functions the code calls;
none of them is defined in the files embedded here. -/
structure Env where
  C2CmdCustomModule : String
  C2CmdListDir : String
  MagicString : String
  WWWRoot : String
  EmpWorkSpace : String
  AgentRoot : String
  /-- the function `strconv.Quote` -/
  Quote : String → String
  /-- the function `crypto.SHA256SumRaw`, as hex text -/
  SHA256SumRaw : String → String
  /-- the function `crypto.SHA256SumFile` -/
  SHA256SumFile : FS → String → String
  /-- the function `arc.CompressXz` -/
  CompressXz : Bytes → Except String Bytes
  /-- the function `filepath.Base` -/
  Base : String → String
  /-- the function `filepath.Clean` -/
  Clean : String → String
  /-- the function `unicode.ToLower` on the runes outside ASCII -/
  UnicodeToLower : Char → Char
  /-- how `fmt` renders a `*ModuleConfig` under `%s` -/
  showModule : ModuleConfig → String
  /-- how `fmt` renders a byte count divided by 1024*1024 under `%.4f` -/
  showMB : Nat → String
  C2CmdPortFwd : String
  C2CmdDeletePortFwd : String
  /-- the value `live.RuntimeConfig.AgentSocksServerPort` -/
  AgentSocksServerPort : String
  /-- the value `live.RuntimeConfig.AgentSocksTimeout` -/
  AgentSocksTimeout : Int

/-- Outcomes, in one run, of the operations that depend on the outside world. -/
structure Oracle where
  /-- the value of `uuid.NewString()` -/
  cmd_id : String := ""
  /-- error of `os.Chdir(config.Path)`, if any -/
  chdirErr : Option String := none
  /-- combined output of the build command -/
  buildOut : String := ""
  /-- error of the build command (a non-zero exit), if any -/
  buildErr : Option String := none
  /-- error of `os.WriteFile`, if any -/
  writeErr : Option String := none
  /-- result of `util.TarXZ`: the archive written, or the error -/
  tarXZ : Except String Bytes := .ok []
  /-- error of `CmdSender`, if any -/
  sendErr : Option String := none
  /-- what the transport's inbound path, which runs concurrently, has done to the
  pending-result table by the time of poll number `i` of a wait loop -/
  arrivals : Nat → List (String × String) → List (String × String) := fun _ T => T
  /-- how many polls fit before a deadline-bounded wait expires -/
  polls : Nat := 0
  /-- the value of `util.RandInt(1024, 65535)` -/
  port : Nat := 1024
  /-- error of `SSHClient`, if any -/
  sshErr : Option String := none
  /-- error of `CmdSender` for a given command text, in runs that send several commands -/
  sendErrOf : String → Option String := fun _ => sendErr
  /-- the value of `agents.MustGetActiveAgent()` (package `agents` is not among the embedded
  files) -/
  activeAgent : Option Agent := none
  /-- error of `RunPortFwd` or `InitReversedPortFwd` for a given session, if any -/
  pfErr : PortFwdSession → Option String := fun _ => none
  /-- number of blinks after which `pf.Sh` of the TCP proxy session is set; `none` if never -/
  shReady : Option Nat := some 0

/-- Whether a run ended in a panic. -/
def crashed (t : List Event) : Bool :=
  t.any (fun e => match e with | .panic _ => true | _ => false)

/-- The commands handed to `CmdSender` in a run, in order. -/
def sentCmds (t : List Event) : List String :=
  t.filterMap (fun e => match e with | .send c _ _ => some c | _ => none)

/-! ## The pending-result table (`live.CmdResults`) -/

/-- The escaping of one directory entry in `listRemoteDirWorker` and `listAgentExes`:
a tab becomes backslash-t, then a space becomes backslash-space. -/
def escapeName (name : String) : String :=
  replaceAllChar (replaceAllChar name '\t' "\\t") ' ' "\\ "

/-- The wait loop of `listRemoteDirWorker` (completer.go, lines 144-154): `n` polls remain
before the deadline, `i` is the number of the next poll. Returns `remote_entries` and the
table. -/
def listRemoteDirWait (arrivals : Nat → List (String × String) → List (String × String)) :
    Nat → Nat → List (String × String) → String → List String × List (String × String)
  | 0, _, T, _ => ([], T)
  | n + 1, i, T, cmd_id =>
    let T1 := arrivals i T
    match mapGet T1 cmd_id with
    | some res => (Split res '\n', mapDelete T1 cmd_id)
    | none => listRemoteDirWait arrivals n (i + 1) T1 cmd_id

/-- The function `listRemoteDirWorker`: returns `(cwd, names)`. -/
def listRemoteDirWorker (env : Env) (o : Oracle) (w : World) (path_to_list agent_tag : String) :
    (String × List String) × World × List Event :=
  let cmd := env.C2CmdListDir ++ " --path " ++ path_to_list
  match o.sendErr with
  | some e =>
    (("", []), w, [.send cmd o.cmd_id agent_tag,
      .log .debug "Cannot list remote directory: %v" [e]])
  | none =>
    let r := listRemoteDirWait o.arrivals o.polls 0 w.CmdResults o.cmd_id
    let w1 := { w with CmdResults := r.2 }
    match r.1 with
    | [] => (("", []), w1, [.send cmd o.cmd_id agent_tag,
        .log .debug "Nothing in remote directory" []])
    | cwd :: rest => ((cwd, rest.map escapeName), w1, [.send cmd o.cmd_id agent_tag])

/-- The wait loop of `moduleProxy`, case "on" (modportfwd.go, lines 170-179): `n` iterations
remain (120 at the start), `i` is the number of the next poll. Returns `ok`, the table and
the blinks taken. -/
def moduleProxyWait (arrivals : Nat → List (String × String) → List (String × String)) :
    Nat → Nat → List (String × String) → String → Bool × List (String × String) × List Event
  | 0, _, T, _ => (false, T, [])
  | n + 1, i, T, cmd_id =>
    let T1 := arrivals i T
    match mapGet T1 cmd_id with
    | some _ => (true, mapDelete T1 cmd_id, [])
    | none =>
      let r := moduleProxyWait arrivals n (i + 1) T1 cmd_id
      (r.1, r.2.1, Event.blink :: r.2.2)

/-! ## Module selection and dispatch (`mod.go`) -/

/-- The loop `for mod := range ModuleRunners { if mod == modName ... }`. -/
def hasRunner (w : World) (modName : String) : Bool :=
  w.ModuleRunners.any (fun e => decide (e.1 = modName))

/-- The option that `UpdateOptions` injects. -/
def download_addr_option : ModOption :=
  { Name := "download_addr",
    Desc := "Download URL for this module, useful when you want to use an agent as caching server",
    Val := "",
    Vals := [] }

/-- Writing the `Options` field of the object at address `p`. -/
def setOptions (w : World) (p : Nat) (opts : List (String × Option ModOption)) : World :=
  { w with heap := fun a => if a = p then { w.heap p with Options := some opts } else w.heap a }

/-- The function `UpdateOptions`: returns the world, the events and `exist`. -/
def UpdateOptions (env : Env) (w : World) (modName : String) : World × List Event × Bool :=
  match w.ActiveModule with
  | none => (w, [.log .error "No active module" []], false)
  | some p =>
    if hasRunner w modName = false then
      (w, [.log .error "UpdateOptions: no such module: %s" [modName]], false)
    else
      match mapGet w.Modules modName with
      | none => (w, [.panic "nil pointer dereference: modconfig"], true)
      | some q =>
        let modconfig := w.heap q
        if ToLower env.UnicodeToLower modconfig.AgentConfig.Exec ≠ "built-in"
            ∧ modconfig.IsLocal = false then
          let t := [Event.log .debug
            "UpdateOptions: module %s is not built-in, adding download_addr" [modName]]
          match (w.heap p).Options with
          | none =>
            (w, t ++ [.log .debug "UpdateOptions: adding %s" ["download_addr"],
              .panic "assignment to entry in nil map"], true)
          | some opts =>
            match mapGet opts "download_addr" with
            | some _ => (w, t, true)
            | none =>
              (setOptions w p (mapSet opts "download_addr" (some download_addr_option)),
                t ++ [.log .debug "UpdateOptions: adding %s" ["download_addr"]], true)
        else (w, [], true)

/-- The function `ModuleRun`. -/
def ModuleRun (env : Env) (w : World) : World × List Event :=
  match w.ActiveModule with
  | none => (w, [.log .error "No active module" []])
  | some p =>
    let m := w.heap p
    let unsupported : Option String :=
      match w.ActiveAgent with
      | some a =>
        let target_os := a.GOOS
        let mod_os := ToLower env.UnicodeToLower m.Platform
        if mod_os ≠ "generic" ∧ target_os ≠ mod_os then some target_os else none
      | none => none
    match unsupported with
    | some target_os =>
      (w, [.log .error "ModuleRun: module %s does not support %s" [env.Quote m.Name, target_os]])
    | none =>
      if w.ActiveAgent.isNone && !m.IsLocal then
        (w, [.log .error "Target not specified" []])
      else
        match mapGet w.ModuleRunners m.Name with
        | some r => (w, [.launch r])
        | none => (w, [.log .error "Module %s has no runner" [env.Quote m.Name]])

/-- The function `SetActiveModule`. -/
def SetActiveModule (env : Env) (w : World) (modName : String) : World × List Event :=
  if hasRunner w modName then
    let w1 := { w with ActiveModule := mapGet w.Modules modName }
    let r := UpdateOptions env w1 modName
    if crashed r.2.1 then (r.1, r.2.1)
    else
      (r.1, r.2.1 ++ [.log .info "Using module %s" [env.Quote modName]] ++
        (match mapGet r.1.Modules modName with
          | some q => [.log .success "%s: %s" [modName, (r.1.heap q).Comment]]
          | none => []))
  else (w, [.log .error "No such module: %s" [env.Quote modName]])

/-! ## File-system helpers (`util/file.go`) -/

/-- The function `util.IsFileExist`: false when the path does not exist or is a directory,
true for a regular file and when `os.Stat` fails for another reason. -/
def IsFileExist (fs : FS) (path : String) : Bool :=
  match mapGet fs path with
  | none => false
  | some (.file _) => true
  | some .dir => false
  | some .denied => true

/-- The function `util.FileSize` (0 when `os.Stat` fails; a directory's size, which is
system-dependent, is taken as 0). -/
def FileSize (fs : FS) (path : String) : Nat :=
  match mapGet fs path with
  | some (.file d) => d.length
  | _ => 0

/-- The function `util.FileBaseName`. -/
def FileBaseName (env : Env) (path : String) : String :=
  env.Base (env.Clean path)

/-- The function `os.ReadFile`; the error is the text of its `*fs.PathError`. -/
def ReadFile (fs : FS) (path : String) : Except String Bytes :=
  match mapGet fs path with
  | some (.file d) => .ok d
  | some .dir => .error ("read " ++ path ++ ": is a directory")
  | some .denied => .error ("open " ++ path ++ ": permission denied")
  | none => .error ("open " ++ path ++ ": no such file or directory")

/-! ## The packaging and dispatch pipeline (`modcustom.go`) -/

/-- The calls of `os.Setenv` made by `build_module`, one per non-nil option. -/
def setenvEvents (opts : List (String × Option ModOption)) : List Event :=
  opts.filterMap (fun e => e.2.map (fun opt => Event.setenv opt.Name opt.Val))

/-- The function `build_module`: `config` is the module built, `active` is
`*live.ActiveModule`. Returns `(out, err)` as an `Except` and the events. -/
def build_module (env : Env) (o : Oracle) (config active : ModuleConfig) :
    Except String String × List Event :=
  match o.chdirErr with
  | some e => (.error e, [.chdir config.Path])
  | none =>
    let t := [Event.chdir config.Path] ++ setenvEvents (active.Options.getD []) ++
      [.exec config.Build, .chdir env.EmpWorkSpace]
    match o.buildErr with
    | some e => (.error (o.buildOut ++ " (" ++ e ++ ")"), t)
    | none => (.ok o.buildOut, t)

/-- The function `getDownloadAddr`; `.error` is a panic (a nil option pointer). -/
def getDownloadAddr (active : ModuleConfig) : Except String String :=
  match mapGet (active.Options.getD []) "download_addr" with
  | some (some opt) => .ok opt.Val
  | some none => .error "nil pointer dereference: download_url_opt"
  | none => .ok ""

/-- The string built by the loop of `genModStartCmd`, `NAME=value,` per option;
`.error` is a panic (a nil option pointer). -/
def envStrOf : List (String × Option ModOption) → Except String String
  | [] => .ok ""
  | (opt, some modOption) :: rest =>
    match envStrOf rest with
    | .ok s => .ok (opt ++ "=" ++ modOption.Val ++ "," ++ s)
    | .error e => .error e
  | (_, none) :: _ => .error "nil pointer dereference: modOption"

/-- The function `genModStartCmd`: `(payload_type, exec_path, envStr)`; its `err` result is
always nil and is left out; `.error` is a panic. -/
def genModStartCmd (config : ModuleConfig) : Except String (String × String × String) :=
  match envStrOf (config.Options.getD []) with
  | .ok envStr => .ok (config.AgentConfig.PayloadType, config.AgentConfig.Exec, envStr)
  | .error e => .error e

/-- The liveness probe: `echo` and the Go-quoted SHA-256 digest of the magic string. -/
def livenessProbe (env : Env) : String :=
  "echo " ++ env.Quote (env.SHA256SumRaw env.MagicString)

/-- The statement `if download_addr != "" { cmd += " --download_addr " + Quote(...) }`. -/
def appendDownloadAddr (env : Env) (cmd download_addr : String) : String :=
  if download_addr ≠ "" then cmd ++ " --download_addr " ++ env.Quote download_addr else cmd

/-- The command text of `handleInMemoryModule` before the download address is appended. -/
def inMemoryBaseCmd (env : Env) (name payload_type file checksum envStr : String) : String :=
  env.C2CmdCustomModule ++ " --mod_name " ++ name ++ " --type " ++ payload_type ++
    " --file_to_download " ++ file ++ " --checksum " ++ checksum ++
    " --in_mem --env \"" ++ envStr ++ "\""

/-- The command text of `handleCompressedModule` before the download address is appended. -/
def compressedBaseCmd (env : Env) (name checksum envStr payload_type file exec_cmd : String) :
    String :=
  env.C2CmdCustomModule ++ " --mod_name " ++ name ++ " --checksum " ++ checksum ++
    " --env \"" ++ envStr ++ "\" --type " ++ payload_type ++
    " --file_to_download " ++ file ++ " --exec \"" ++ exec_cmd ++ "\""

/-- The events of a `CmdSender` call and of the error report that follows a failed send. -/
def sendEvents (o : Oracle) (cmd tag : String) : List Event :=
  [Event.send cmd o.cmd_id tag] ++
    (match o.sendErr with
      | some e => [Event.log .error "Sending command %s to %s: %v" [cmd, tag, e]]
      | none => [])

/-- The function `handleInMemoryModule`; `p` is `live.ActiveModule`. -/
def handleInMemoryModule (env : Env) (o : Oracle) (w : World) (config : ModuleConfig) (p : Nat)
    (payload_type envStr download_addr : String) : World × List Event :=
  let name := (w.heap p).Name
  let hosted_file := env.WWWRoot ++ name ++ ".xz"
  let t0 := [Event.log .info "Compressing %s with xz..." [name]]
  match config.AgentConfig.Files with
  | [] => (w, t0 ++ [.log .error "No files found for module %s in %s" [config.Name, config.Path]])
  | f :: _ =>
    let path := config.Path ++ "/" ++ f
    match ReadFile w.fs path with
    | .error e => (w, t0 ++ [.readFile path, .log .error "Reading %s: %v" [path, e]])
    | .ok data =>
      match env.CompressXz data with
      | .error e =>
        (w, t0 ++ [.readFile path, .compressXz data, .log .error "Compressing %s: %v" [path, e]])
      | .ok compressedBytes =>
        let t1 := t0 ++ [.readFile path, .compressXz data,
          .log .info "Created %.4fMB archive (%s) for module '%s'"
            [env.showMB compressedBytes.length, hosted_file, name],
          .writeFile hosted_file compressedBytes]
        match o.writeErr with
        | some e => (w, t1 ++ [.log .error "Writing %s: %v" [hosted_file, e]])
        | none =>
          let w1 := { w with fs := mapSet w.fs hosted_file (.file compressedBytes) }
          let cmd := appendDownloadAddr env
            (inMemoryBaseCmd env name payload_type (FileBaseName env hosted_file)
              (env.SHA256SumFile w1.fs hosted_file) envStr) download_addr
          match w.ActiveAgent with
          | none => (w1, t1 ++ [.panic "nil pointer dereference: live.ActiveAgent"])
          | some a =>
            (w1, t1 ++ [.log .debug "Sending command %s to %s" [cmd, a.Tag]] ++
              sendEvents o cmd a.Tag)

/-- The probe wait of `handleInteractiveModule` (lines 197-202): `n` iterations remain
(10 at the start), `i` is the number of the next poll. Returns whether the hash was
found, the table and the blinks taken. -/
def probeWait (arrivals : Nat → List (String × String) → List (String × String)) (look_for : String) :
    Nat → Nat → List (String × String) → String → Bool × List (String × String) × List Event
  | 0, _, T, _ => (false, T, [])
  | n + 1, i, T, cmd_id =>
    let T1 := arrivals i T
    if Contains ((mapGet T1 cmd_id).getD "") look_for then (true, T1, [])
    else
      let r := probeWait arrivals look_for n (i + 1) T1 cmd_id
      (r.1, r.2.1, Event.blink :: r.2.2)

/-- The option that `handleInteractiveModule` installs when `args` is missing. -/
def args_option : ModOption :=
  { Name := "args", Desc := "run this command with these arguments", Val := "", Vals := [] }

/-- The function `handleInteractiveModule`; `q` is the address of the module's config (its
`Options` map is shared with the copy the function receives), `p` is `live.ActiveModule`. -/
def handleInteractiveModule (env : Env) (o : Oracle) (w : World) (q p : Nat) (cmd_id : String) :
    World × List Event :=
  let config := w.heap q
  match config.Options with
  | none => (w, [.panic "assignment to entry in nil map"])
  | some opts =>
    match mapGet opts "args" with
    | none =>
      (setOptions w q (mapSet opts "args" (some args_option)),
        [.panic "nil pointer dereference: opt"])
    | some none => (w, [.panic "nil pointer dereference: opt"])
    | some (some opt) =>
      let args := opt.Val
      let port := toString o.port
      let look_for := env.SHA256SumRaw env.MagicString
      let r := probeWait o.arrivals look_for 10 0 w.CmdResults cmd_id
      let shell := env.AgentRoot ++ "/" ++ (w.heap p).Name ++ "/" ++ config.AgentConfig.Exec
      let t := r.2.2 ++ [Event.ssh shell args port] ++
        (match o.sshErr with
          | some e => [Event.log .error "module %s: %v" [config.Name, e]]
          | none => [])
      ({ w with CmdResults := mapDelete r.2.1 cmd_id }, t)

/-- Lines 165-180 of `handleCompressedModule`, once the archive is in place: checksum, start
command, send, and the interactive step. -/
def sendCompressedModule (env : Env) (o : Oracle) (w : World) (q p : Nat)
    (payload_type exec_cmd envStr download_addr : String) : World × List Event :=
  let config := w.heap q
  let name := (w.heap p).Name
  let tarball_path := env.WWWRoot ++ name ++ ".tar.xz"
  let file_to_download := env.Base tarball_path
  let checksum := env.SHA256SumFile w.fs tarball_path
  let cmd := appendDownloadAddr env
    (compressedBaseCmd env name checksum envStr payload_type file_to_download exec_cmd)
    download_addr
  match w.ActiveAgent with
  | none => (w, [.panic "nil pointer dereference: live.ActiveAgent"])
  | some a =>
    if config.AgentConfig.IsInteractive then
      let r := handleInteractiveModule env o w q p o.cmd_id
      (r.1, sendEvents o cmd a.Tag ++ r.2)
    else (w, sendEvents o cmd a.Tag)

/-- The function `handleCompressedModule`; `q` is the address of the module's config, `p` is
`live.ActiveModule`. -/
def handleCompressedModule (env : Env) (o : Oracle) (w : World) (q p : Nat)
    (payload_type exec_cmd envStr download_addr : String) : World × List Event :=
  let config := w.heap q
  let name := (w.heap p).Name
  let tarball_path := env.WWWRoot ++ name ++ ".tar.xz"
  if IsFileExist w.fs tarball_path = false then
    let t := [Event.log .info "Compressing %s with tar.xz..." [name],
      Event.tarXZ config.Path tarball_path]
    match o.tarXZ with
    | .error e => (w, t ++ [.log .error "Compressing %s: %v" [name, e]])
    | .ok data =>
      let w1 := { w with fs := mapSet w.fs tarball_path (.file data) }
      let r := sendCompressedModule env o w1 q p payload_type exec_cmd envStr download_addr
      (r.1, t ++ [.log .info "Created %.4fMB archive (%s) for module '%s'"
        [env.showMB (FileSize w1.fs tarball_path), tarball_path, name]] ++ r.2)
  else
    let r := sendCompressedModule env o w q p payload_type exec_cmd envStr download_addr
    (r.1, Event.log .info "Using cached %s" [tarball_path] :: r.2)

/-- Lines 45-73 of `moduleCustom`, after the build step; `q` is the address of `config`, `p` is
`live.ActiveModule`. -/
def moduleCustomAfterBuild (env : Env) (o : Oracle) (w : World) (q p : Nat) :
    World × List Event :=
  let config := w.heap q
  if config.IsLocal then
    (w, [.log .print "%s will run as a plugin on C2, no files will be executed on target"
      [config.Name]])
  else
    match getDownloadAddr (w.heap p) with
    | .error e => (w, [.panic e])
    | .ok download_addr =>
      match genModStartCmd config with
      | .error e => (w, [.panic e])
      | .ok (payload_type, exec_path, envStr) =>
        let exec_cmd := if config.AgentConfig.IsInteractive then livenessProbe env else exec_path
        if config.AgentConfig.InMemory then
          handleInMemoryModule env o w config p payload_type envStr download_addr
        else
          handleCompressedModule env o w q p payload_type exec_cmd envStr download_addr

/-- The function `moduleCustom`. -/
def moduleCustom (env : Env) (o : Oracle) (w : World) : World × List Event :=
  match w.ActiveModule with
  | none => (w, [.log .warning "No module selected" []])
  | some p =>
    match mapGet w.Modules (w.heap p).Name with
    | none => (w, [.log .error "Config of %s does not exist" [env.showModule (w.heap p)]])
    | some q =>
      let config := w.heap q
      if config.Build ≠ "" then
        let b := build_module env o config (w.heap p)
        let t := [Event.log .print "Building %s..." [config.Name]] ++ b.2
        match b.1 with
        | .error e => (w, t ++ [.log .error "Build module %s: %v" [config.Name, e]])
        | .ok out =>
          let r := moduleCustomAfterBuild env o w q p
          (r.1, t ++ [.log .print "Module output:\n%s" [out]] ++ r.2)
      else moduleCustomAfterBuild env o w q p

/-- The statement `go mod()` carried out for the runner that `ModuleRun` launched; only
`moduleCustom` is followed further, the built-in runners end the trace. -/
def runLaunched (env : Env) (o : Oracle) (w : World) : List Event → World × List Event
  | [Event.launch Runner.moduleCustom] =>
    let r := moduleCustom env o w
    (r.1, Event.launch Runner.moduleCustom :: r.2)
  | t => (w, t)

/-- Running the active module: `ModuleRun`, then the launched `moduleCustom`. -/
def runModule (env : Env) (o : Oracle) (w : World) : World × List Event :=
  let r := ModuleRun env w
  runLaunched env o r.1 r.2

/-- Whether an event packages or ships a module: reading or writing payload files, archiving,
a command handed to `CmdSender`, the interactive bridge. -/
def ships : Event → Bool
  | .readFile _ => true
  | .compressXz _ => true
  | .writeFile _ _ => true
  | .tarXZ _ _ => true
  | .send _ _ _ => true
  | .ssh _ _ _ => true
  | _ => false

/-! ## Port forwarding and the proxy (`modportfwd.go`) -/

/-- The stop command of `modulePortFwd`: `<C2CmdPortFwd> --shID <id> --operation stop`. -/
def portFwdStopCmd (env : Env) (id : String) : String :=
  env.C2CmdPortFwd ++ " --shID " ++ id ++ " --operation stop"

/-- The delete command of `moduleProxy`: `<C2CmdDeletePortFwd> --id <id>`. -/
def proxyDeleteCmd (env : Env) (id : String) : String :=
  env.C2CmdDeletePortFwd ++ " --id " ++ id

/-- The error logged at the end of an iteration of the "off" loop of `modulePortFwd`. -/
def notFoundReport (dest lport : String) : Event :=
  .log .error "Could not find port mapping (to %s, listening on %s)" [dest, lport]

/-- The events of a failed `CmdSender` call in the "off" branches. -/
def sendCmdErrEvents (o : Oracle) (cmd : String) : List Event :=
  match o.sendErrOf cmd with
  | some e => [Event.log .error "SendCmd: %v" [e]]
  | none => []

/-- The loop of case "off" of `modulePortFwd` (lines 30-58) over the sessions still to be
visited; `all` is the whole registry, `activeTag` is `activeAgent.Tag`. Returns the
registry and the events. -/
def portFwdOffLoop (env : Env) (o : Oracle) (opts : List (String × Option ModOption))
    (activeTag : String) (all : List (String × PortFwdSession)) :
    List (String × PortFwdSession) → List (String × PortFwdSession) × List Event
  | [] => (all, [])
  | (id, session) :: rest =>
    match mapGet opts "to" with
    | none => (all, [.log .error "Option 'to' not found" []])
    | some toOpt =>
      match mapGet opts "listen_port" with
      | none => (all, [.log .error "Option 'listen_port' not found" []])
      | some listenPortOpt =>
        match toOpt, listenPortOpt with
        | some toOpt, some listenPortOpt =>
          if session.To = toOpt.Val ∧ session.Lport = listenPortOpt.Val then
            (mapDelete all id,
              [Event.cancel id, Event.send (portFwdStopCmd env id) "" activeTag] ++
                sendCmdErrEvents o (portFwdStopCmd env id))
          else
            let r := portFwdOffLoop env o opts activeTag all rest
            (r.1, notFoundReport toOpt.Val listenPortOpt.Val :: r.2)
        | _, _ => (all, [.panic "nil pointer dereference: option"])

/-- The expression `live.ActiveModule.Options[k].Val`; `none` is the panic on a nil pointer
(a missing key reads as nil). -/
def optionVal (opts : List (String × Option ModOption)) (k : String) : Option String :=
  match mapGet opts k with
  | some (some opt) => some opt.Val
  | _ => none

/-- The bind address chosen by `modulePortFwd` (lines 65-70 and 87-92); `none` is the panic
on a nil pointer stored under `bind_addr`. -/
def portFwdBindAddr (opts : List (String × Option ModOption)) : Option String :=
  match mapGet opts "bind_addr" with
  | some (some bindAddrOpt) => some bindAddrOpt.Val
  | some none => none
  | none => some "127.0.0.1"

/-- The bind address chosen by `moduleProxy` (lines 129-136); `none` is the panic on a nil
pointer stored under `bind_addr`. -/
def proxyBindAddr (opts : List (String × Option ModOption)) : Option String :=
  match mapGet opts "bind_addr" with
  | some (some bindAddrOpt) =>
    some (if bindAddrOpt.Val = "localhost" then "127.0.0.1" else bindAddrOpt.Val)
  | some none => none
  | none => some "127.0.0.1"

/-- The goroutine of case "reverse" (lines 74-80). -/
def reverseGoroutine (o : Oracle) (pf : PortFwdSession) : List Event :=
  [Event.log .print
      "RunReversedPortFwd: %s:%s -> %s (%s), make a connection and it will appear in `ls_port_fwds`"
      [pf.BindAddr, pf.Lport, pf.To, pf.Protocol],
    Event.initReversedPortFwd pf] ++
  (match o.pfErr pf with
    | some e => [Event.log .error "PortFwd (reverse) failed: %v" [e]]
    | none => [])

/-- The goroutine of case "on" (lines 97-103). -/
def forwardGoroutine (o : Oracle) (pf : PortFwdSession) : List Event :=
  [Event.log .print
      "RunPortFwd: %s:%s -> %s (%s), make a connection and it will appear in `ls_port_fwds`"
      [pf.BindAddr, pf.Lport, pf.To, pf.Protocol],
    Event.runPortFwd pf] ++
  (match o.pfErr pf with
    | some e => [Event.log .error "PortFwd failed: %v" [e]]
    | none => [])

/-- Case "reverse" of `modulePortFwd` (lines 59-80). -/
def portFwdReverse (o : Oracle) (opts : List (String × Option ModOption)) (activeAgent : Agent) :
    List Event :=
  match optionVal opts "listen_port", optionVal opts "to" with
  | some lport, some dest =>
    match portFwdBindAddr opts with
    | none => [.panic "nil pointer dereference: bindAddrOpt"]
    | some bindAddr =>
      reverseGoroutine o
        { Lport := lport, To := dest, BindAddr := bindAddr, SendCmdFunc := true,
          Agent := some activeAgent }
  | _, _ => [.panic "nil pointer dereference: option"]

/-- Case "on" of `modulePortFwd` (lines 81-103). -/
def portFwdOn (o : Oracle) (opts : List (String × Option ModOption)) (activeAgent : Agent) :
    List Event :=
  match optionVal opts "listen_port", optionVal opts "to" with
  | some lport, some dest =>
    match portFwdBindAddr opts with
    | none => [.panic "nil pointer dereference: bindAddrOpt"]
    | some bindAddr =>
      match optionVal opts "protocol" with
      | none => [.panic "nil pointer dereference: option"]
      | some protocol =>
        forwardGoroutine o
          { Lport := lport, To := dest, BindAddr := bindAddr, SendCmdFunc := true,
            Protocol := protocol, Agent := some activeAgent }
  | _, _ => [.panic "nil pointer dereference: option"]

/-- The function `modulePortFwd`. -/
def modulePortFwd (env : Env) (o : Oracle) (w : World) : World × List Event :=
  match o.activeAgent with
  | none => (w, [.log .error "No active agent" []])
  | some activeAgent =>
    match w.ActiveModule with
    | none => (w, [.panic "nil pointer dereference: live.ActiveModule"])
    | some p =>
      let opts := (w.heap p).Options.getD []
      match mapGet opts "switch" with
      | none => (w, [.log .error "Option 'switch' not found" []])
      | some none => (w, [.panic "nil pointer dereference: switchOpt"])
      | some (some switchOpt) =>
        if switchOpt.Val = "off" then
          let r := portFwdOffLoop env o opts activeAgent.Tag w.PortFwds w.PortFwds
          ({ w with PortFwds := r.1 }, r.2)
        else if switchOpt.Val = "reverse" then (w, portFwdReverse o opts activeAgent)
        else if switchOpt.Val = "on" then (w, portFwdOn o opts activeAgent)
        else (w, [])

/-- The description of the TCP session of the proxy. -/
def proxyTcpDescription (bindAddr lport dest : String) : String :=
  "Agent Proxy (TCP):\n" ++ bindAddr ++ ":" ++ lport ++ " (Local) -> " ++ dest ++ " (Agent)"

/-- The description of the UDP session of the proxy. -/
def proxyUdpDescription (bindAddr lport dest : String) : String :=
  "Agent Proxy (UDP):\n" ++ bindAddr ++ ":" ++ lport ++ " (Local) -> " ++ dest ++ " (Agent)"

/-- The session `pf` of `moduleProxy` (lines 139-147). -/
def proxyTcpSession (env : Env) (activeAgent : Agent) (port bindAddr : String) : PortFwdSession :=
  { Lport := port, To := "127.0.0.1:" ++ env.AgentSocksServerPort, BindAddr := bindAddr,
    SendCmdFunc := true,
    Description := proxyTcpDescription bindAddr port ("127.0.0.1:" ++ env.AgentSocksServerPort),
    Protocol := "tcp", Timeout := env.AgentSocksTimeout, Agent := some activeAgent }

/-- The session `pfu` of `moduleProxy` (lines 150-158). -/
def proxyUdpSession (env : Env) (activeAgent : Agent) (port bindAddr : String) : PortFwdSession :=
  { Lport := port, To := "127.0.0.1:" ++ env.AgentSocksServerPort, BindAddr := bindAddr,
    Description := proxyUdpDescription bindAddr port ("127.0.0.1:" ++ env.AgentSocksServerPort),
    Protocol := "udp", Timeout := env.AgentSocksTimeout, SendCmdFunc := true,
    Agent := some activeAgent }

/-- The two goroutines of case "on" of `moduleProxy` (lines 187-202): the TCP session runs;
the UDP one blinks until `pf.Sh` is set, then runs. -/
def proxyGoroutines (o : Oracle) (pf pfu : PortFwdSession) : List Event :=
  [Event.runPortFwd pf] ++
  (match o.pfErr pf with
    | some e => [Event.log .error "PortFwd (TCP) failed: %v" [e]]
    | none => []) ++
  (match o.shReady with
    | none => []
    | some n =>
      List.replicate n Event.blink ++ [Event.runPortFwd pfu] ++
        (match o.pfErr pfu with
          | some e => [Event.log .error "PortFwd (UDP) failed: %v" [e]]
          | none => []))

/-- Case "on" of `moduleProxy` (lines 161-203). -/
def proxyOn (env : Env) (o : Oracle) (w : World) (pf pfu : PortFwdSession) (tag : String) :
    World × List Event :=
  let cmd := "!proxy --mode on --addr 0.0.0.0:" ++ env.AgentSocksServerPort
  match o.sendErrOf cmd with
  | some e =>
    (w, [.send cmd o.cmd_id tag,
      .log .error "Starting SOCKS5 proxy on target failed: %v" [e]])
  | none =>
    let r := moduleProxyWait o.arrivals 120 0 w.CmdResults o.cmd_id
    let w1 := { w with CmdResults := r.2.1 }
    if r.1 = false then
      (w1, [Event.send cmd o.cmd_id tag] ++ r.2.2 ++
        [.log .error "Timeout waiting for agent to start SOCKS5 proxy" []])
    else
      (w1, [Event.send cmd o.cmd_id tag] ++ r.2.2 ++
        [.log .print "Agent started SOCKS5 proxy" []] ++ proxyGoroutines o pf pfu)

/-- The loop of case "off" of `moduleProxy` (lines 205-219) over the sessions still to be
visited. -/
def proxyOffLoop (env : Env) (o : Oracle) (tcpDescription udpDescription : String) :
    List (String × PortFwdSession) → List Event
  | [] => []
  | (id, session) :: rest =>
    if session.Description = tcpDescription ∨ session.Description = udpDescription then
      match session.Agent with
      | none => [.cancel id, .panic "nil pointer dereference: session.Agent"]
      | some owner =>
        match o.sendErrOf (proxyDeleteCmd env id) with
        | some e =>
          [.cancel id, .send (proxyDeleteCmd env id) "" owner.Tag,
            .log .error "SendCmd: %v" [e]]
        | none =>
          Event.cancel id :: Event.send (proxyDeleteCmd env id) "" owner.Tag ::
            proxyOffLoop env o tcpDescription udpDescription rest
    else proxyOffLoop env o tcpDescription udpDescription rest

/-- The function `moduleProxy`. -/
def moduleProxy (env : Env) (o : Oracle) (w : World) : World × List Event :=
  match o.activeAgent with
  | none => (w, [.log .error "No active agent" []])
  | some activeAgent =>
    match w.ActiveModule with
    | none => (w, [.panic "nil pointer dereference: live.ActiveModule"])
    | some p =>
      let opts := (w.heap p).Options.getD []
      match mapGet opts "port" with
      | none => (w, [.log .error "Option 'port' not found" []])
      | some none => (w, [.panic "nil pointer dereference: portOpt"])
      | some (some portOpt) =>
        match mapGet opts "status" with
        | none => (w, [.log .error "Option 'status' not found" []])
        | some none => (w, [.panic "nil pointer dereference: statusOpt"])
        | some (some statusOpt) =>
          match proxyBindAddr opts with
          | none => (w, [.panic "nil pointer dereference: bindAddrOpt"])
          | some bindAddr =>
            let pf := proxyTcpSession env activeAgent portOpt.Val bindAddr
            let pfu := proxyUdpSession env activeAgent portOpt.Val bindAddr
            if statusOpt.Val = "on" then proxyOn env o w pf pfu activeAgent.Tag
            else if statusOpt.Val = "off" then
              (w, proxyOffLoop env o pf.Description pfu.Description w.PortFwds)
            else (w, [.log .error "Unknown operation '%s'" [statusOpt.Val]])

/-! ## Sample data -/

/-- A concrete environment: quoting wraps in double quotes (what `strconv.Quote` does to
text without special characters), digests are fixed texts, lower-casing outside ASCII covers
the Latin-1 capitals (the sample texts are ASCII). -/
def sampleEnv : Env :=
  { C2CmdCustomModule := "!custom_module",
    C2CmdListDir := "ls",
    MagicString := "magic",
    WWWRoot := "/www/",
    EmpWorkSpace := "/ws",
    AgentRoot := "/agent",
    Quote := fun s => "\"" ++ s ++ "\"",
    SHA256SumRaw := fun _ => "3e25960a79dbc69b674cd4ec67a72c62",
    SHA256SumFile := fun _ _ => "9f86d081884c7d65",
    CompressXz := fun d => .ok d,
    Base := fun s => s,
    Clean := fun s => s,
    UnicodeToLower := fun c =>
      if 0xC0 ≤ c.toNat ∧ c.toNat ≤ 0xDE ∧ c.toNat ≠ 0xD7 then Char.ofNat (c.toNat + 32) else c,
    showModule := fun c => c.Name,
    showMB := fun _ => "0.0000",
    C2CmdPortFwd := "!port_fwd",
    C2CmdDeletePortFwd := "!delete_portfwd",
    AgentSocksServerPort := "1080",
    AgentSocksTimeout := 120 }

/-- A world with one manifest module `m` at address 0, registered with `moduleCustom`, made
the active module, and an optional selected agent. -/
def worldWith (m : ModuleConfig) (agent : Option Agent) : World :=
  { ActiveModule := some 0,
    ActiveAgent := agent,
    Modules := [(m.Name, 0)],
    ModuleRunners := [(m.Name, Runner.moduleCustom)],
    heap := fun _ => m }

/-! ## Notions used in the statements -/

/-- The event logged when a local module stops after the build step. -/
def pluginNotice (name : String) : Event :=
  .log .print "%s will run as a plugin on C2, no files will be executed on target" [name]

/-- The module `M` of the scenario: build "make", in-memory, one file, not local. -/
def scenarioM : ModuleConfig :=
  { Name := "M", Platform := "generic", Build := "make",
    AgentConfig := { InMemory := true, Files := ["x.bin"] } }

/-- A manifest module loaded from a `config.json` that has no `options` object: its option map
is nil; it is neither built-in nor local. -/
def noOptionsModule : ModuleConfig :=
  { Name := "M", Platform := "generic", Options := none, AgentConfig := { Exec := "run.sh" } }

/-- The option map after `UpdateOptions` has looked at an allocated map `opts` of a module
with the given exec spec and locality. -/
def optionsAfterUpdate (env : Env) (exec : String) (isLocal : Bool)
    (opts : List (String × Option ModOption)) : List (String × Option ModOption) :=
  if ToLower env.UnicodeToLower exec ≠ "built-in" ∧ isLocal = false
      ∧ mapGet opts "download_addr" = none
  then mapSet opts "download_addr" (some download_addr_option) else opts

/-- The start command before a download address is appended, as each dispatch path builds it
for the active module `active` with manifest `config`; `fs` is the file system after the
packaging step, in which the payload is hashed. -/
def baseStartCmd (env : Env) (fs : FS) (active config : ModuleConfig) (envStr : String) : String :=
  if config.AgentConfig.InMemory then
    inMemoryBaseCmd env active.Name config.AgentConfig.PayloadType
      (FileBaseName env (env.WWWRoot ++ active.Name ++ ".xz"))
      (env.SHA256SumFile fs (env.WWWRoot ++ active.Name ++ ".xz")) envStr
  else
    compressedBaseCmd env active.Name
      (env.SHA256SumFile fs (env.WWWRoot ++ active.Name ++ ".tar.xz")) envStr
      config.AgentConfig.PayloadType (env.Base (env.WWWRoot ++ active.Name ++ ".tar.xz"))
      (if config.AgentConfig.IsInteractive then livenessProbe env else config.AgentConfig.Exec)

/-- The packaging step of the module's dispatch path succeeds: in memory, the first declared
file is read, compressed and written; otherwise the archive exists already or `TarXZ`
produces it. -/
def packagingSucceeds (env : Env) (o : Oracle) (w : World) (active config : ModuleConfig) : Prop :=
  if config.AgentConfig.InMemory then
    ∃ f fs data compressedBytes, config.AgentConfig.Files = f :: fs
      ∧ ReadFile w.fs (config.Path ++ "/" ++ f) = .ok data
      ∧ env.CompressXz data = .ok compressedBytes ∧ o.writeErr = none
  else
    IsFileExist w.fs (env.WWWRoot ++ active.Name ++ ".tar.xz") = true
      ∨ ∃ data, o.tarXZ = .ok data

/-- An interactive module delivered in memory, with its payload file in place. -/
def interactiveInMemory : ModuleConfig :=
  { Name := "M", Platform := "generic", Path := "/mods/M",
    AgentConfig :=
      { Exec := "shell.sh", PayloadType := "elf", Files := ["x.bin"], InMemory := true,
        IsInteractive := true } }

/-- The same module without the interactive flag. -/
def plainInMemory : ModuleConfig :=
  { interactiveInMemory with
    AgentConfig := { interactiveInMemory.AgentConfig with IsInteractive := false } }

/-- A world with `m` active, the agent `a1` selected and `m`'s payload file on disk. -/
def worldWithPayload (m : ModuleConfig) : World :=
  { worldWith m (some ⟨"a1", "linux"⟩) with fs := [("/mods/M/x.bin", .file [1, 2, 3])] }

/-- An interactive module shipped as an archive, with an `args` option. -/
def interactiveArchive : ModuleConfig :=
  { Name := "M", Platform := "generic", Path := "/mods/M",
    Options := some [("args", some ⟨"args", "arguments", "-l", []⟩)],
    AgentConfig := { Exec := "shell.sh", PayloadType := "elf", IsInteractive := true } }

/-- A module shipped as an archive whose `download_addr` option points at a caching agent. -/
def cachedArchive : ModuleConfig :=
  { Name := "M", Platform := "generic", Path := "/mods/M",
    Options := some [("download_addr", some ⟨"download_addr", "url", "10.0.0.9:8000", []⟩)],
    AgentConfig := { Exec := "run.sh", PayloadType := "elf" } }

/-- The number of `util.TarXZ` calls in a run. -/
def tarXZCalls (t : List Event) : Nat :=
  t.countP (fun e => match e with | .tarXZ _ _ => true | _ => false)

/-- The registry keys of the sessions cancelled in a run, in order. -/
def cancelledIds (t : List Event) : List String :=
  t.filterMap (fun e => match e with | .cancel id => some id | _ => none)

/-- The commands handed to `CmdSender` in a run, each with the tag it is addressed to. -/
def sentTo (t : List Event) : List (String × String) :=
  t.filterMap (fun e => match e with | .send c _ tag => some (c, tag) | _ => none)

/-- A non-interactive module shipped as an archive. -/
def plainArchive : ModuleConfig :=
  { Name := "M", Platform := "generic", Path := "/mods/M",
    AgentConfig := { Exec := "run.sh", PayloadType := "elf" } }

/-- A world in which `os.Stat` of the archive path of `plainArchive` fails with an error other
than not-exist (for instance because `/www` is not a directory): no regular file is there. -/
def deniedArchiveWorld : World :=
  { worldWith plainArchive (some ⟨"a1", "linux"⟩) with fs := [("/www/M.tar.xz", .denied)] }

/-- The agents of the examples. -/
def agentA1 : Agent := ⟨"a1", "linux"⟩

/-- A second agent. -/
def agentA2 : Agent := ⟨"a2", "linux"⟩

/-- An oracle for which `agents.MustGetActiveAgent()` returns `a1` and every send succeeds. -/
def oracleA1 : Oracle := { activeAgent := some agentA1 }

/-- An oracle for which `agents.MustGetActiveAgent()` returns `a1` and every send fails. -/
def oracleA1SendFails : Oracle := { activeAgent := some agentA1, sendErr := some "agent offline" }

/-- The options of a port-forward request with the given switch and bind address. -/
def portFwdOptions (switch : String) (bind : Option String) : List (String × Option ModOption) :=
  [("switch", some ⟨"switch", "operation", switch, ["on", "off", "reverse"]⟩),
   ("to", some ⟨"to", "destination", "10.0.0.5:80", []⟩),
   ("listen_port", some ⟨"listen_port", "port", "8080", []⟩),
   ("protocol", some ⟨"protocol", "protocol", "tcp", ["tcp", "udp"]⟩)] ++
  (match bind with
    | some b => [("bind_addr", some ⟨"bind_addr", "bind address", b, []⟩)]
    | none => [])

/-- A world whose active module is the port-forward module with the given options and whose
session registry is `reg`. -/
def portFwdWorld (opts : List (String × Option ModOption)) (reg : List (String × PortFwdSession)) :
    World :=
  { ActiveModule := some 0,
    heap := fun _ => { Name := "port_fwd", Options := some opts },
    PortFwds := reg }

/-- A session to 10.0.0.5:80 listening on 8080, with the given protocol and owner. -/
def webSession (protocol : String) (owner : Agent) : PortFwdSession :=
  { Protocol := protocol, Lport := "8080", To := "10.0.0.5:80", BindAddr := "127.0.0.1",
    SendCmdFunc := true, Agent := some owner }

/-- A session to another destination on the same listen port. -/
def sshSession : PortFwdSession :=
  { Protocol := "tcp", Lport := "8080", To := "10.0.0.6:22", BindAddr := "127.0.0.1",
    SendCmdFunc := true, Agent := some agentA1 }

/-- The options of a proxy request with the given status. -/
def proxyOptions (status : String) : List (String × Option ModOption) :=
  [("port", some ⟨"port", "local port", "8388", []⟩),
   ("status", some ⟨"status", "operation", status, ["on", "off"]⟩)]

/-- The registry left by a proxy "on" request on port 8388: its TCP and its UDP session. -/
def proxyRegistry : List (String × PortFwdSession) :=
  [("p1", proxyTcpSession sampleEnv agentA1 "8388" "127.0.0.1"),
   ("p2", proxyUdpSession sampleEnv agentA1 "8388" "127.0.0.1")]

/-- The session's description is the TCP or the UDP proxy description built from the bind
address `b` and the port `port` (the test of the "off" loop of `moduleProxy`). -/
def describesProxy (env : Env) (b port : String) (s : PortFwdSession) : Prop :=
  s.Description = proxyTcpDescription b port ("127.0.0.1:" ++ env.AgentSocksServerPort)
    ∨ s.Description = proxyUdpDescription b port ("127.0.0.1:" ++ env.AgentSocksServerPort)

/-! ## Helpers of package `util` (`str.go`, `file.go`) -/

/-- The loop of `RemoveDupsFromArray`: `allKeys` holds the items seen so far, `list` the
result so far. -/
def removeDupsLoop {α : Type} [DecidableEq α] : List α → List α → List α → List α
  | [], _, list => list
  | item :: rest, allKeys, list =>
    if item ∈ allKeys then removeDupsLoop rest allKeys list
    else removeDupsLoop rest (item :: allKeys) (list ++ [item])

/-- The function `RemoveDupsFromArray` (for `T` a string or an int: any type with decidable
equality). -/
def RemoveDupsFromArray {α : Type} [DecidableEq α] (sliceList : List α) : List α :=
  removeDupsLoop sliceList [] []

/-- The function `rand.Intn(n)` for the outcome `r` of the random source: a value in `[0, n)`;
it panics when `n ≤ 0`. -/
def Intn (r : Nat) (n : Int) : Except String Int :=
  if n ≤ 0 then .error "invalid argument to Intn" else .ok ((r : Int) % n)

/-- Lines 94-101 of `RandInt`: `min + rand.Intn(max-min)`, from either random source. -/
def randBetween (r : Nat) (min max : Int) : Except String Int :=
  match Intn r (max - min) with
  | .ok v => .ok (min + v)
  | .error e => .error e

/-- The function `RandInt`; `r1`, `r2`, `r3` are the outcomes of the random source for the two
inner calls `RandInt(0, 100)` and for the final draw; `.error` is a panic. -/
def RandInt (r1 r2 r3 : Nat) (min max : Int) : Except String Int :=
  if min > max ∨ min < 0 ∨ max < 0 then
    match randBetween r1 0 100 with
    | .error e => .error e
    | .ok min2 =>
      match randBetween r2 0 100 with
      | .error e => .error e
      | .ok d => randBetween r3 min2 (min2 + d)
  else randBetween r3 min max

/-- The closure `find_hole` of `FindHolesInBinary`, on the bytes from index `i` on; `e` is
the value of `end` so far (0 at the start). -/
def find_hole : Bytes → Nat → Nat → Nat
  | [], _, e => e
  | b :: bs, i, e => if b = 0 then find_hole bs (i + 1) i else e

/-- The main loop of `FindHolesInBinary` from index `i`, with fuel for the iterations. -/
def findHolesLoop (fdata : Bytes) (size : Int) : Nat → Nat → List Nat
  | 0, _ => []
  | fuel + 1, i =>
    if i < fdata.length then
      if fdata.getD i 1 = 0 then
        let e := find_hole (fdata.drop i) i 0
        (if (e : Int) - (i : Int) ≥ size then [i] else []) ++ findHolesLoop fdata size fuel (e + 1)
      else findHolesLoop fdata size fuel (i + 1)
    else []

/-- The function `FindHolesInBinary`: the indexes returned (its error is always nil). Every
iteration moves the index forward, so `len(fdata)` iterations are enough. -/
def FindHolesInBinary (fdata : Bytes) (size : Int) : List Nat :=
  findHolesLoop fdata size (fdata.length + 1) 0

/-- How `fmt` renders a rune under `%x`: lower-case hexadecimal digits, no padding. -/
def hexOf (c : Char) : String :=
  String.mk (Nat.toDigits 16 c.toNat)

/-- The function `HexEncode`. -/
def HexEncode (s : String) : String :=
  s.data.foldl (fun result c => result ++ "\\x" ++ hexOf c) ""

/-- The table after the transport's work before polls `i`, `i+1`, ..., `i+n-1`, when nothing
else writes to it. -/
def afterArrivals (arrivals : Nat → List (String × String) → List (String × String)) :
    Nat → Nat → List (String × String) → List (String × String)
  | 0, _, T => T
  | n + 1, i, T => afterArrivals arrivals n (i + 1) (arrivals i T)

/-- The number of table lookups made by a run of the wait loop of `moduleProxy`: one before
each blink, and the one that found the entry. -/
def pollsOf (r : Bool × List (String × String) × List Event) : Nat :=
  r.2.2.length + (if r.1 then 1 else 0)

/-- The sessions handed to `RunPortFwd` in a run. -/
def startedSessions (t : List Event) : List PortFwdSession :=
  t.filterMap (fun e => match e with | .runPortFwd pf => some pf | _ => none)

/-- An interactive module whose manifest declares options but no `args`. -/
def noArgsInteractive : ModuleConfig :=
  { Name := "M", Platform := "generic", Path := "/mods/M",
    Options := some [("verbose", some ⟨"verbose", "more output", "1", []⟩)],
    AgentConfig := { Exec := "shell.sh", PayloadType := "elf", IsInteractive := true } }

/-! ## Command-line parsing (`str.go`, `fs.go`)

`ParseCmd` draws two fresh texts `space` and `tab` from `uuid.NewString()` and uses them as
placeholders. The embedding works on texts of symbols: a symbol is a character or one of the
two placeholders, taken as a whole. This is what their being fresh means: a placeholder is
none of the characters of the command, and (being hexadecimal digits and hyphens) it is
neither white space, nor a quote, nor a backslash. -/

/-- What `unicode.IsSpace` accepts (the white space of `strings.Fields` and
`strings.TrimSpace`). -/
def isSpace (c : Char) : Bool :=
  c = '\t' || c = '\n' || c.toNat = 0x0B || c.toNat = 0x0C || c = '\r' || c = ' ' ||
  c.toNat = 0x85 || c.toNat = 0xA0 || c.toNat = 0x1680 ||
  (0x2000 ≤ c.toNat && c.toNat ≤ 0x200A) || c.toNat = 0x2028 || c.toNat = 0x2029 ||
  c.toNat = 0x202F || c.toNat = 0x205F || c.toNat = 0x3000

/-- One symbol of the text handled by `ParseCmd`: a character of the command, or the
placeholder `space`, or the placeholder `tab`. -/
inductive Sym
  | chr (c : Char)
  | space
  | tab
deriving DecidableEq, Repr

/-- A command as a text of symbols. -/
def symsOf (cmd : String) : List Sym :=
  cmd.data.map Sym.chr

/-- White-space symbols: the white-space characters. -/
def symIsSpace : Sym → Bool
  | .chr c => isSpace c
  | _ => false

/-- The function `strings.ReplaceAll(s, string([a, b]), r)` for a pattern of two characters
and a replacement that is one symbol: the occurrences are replaced from left to right. -/
def replaceAllPair (a b : Char) (r : Sym) : List Sym → List Sym
  | [] => []
  | [s] => [s]
  | s :: t :: rest =>
    if s = .chr a ∧ t = .chr b then r :: replaceAllPair a b r rest
    else s :: replaceAllPair a b r (t :: rest)

/-- The expression `strings.ReplaceAll(strings.ReplaceAll(arg, space, " "), tab, "\t")`,
which turns a text of symbols back into a string. -/
def restore (arg : List Sym) : String :=
  String.mk (arg.map (fun s => match s with
    | .chr c => c
    | .space => ' '
    | .tab => '\t'))

/-- The fields of `strings.Fields`, with `cur` the field being read. -/
def fieldsAux : List Sym → List Sym → List (List Sym)
  | [], cur => match cur with
    | [] => []
    | _ :: _ => [cur]
  | s :: rest, cur =>
    if symIsSpace s then
      match cur with
      | [] => fieldsAux rest []
      | _ :: _ => cur :: fieldsAux rest []
    else fieldsAux rest (cur ++ [s])

/-- The function `strings.Fields`: the maximal blocks without white space. -/
def Fields (s : List Sym) : List (List Sym) :=
  fieldsAux s []

/-- Removing from both ends of `l` the elements that satisfy `p`. -/
def trimBoth {α : Type} (p : α → Bool) (l : List α) : List α :=
  ((l.dropWhile p).reverse.dropWhile p).reverse

/-- The function `strings.TrimSpace`. -/
def TrimSpace (s : String) : String :=
  String.mk (trimBoth isSpace s.data)

/-- The function `parseEscapedCmd` (on the command as a text of symbols). -/
def parseEscapedCmd (cmd : List Sym) : List String :=
  let temp := replaceAllPair '\\' ' ' .space cmd
  let temp := replaceAllPair '\\' 't' .tab temp
  (Fields temp).map restore

/-- What the line reading of `encoding/csv` does to its input: a carriage return right
before a newline is dropped, and so is one at the very end of the input. -/
def csvNormalize : List Sym → List Sym
  | [] => []
  | s :: rest =>
    match rest with
    | [] => if s = .chr '\r' then [] else [s]
    | t :: _ =>
      if s = .chr '\r' ∧ t = .chr '\n' then csvNormalize rest
      else s :: csvNormalize rest

/-- Where the record reader of `encoding/csv` is: at the start of a field, in a field that
did not start with a quote, in a quoted field, or right after a quote in a quoted field. -/
inductive CsvState
  | fieldStart
  | unquoted
  | quoted
  | quoteSeen
deriving DecidableEq, Repr

/-- The fields of the first record, as `encoding/csv` reads them with `Comma = ' '` and
`LazyQuotes = true` (so no field is an error); `cur` is the field being read. A field that
does not start with a quote ends at the next space or at the end of the line. A quoted
field ends at a quote followed by a space or by the end of the line; in it a doubled quote
is a quote, a quote followed by anything else is kept, and a newline is kept. -/
def csvFields : CsvState → List Sym → List Sym → List (List Sym)
  | .fieldStart, _, [] => [[]]
  | .fieldStart, _, s :: rest =>
    if s = .chr '"' then csvFields .quoted [] rest
    else if s = .chr ' ' then [] :: csvFields .fieldStart [] rest
    else if s = .chr '\n' then [[]]
    else csvFields .unquoted [s] rest
  | .unquoted, cur, [] => [cur]
  | .unquoted, cur, s :: rest =>
    if s = .chr ' ' then cur :: csvFields .fieldStart [] rest
    else if s = .chr '\n' then [cur]
    else csvFields .unquoted (cur ++ [s]) rest
  | .quoted, cur, [] => [cur]
  | .quoted, cur, s :: rest =>
    if s = .chr '"' then csvFields .quoteSeen cur rest
    else csvFields .quoted (cur ++ [s]) rest
  | .quoteSeen, cur, [] => [cur]
  | .quoteSeen, cur, s :: rest =>
    if s = .chr '"' then csvFields .quoted (cur ++ [.chr '"']) rest
    else if s = .chr ' ' then cur :: csvFields .fieldStart [] rest
    else if s = .chr '\n' then [cur]
    else csvFields .quoted (cur ++ [.chr '"', s]) rest

/-- The call `r.Read()` of `parseQuotedCmd` on a fresh reader: empty lines are skipped;
`none` is the error `io.EOF` of an input without a record. -/
def csvRead (input : List Sym) : Option (List (List Sym)) :=
  match (csvNormalize input).dropWhile (fun s => s = .chr '\n') with
  | [] => none
  | s :: rest => some (csvFields .fieldStart [] (s :: rest))

/-- The function `parseQuotedCmd` (on the command as a text of symbols); on a read error it
logs and returns nil. -/
def parseQuotedCmd (cmd : List Sym) : List (List Sym) :=
  let cmd := cmd.map (fun s => if s = .chr '\'' then .chr '"' else s)
  match csvRead cmd with
  | none => []
  | some fields => fields.map (trimBoth symIsSpace)

/-- The function `ParseCmd`. -/
def ParseCmd (cmd : String) : List String :=
  let isQuoted := Contains cmd "'" && cmd.data.count '\'' % 2 == 0 && !Contains cmd "\\"
  let isEscaped := Contains cmd "\\"
  let isDoubleQuoted := Contains cmd "\"" && cmd.data.count '"' % 2 == 0
  if isEscaped && (isQuoted || isDoubleQuoted) then
    (parseQuotedCmd (replaceAllPair '\\' 't' .tab
      (replaceAllPair '\\' ' ' .space (symsOf cmd)))).map restore
  else if isEscaped then parseEscapedCmd (symsOf cmd)
  else if isQuoted || isDoubleQuoted then (parseQuotedCmd (symsOf cmd)).map restore
  else (Fields (symsOf cmd)).map restore

/-- The function `strings.Join`. -/
def Join : List String → String → String
  | [], _ => ""
  | [a], _ => a
  | a :: b :: rest, sep => a ++ sep ++ Join (b :: rest) sep

/-- The command text that `CmdFSCmdDst` hands to `executeCmd`. -/
def CmdFSCmdDst (cmd dst : String) : String :=
  cmd ++ " --dst '" ++ dst ++ "'"

/-- The command text that `CmdFSCmdSrcDst` hands to `executeCmd`. -/
def CmdFSCmdSrcDst (cmd src dst : String) : String :=
  cmd ++ " --src '" ++ src ++ "' --dst '" ++ dst ++ "'"

/-- The first piece of `strings.SplitN(line, "=", 2)`: the text before the first `=`. -/
def beforeEq (line : String) : String :=
  String.mk (line.data.takeWhile (fun c => c ≠ '='))

/-- The second piece of `strings.SplitN(line, "=", 2)`: the text after the first `=`. -/
def afterEq (line : String) : String :=
  String.mk ((line.data.dropWhile (fun c => c ≠ '=')).drop 1)

/-- The loop of `ParseEnvStr` over the lines still to be read; `envMap` is the map so far. -/
def parseEnvLines : List String → List (String × String) → List (String × String)
  | [], envMap => envMap
  | line :: rest, envMap =>
    if Contains line "=" then
      parseEnvLines rest (mapSet envMap (TrimSpace (beforeEq line)) (TrimSpace (afterEq line)))
    else parseEnvLines rest envMap

/-- The function `ParseEnvStr`. -/
def ParseEnvStr (envStr : String) : List (String × String) :=
  parseEnvLines (Split envStr ',') []

/-- The escaped form of one character of a name, as `escapeName` gives it. -/
def escapeChar (c : Char) : List Char :=
  if c = '\t' then ['\\', 't'] else if c = ' ' then ['\\', ' '] else [c]

/-- The escaped form of one character after the first substitution of `parseEscapedCmd`,
which puts the placeholder `space` for backslash-space. -/
def firstPassOf (c : Char) : List Sym :=
  if c = '\t' then [.chr '\\', .chr 't'] else if c = ' ' then [.space] else [.chr c]

/-- The escaped form of one character after both substitutions: the placeholder for a space
or a tab, the character itself otherwise. -/
def placeholderOf (c : Char) : Sym :=
  if c = '\t' then .tab else if c = ' ' then .space else .chr c

/-- Texts of symbols joined with single spaces. -/
def joinSyms : List (List Sym) → List Sym
  | [] => []
  | [e] => e
  | e :: e2 :: es => e ++ Sym.chr ' ' :: joinSyms (e2 :: es)

/-- A token of the escape/parse round trip: not empty, without backslash, single quote or
double quote, and with no white space other than space and tab. -/
def plainToken (t : String) : Prop :=
  t ≠ "" ∧ ∀ c ∈ t.data, c ≠ '\\' ∧ c ≠ '\'' ∧ c ≠ '"' ∧ (isSpace c = true → c = ' ' ∨ c = '\t')

/-- A bare word: no white space, no single or double quote, no backslash. -/
def bareword (cmd : String) : Prop :=
  ∀ c ∈ cmd.data, isSpace c = false ∧ c ≠ '\'' ∧ c ≠ '"' ∧ c ≠ '\\'

/-- A path of the quoting round trip: no single or double quote, no backslash, no newline,
and no white space at its start or at its end. -/
def quotablePath (p : String) : Prop :=
  (∀ c ∈ p.data, c ≠ '\'' ∧ c ≠ '"' ∧ c ≠ '\\' ∧ c ≠ '\n')
    ∧ (∀ c, p.data.head? = some c → isSpace c = false)
    ∧ (∀ c, p.data.getLast? = some c → isSpace c = false)

/-- A text without white space at its start or at its end. -/
def trimmed (s : String) : Prop :=
  (∀ c, s.data.head? = some c → isSpace c = false)
    ∧ (∀ c, s.data.getLast? = some c → isSpace c = false)

/-- An option of the environment-string round trip: it has a value (its pointer is not
nil), its name contains no `,` and no `=`, its value contains no `,`, and neither has white
space at its start or end. -/
def envEntry (e : String × Option ModOption) : Prop :=
  match e.2 with
  | none => False
  | some o => ',' ∉ e.1.data ∧ '=' ∉ e.1.data ∧ ',' ∉ o.Val.data ∧ trimmed e.1 ∧ trimmed o.Val

/-- The map name ↦ value of an option map. -/
def valuesOf (opts : List (String × Option ModOption)) : List (String × String) :=
  opts.filterMap (fun e => e.2.map (fun o => (e.1, o.Val)))

/-- A module with two options. -/
def twoOptionModule : ModuleConfig :=
  { Name := "M", Platform := "generic", Path := "/mods/M",
    Options := some [("target", some ⟨"target", "host", "10.0.0.5", []⟩),
                     ("query", some ⟨"query", "filter", "a=b c", []⟩)],
    AgentConfig := { Exec := "run.sh", PayloadType := "bash" } }

/-! ## Lemmas on maps and traces -/

theorem mapGet_mapDelete_self {V : Type} (m : List (String × V)) (k : String) :
    mapGet (mapDelete m k) k = none := by
  induction m with
  | nil => rfl
  | cons e rest ih =>
    obtain ⟨k1, v⟩ := e
    by_cases h : k1 = k
    · simpa [mapDelete, h] using ih
    · simpa [mapDelete, mapGet, h] using ih

theorem mapGet_mapDelete_ne {V : Type} (m : List (String × V)) (k k2 : String) (hk : k2 ≠ k) :
    mapGet (mapDelete m k) k2 = mapGet m k2 := by
  induction m with
  | nil => rfl
  | cons e rest ih =>
    obtain ⟨k1, v⟩ := e
    by_cases h : k1 = k
    · subst h
      have h2 : ¬ k1 = k2 := fun h3 => hk h3.symm
      simpa [mapDelete, mapGet, h2] using ih
    · by_cases h3 : k1 = k2
      · subst h3
        simp [mapDelete, mapGet, h]
      · simpa [mapDelete, mapGet, h, h3] using ih

theorem mapGet_mapSet_self {V : Type} (m : List (String × V)) (k : String) (v : V) :
    mapGet (mapSet m k v) k = some v := by
  induction m with
  | nil => simp [mapSet, mapGet]
  | cons e rest ih =>
    obtain ⟨k1, v1⟩ := e
    by_cases h : k1 = k
    · simp [mapSet, mapGet, h]
    · simpa [mapSet, mapGet, h] using ih

theorem mapGet_mapSet_ne {V : Type} (m : List (String × V)) (k k2 : String) (v : V)
    (hk : k2 ≠ k) : mapGet (mapSet m k v) k2 = mapGet m k2 := by
  induction m with
  | nil => simp [mapSet, mapGet, Ne.symm hk]
  | cons e rest ih =>
    obtain ⟨k1, v1⟩ := e
    by_cases h : k1 = k
    · subst h
      have h2 : ¬ k1 = k2 := fun h3 => hk h3.symm
      simp [mapSet, mapGet, h2]
    · by_cases h3 : k1 = k2
      · subst h3
        simp [mapSet, mapGet, h]
      · simpa [mapSet, mapGet, h, h3] using ih

theorem splitAux_ne_nil (sep : Char) (cs cur : List Char) : splitAux sep cs cur ≠ [] := by
  induction cs generalizing cur with
  | nil => simp [splitAux]
  | cons c rest ih =>
    by_cases h : c = sep
    · simp [splitAux, h]
    · simpa [splitAux, h] using ih (c :: cur)

theorem Split_cons (s : String) (sep : Char) : ∃ hd tl, Split s sep = hd :: tl := by
  have h := splitAux_ne_nil sep s.data []
  cases hs : splitAux sep s.data [] with
  | nil => exact absurd hs h
  | cons hd tl => exact ⟨hd, tl, hs⟩

theorem listRemoteDirWait_absent (arrivals : Nat → List (String × String) → List (String × String)) (cmd_id : String)
    (hq : ∀ i T, mapGet (arrivals i T) cmd_id = mapGet T cmd_id) (n i : Nat) (T : List (String × String))
    (hT : mapGet T cmd_id = none) : (listRemoteDirWait arrivals n i T cmd_id).1 = [] := by
  induction n generalizing i T with
  | zero => rfl
  | succ n ih =>
    have h1 : mapGet (arrivals i T) cmd_id = none := by
      rw [hq i T]; exact hT
    simp only [listRemoteDirWait, h1]
    exact ih (i + 1) _ h1

theorem moduleProxyWait_absent (arrivals : Nat → List (String × String) → List (String × String)) (cmd_id : String)
    (hq : ∀ i T, mapGet (arrivals i T) cmd_id = mapGet T cmd_id) (n i : Nat) (T : List (String × String))
    (hT : mapGet T cmd_id = none) : (moduleProxyWait arrivals n i T cmd_id).1 = false := by
  induction n generalizing i T with
  | zero => rfl
  | succ n ih =>
    have h1 : mapGet (arrivals i T) cmd_id = none := by
      rw [hq i T]; exact hT
    simp only [moduleProxyWait, h1]
    exact ih (i + 1) _ h1

/-! ## Result retrieval -/

/-- C1: delete-on-read. Let `arrivals i T` be the pending-result table seen by a poll of the
wait loop (the table `T` after what the transport did to it before that poll), holding `v`
under `cmd_id`. Then the loop of `listRemoteDirWorker` ends at that poll with the lines of
`v` and the loop of `moduleProxy` "on" ends with `ok = true`; both leave that table without
the entry of `cmd_id` and with every other entry unchanged; a later retrieval for the same
id, during which the transport leaves the entry of `cmd_id` alone, finds nothing.
`listRemoteDirWorker` hands the lines back as `(cwd, names)`: the first line, and the other
lines with tab and space escaped. -/
theorem C1_delete_on_read (arrivals : Nat → List (String × String) → List (String × String))
    (n i : Nat) (T : List (String × String)) (cmd_id v : String)
    (h : mapGet (arrivals i T) cmd_id = some v) :
    listRemoteDirWait arrivals (n + 1) i T cmd_id
        = (Split v '\n', mapDelete (arrivals i T) cmd_id)
      ∧ moduleProxyWait arrivals (n + 1) i T cmd_id
        = (true, mapDelete (arrivals i T) cmd_id, [])
      ∧ mapGet (mapDelete (arrivals i T) cmd_id) cmd_id = none
      ∧ (∀ k, k ≠ cmd_id → mapGet (mapDelete (arrivals i T) cmd_id) k
          = mapGet (arrivals i T) k)
      ∧ (∀ later : Nat → List (String × String) → List (String × String),
          (∀ j T2, mapGet (later j T2) cmd_id = mapGet T2 cmd_id) →
          ∀ m j, (listRemoteDirWait later m j
              (mapDelete (arrivals i T) cmd_id) cmd_id).1 = []
            ∧ (moduleProxyWait later m j
              (mapDelete (arrivals i T) cmd_id) cmd_id).1 = false)
      ∧ (∀ (env : Env) (o : Oracle) (w : World) (path_to_list agent_tag : String),
          o.sendErr = none → o.arrivals = arrivals → o.polls = n + 1 → o.cmd_id = cmd_id →
          i = 0 → w.CmdResults = T →
          ∃ cwd rest, Split v '\n' = cwd :: rest ∧
            listRemoteDirWorker env o w path_to_list agent_tag
              = ((cwd, rest.map escapeName),
                 { w with CmdResults := mapDelete (arrivals 0 T) cmd_id },
                 [.send (env.C2CmdListDir ++ " --path " ++ path_to_list) cmd_id agent_tag])) := by
  refine ⟨?_, ?_, mapGet_mapDelete_self _ _, fun k hk => mapGet_mapDelete_ne _ _ _ hk, ?_, ?_⟩
  · simp only [listRemoteDirWait, h]
  · simp only [moduleProxyWait, h]
  · intro later hl m j
    exact ⟨listRemoteDirWait_absent later cmd_id hl m j _ (mapGet_mapDelete_self _ _),
      moduleProxyWait_absent later cmd_id hl m j _ (mapGet_mapDelete_self _ _)⟩
  · intro env o w path_to_list agent_tag hs ha hp hc hi hw
    subst hi
    obtain ⟨cwd, rest, hsplit⟩ := Split_cons v '\n'
    refine ⟨cwd, rest, hsplit, ?_⟩
    have h0 : listRemoteDirWait o.arrivals o.polls 0 w.CmdResults o.cmd_id
        = (cwd :: rest, mapDelete (arrivals 0 T) cmd_id) := by
      rw [ha, hp, hc, hw, ← hsplit]
      simp only [listRemoteDirWait, h]
    rw [hc] at h0
    simp only [listRemoteDirWorker, hs, hc, h0]

/-- C1, at a concrete table: the entry of `id1` is retrieved and removed, `id2` stays. -/
theorem C1_delete_on_read_witness :
    mapGet [("id1", "/tmp\na b"), ("id2", "x")] "id1" = some "/tmp\na b"
      ∧ listRemoteDirWait (fun _ T => T) (0 + 1) 0 [("id1", "/tmp\na b"), ("id2", "x")] "id1"
        = (Split "/tmp\na b" '\n', mapDelete [("id1", "/tmp\na b"), ("id2", "x")] "id1") :=
  ⟨by decide, (C1_delete_on_read (fun _ T => T) 0 0 [("id1", "/tmp\na b"), ("id2", "x")] "id1"
    "/tmp\na b" (by decide)).1⟩

/-! ## The platform and target gates of `ModuleRun` -/

theorem ToLower_generic (f : Char → Char) : ToLower f "generic" = "generic" := rfl

theorem ToLower_windows (f : Char → Char) : ToLower f "windows" = "windows" := rfl

/-- C2: with a runner registered and a target selected, a module whose platform is "generic"
is launched whatever OS the target reports; a module whose platform is "windows" is not
launched against a target reporting "linux", and the world is left as it was. -/
theorem C2_platform_gate (env : Env) (w : World) (p : Nat) (a : Agent) (r : Runner)
    (hm : w.ActiveModule = some p) (ha : w.ActiveAgent = some a)
    (hr : mapGet w.ModuleRunners (w.heap p).Name = some r) :
    ((w.heap p).Platform = "generic" → ModuleRun env w = (w, [.launch r]))
      ∧ ((w.heap p).Platform = "windows" → a.GOOS = "linux" →
          ModuleRun env w = (w, [.log .error "ModuleRun: module %s does not support %s"
            [env.Quote (w.heap p).Name, "linux"]])) := by
  constructor
  · intro hg
    simp [ModuleRun, hm, ha, hr, hg, ToLower_generic]
  · intro hp hl
    have h1 : ¬ ("windows" = "generic") := by decide
    have h2 : ¬ ("linux" = "windows") := by decide
    simp [ModuleRun, hm, ha, hp, hl, ToLower_windows, h1, h2]

/-- C2, at a generic module against a target reporting "plan9". -/
theorem C2_platform_gate_witness :
    ModuleRun sampleEnv (worldWith { Name := "m", Platform := "generic" } (some ⟨"a1", "plan9"⟩))
      = (worldWith { Name := "m", Platform := "generic" } (some ⟨"a1", "plan9"⟩),
          [.launch .moduleCustom]) :=
  (C2_platform_gate sampleEnv (worldWith { Name := "m", Platform := "generic" }
    (some ⟨"a1", "plan9"⟩)) 0 ⟨"a1", "plan9"⟩ .moduleCustom rfl rfl (by decide)).1 rfl

/-- C3 fails as stated: "linux" and "Linux" are equal ignoring case, yet a module of platform
"linux" is refused against a target reporting "Linux"; and platform "Generic", which is not
the text "generic" and does not match "linux" in any case, is launched. -/
theorem C3_case_insensitive_counterexample :
    ToLower sampleEnv.UnicodeToLower "linux" = ToLower sampleEnv.UnicodeToLower "Linux"
      ∧ (ModuleRun sampleEnv
          (worldWith { Name := "m", Platform := "linux" } (some ⟨"a1", "Linux"⟩))).2
        = [.log .error "ModuleRun: module %s does not support %s" ["\"m\"", "Linux"]]
      ∧ "Generic" ≠ "generic"
      ∧ ToLower sampleEnv.UnicodeToLower "Generic" ≠ ToLower sampleEnv.UnicodeToLower "linux"
      ∧ (ModuleRun sampleEnv
          (worldWith { Name := "m", Platform := "Generic" } (some ⟨"a1", "linux"⟩))).2
        = [.launch .moduleCustom] := by
  decide

/-- C3, amended: with a runner registered and a target selected, the runner is launched if
and only if the module's platform, lower-cased, is "generic" or is exactly the OS text the
target reports (the target's text is not lower-cased). -/
theorem C3_platform_match (env : Env) (w : World) (p : Nat) (a : Agent) (r : Runner)
    (hm : w.ActiveModule = some p) (ha : w.ActiveAgent = some a)
    (hr : mapGet w.ModuleRunners (w.heap p).Name = some r) :
    Event.launch r ∈ (ModuleRun env w).2 ↔
      (ToLower env.UnicodeToLower (w.heap p).Platform = "generic"
        ∨ ToLower env.UnicodeToLower (w.heap p).Platform = a.GOOS) := by
  by_cases hg : ToLower env.UnicodeToLower (w.heap p).Platform = "generic"
  · simp [ModuleRun, hm, ha, hr, hg]
  · by_cases he : a.GOOS = ToLower env.UnicodeToLower (w.heap p).Platform
    · simp [ModuleRun, hm, ha, hr, hg, he]
    · have he2 : ¬ (ToLower env.UnicodeToLower (w.heap p).Platform = a.GOOS) :=
        fun h => he h.symm
      simp [ModuleRun, hm, ha, hr, hg, he, he2]

/-- C3 amended, at platform "Linux" against a target reporting "linux". -/
theorem C3_platform_match_witness :
    Event.launch .moduleCustom ∈ (ModuleRun sampleEnv
      (worldWith { Name := "m", Platform := "Linux" } (some ⟨"a1", "linux"⟩))).2 :=
  (C3_platform_match sampleEnv (worldWith { Name := "m", Platform := "Linux" }
    (some ⟨"a1", "linux"⟩)) 0 ⟨"a1", "linux"⟩ .moduleCustom rfl rfl (by decide)).2
    (Or.inr (by decide))

theorem ships_build_module (env : Env) (o : Oracle) (config active : ModuleConfig) :
    ∀ e ∈ (build_module env o config active).2, ships e = false ∧ crashed [e] = false := by
  intro e he
  have hs : ∀ (l : List (String × Option ModOption)), ∀ x ∈ setenvEvents l,
      ships x = false ∧ crashed [x] = false := by
    intro l x hx
    simp only [setenvEvents, List.mem_filterMap] at hx
    obtain ⟨y, _, hy⟩ := hx
    cases hy2 : y.2 with
    | none => simp [hy2] at hy
    | some opt =>
      simp [hy2] at hy
      subst hy
      simp [ships, crashed]
  unfold build_module at he
  cases hc : o.chdirErr with
  | some err =>
    simp [hc] at he
    subst he
    simp [ships, crashed]
  | none =>
    cases hb : o.buildErr with
    | some err =>
      simp [hc, hb] at he
      rcases he with he | he | he | he
      · subst he; simp [ships, crashed]
      · exact hs _ e he
      · subst he; simp [ships, crashed]
      · subst he; simp [ships, crashed]
    | none =>
      simp [hc, hb] at he
      rcases he with he | he | he | he
      · subst he; simp [ships, crashed]
      · exact hs _ e he
      · subst he; simp [ships, crashed]
      · subst he; simp [ships, crashed]

/-- C4: a local module with a registered runner and no target selected is launched by
`ModuleRun`; `moduleCustom`, for a module registered in `def.Modules` under its name, then
runs the build step exactly when one is declared and stops:
its trace is the build step followed by the build error, or by the build output and the
plugin notice; no event packages or ships anything (no `CmdSender` call), no panic occurs
(the nil `live.ActiveAgent` is never read) and the world is unchanged. -/
theorem C4_local_module_needs_no_target (env : Env) (o : Oracle) (w : World) (p : Nat)
    (r : Runner) (hm : w.ActiveModule = some p) (hl : (w.heap p).IsLocal = true)
    (ha : w.ActiveAgent = none) (hr : mapGet w.ModuleRunners (w.heap p).Name = some r)
    (hreg : mapGet w.Modules (w.heap p).Name = some p) :
    ModuleRun env w = (w, [.launch r])
      ∧ ((w.heap p).Build = "" → moduleCustom env o w = (w, [pluginNotice (w.heap p).Name]))
      ∧ ((w.heap p).Build ≠ "" →
          moduleCustom env o w = (w,
            [Event.log .print "Building %s..." [(w.heap p).Name]] ++
            (build_module env o (w.heap p) (w.heap p)).2 ++
            (match (build_module env o (w.heap p) (w.heap p)).1 with
              | .error e => [Event.log .error "Build module %s: %v" [(w.heap p).Name, e]]
              | .ok out => [Event.log .print "Module output:\n%s" [out],
                  pluginNotice (w.heap p).Name]))
          ∧ Event.chdir (w.heap p).Path ∈ (build_module env o (w.heap p) (w.heap p)).2
          ∧ (o.chdirErr = none →
              Event.exec (w.heap p).Build ∈ (build_module env o (w.heap p) (w.heap p)).2))
      ∧ (∀ e ∈ (moduleCustom env o w).2, ships e = false)
      ∧ sentCmds (moduleCustom env o w).2 = []
      ∧ crashed (moduleCustom env o w).2 = false := by
  have hrun : ModuleRun env w = (w, [.launch r]) := by
    simp [ModuleRun, hm, ha, hl, hr]
  have hempty : (w.heap p).Build = "" →
      moduleCustom env o w = (w, [pluginNotice (w.heap p).Name]) := by
    intro hb
    simp [moduleCustom, moduleCustomAfterBuild, hm, hreg, hl, hb, pluginNotice]
  have hbuild : (w.heap p).Build ≠ "" →
      moduleCustom env o w = (w,
        [Event.log .print "Building %s..." [(w.heap p).Name]] ++
        (build_module env o (w.heap p) (w.heap p)).2 ++
        (match (build_module env o (w.heap p) (w.heap p)).1 with
          | .error e => [Event.log .error "Build module %s: %v" [(w.heap p).Name, e]]
          | .ok out => [Event.log .print "Module output:\n%s" [out],
              pluginNotice (w.heap p).Name])) := by
    intro hb
    cases hres : (build_module env o (w.heap p) (w.heap p)).1 with
    | error e => simp [moduleCustom, hm, hreg, hb, hres]
    | ok out =>
      simp [moduleCustom, moduleCustomAfterBuild, hm, hreg, hl, hb, hres, pluginNotice]
  have hall : ∀ e ∈ (moduleCustom env o w).2, ships e = false ∧ crashed [e] = false := by
    intro e he
    by_cases hb : (w.heap p).Build = ""
    · rw [hempty hb] at he
      simp at he
      subst he
      simp [ships, crashed, pluginNotice]
    · rw [hbuild hb] at he
      simp only [List.mem_append, List.mem_singleton] at he
      rcases he with (he | he) | he
      · subst he; simp [ships, crashed]
      · exact ships_build_module env o _ _ e he
      · cases hres : (build_module env o (w.heap p) (w.heap p)).1 with
        | error err =>
          simp [hres] at he
          subst he; simp [ships, crashed]
        | ok out =>
          simp [hres] at he
          rcases he with he | he
          · subst he; simp [ships, crashed]
          · subst he; simp [ships, crashed, pluginNotice]
  refine ⟨hrun, hempty, ?_, fun e he => (hall e he).1, ?_, ?_⟩
  · intro hb
    refine ⟨hbuild hb, ?_, ?_⟩
    · unfold build_module
      cases o.chdirErr <;> cases o.buildErr <;> simp
    · intro hc
      unfold build_module
      cases o.buildErr <;> simp [hc]
  · simp only [sentCmds, List.filterMap_eq_nil_iff]
    intro e he
    have h1 := (hall e he).1
    cases e <;> simp_all [ships]
  · simp only [crashed, List.any_eq_false]
    intro e he
    have h1 := (hall e he).2
    cases e <;> simp_all [crashed]

/-- C4, at a local module with a build step and no agent selected. -/
theorem C4_local_module_needs_no_target_witness :
    ModuleRun sampleEnv (worldWith { Name := "plug", IsLocal := true, Build := "make" } none)
        = (worldWith { Name := "plug", IsLocal := true, Build := "make" } none,
            [.launch .moduleCustom])
      ∧ sentCmds (moduleCustom sampleEnv {}
          (worldWith { Name := "plug", IsLocal := true, Build := "make" } none)).2 = [] :=
  have h := C4_local_module_needs_no_target sampleEnv {}
    (worldWith { Name := "plug", IsLocal := true, Build := "make" } none) 0 .moduleCustom
    rfl rfl rfl (by decide) (by decide)
  ⟨h.1, h.2.2.2.2.1⟩

/-- C5 fails as stated: with `M` active and no target selected, running the module reports
"Target not specified" and does nothing else; the build command `make` is never executed. -/
theorem C5_build_not_run_counterexample :
    runModule sampleEnv {} (worldWith scenarioM none)
        = (worldWith scenarioM none, [.log .error "Target not specified" []])
      ∧ Event.exec "make" ∉ (runModule sampleEnv {} (worldWith scenarioM none)).2 := by
  have h : (runModule sampleEnv {} (worldWith scenarioM none)).2
      = [.log .error "Target not specified" []] := by decide
  refine ⟨?_, ?_⟩
  · simp [runModule, ModuleRun, runLaunched, worldWith, scenarioM]
  · rw [h]; decide

/-- C5, amended: for every non-local active module with no target selected, running the module
is refused by `ModuleRun` with "Target not specified" before the runner is launched: nothing
is built, nothing is sent, and the world is unchanged. -/
theorem C5_no_target_refused (env : Env) (o : Oracle) (w : World) (p : Nat)
    (hm : w.ActiveModule = some p) (hl : (w.heap p).IsLocal = false)
    (ha : w.ActiveAgent = none) :
    runModule env o w = (w, [.log .error "Target not specified" []])
      ∧ (∀ e ∈ (runModule env o w).2, ∀ script, e ≠ Event.exec script)
      ∧ sentCmds (runModule env o w).2 = [] := by
  have h : runModule env o w = (w, [.log .error "Target not specified" []]) := by
    simp [runModule, ModuleRun, runLaunched, hm, hl, ha]
  refine ⟨h, ?_, ?_⟩
  · intro e he script
    rw [h] at he
    simp at he
    subst he
    simp
  · rw [h]; rfl

/-- C5 amended, at the scenario module `M`. -/
theorem C5_no_target_refused_witness :
    sentCmds (runModule sampleEnv {} (worldWith scenarioM none)).2 = [] :=
  (C5_no_target_refused sampleEnv {} (worldWith scenarioM none) 0 rfl rfl rfl).2.2

/-! ## `SetActiveModule` and `UpdateOptions` -/

/-- C6: for a name that is not a key of `ModuleRunners`, `SetActiveModule` reports
"No such module" and returns the world as it was: the active-module pointer and every
module's options are unchanged. -/
theorem C6_unknown_module (env : Env) (w : World) (modName : String)
    (h : ∀ e ∈ w.ModuleRunners, e.1 ≠ modName) :
    SetActiveModule env w modName
      = (w, [.log .error "No such module: %s" [env.Quote modName]]) := by
  have h1 : hasRunner w modName = false := by
    simp only [hasRunner, List.any_eq_false]
    intro e he
    simpa using h e he
  simp [SetActiveModule, h1]

/-- C6, at a world whose only runner is "m", asked for "nope". -/
theorem C6_unknown_module_witness :
    SetActiveModule sampleEnv (worldWith { Name := "m" } none) "nope"
      = (worldWith { Name := "m" } none, [.log .error "No such module: %s" ["\"nope\""]]) :=
  C6_unknown_module sampleEnv (worldWith { Name := "m" } none) "nope" (by decide)

/-- C7, the failing input: `noOptionsModule` is in both tables, yet `SetActiveModule "M"` ends in
the panic "assignment to entry in nil map" raised by `addIfNotFound`; the module has been
made active but no `download_addr` option exists afterwards. -/
theorem C7_nil_option_map_panics :
    (SetActiveModule sampleEnv (worldWith noOptionsModule none) "M").2
        = [.log .debug "UpdateOptions: module %s is not built-in, adding download_addr" ["M"],
           .log .debug "UpdateOptions: adding %s" ["download_addr"],
           .panic "assignment to entry in nil map"]
      ∧ ((SetActiveModule sampleEnv (worldWith noOptionsModule none) "M").1.heap 0).Options
        = none := by
  decide

theorem UpdateOptions_allocated (env : Env) (w : World) (modName : String) (q : Nat)
    (opts : List (String × Option ModOption)) (hm : w.ActiveModule = some q)
    (hr : hasRunner w modName = true) (hq : mapGet w.Modules modName = some q)
    (ho : (w.heap q).Options = some opts) :
    ∃ t, crashed t = false ∧
      UpdateOptions env w modName
        = (setOptions w q
            (optionsAfterUpdate env (w.heap q).AgentConfig.Exec (w.heap q).IsLocal opts),
            t, true) := by
  have hsame : setOptions w q opts = w := by
    cases w with
    | mk am aa ms mr hp cr fs pfs =>
      simp only [setOptions, World.mk.injEq, true_and, and_true]
      funext a
      by_cases ha : a = q
      · subst ha
        simp only [if_true]
        simp only at ho
        rw [← ho]
      · simp [ha]
  by_cases h1 : ToLower env.UnicodeToLower (w.heap q).AgentConfig.Exec = "built-in"
  · refine ⟨[], rfl, ?_⟩
    simp [UpdateOptions, hm, hr, hq, h1, optionsAfterUpdate, hsame]
  · cases h2 : (w.heap q).IsLocal with
    | true =>
      refine ⟨[], rfl, ?_⟩
      simp [UpdateOptions, hm, hr, hq, h1, h2, optionsAfterUpdate, hsame]
    | false =>
      cases h3 : mapGet opts "download_addr" with
      | some x =>
        refine ⟨[.log .debug "UpdateOptions: module %s is not built-in, adding download_addr"
          [modName]], rfl, ?_⟩
        simp [UpdateOptions, hm, hr, hq, ho, h1, h2, h3, optionsAfterUpdate, hsame]
      | none =>
        refine ⟨[.log .debug "UpdateOptions: module %s is not built-in, adding download_addr"
          [modName], .log .debug "UpdateOptions: adding %s" ["download_addr"]], rfl, ?_⟩
        simp [UpdateOptions, hm, hr, hq, ho, h1, h2, h3, optionsAfterUpdate]

/-- Behaviour of `SetActiveModule` on a module of both tables whose option map is allocated:
the module becomes active; `download_addr` (empty value, no allowed values) is added exactly
when the exec spec lower-cased is not "built-in", the module is not local and the option
is missing; every entry present before keeps its value; no other object changes. -/
theorem SetActiveModule_allocated_options (env : Env) (w : World) (modName : String) (q : Nat)
    (opts : List (String × Option ModOption))
    (hr : hasRunner w modName = true) (hq : mapGet w.Modules modName = some q)
    (ho : (w.heap q).Options = some opts) :
    (SetActiveModule env w modName).1.ActiveModule = some q
      ∧ ((SetActiveModule env w modName).1.heap q).Options
        = some (if ToLower env.UnicodeToLower (w.heap q).AgentConfig.Exec ≠ "built-in"
              ∧ (w.heap q).IsLocal = false
              ∧ mapGet opts "download_addr" = none
            then mapSet opts "download_addr" (some download_addr_option) else opts)
      ∧ (∀ k v, mapGet opts k = some v →
          ∃ opts2, ((SetActiveModule env w modName).1.heap q).Options = some opts2
            ∧ mapGet opts2 k = some v)
      ∧ (∀ a, a ≠ q → (SetActiveModule env w modName).1.heap a = w.heap a)
      ∧ crashed (SetActiveModule env w modName).2 = false := by
  obtain ⟨t, ht, hu⟩ := UpdateOptions_allocated env
    { w with ActiveModule := mapGet w.Modules modName } modName q opts hq hr hq ho
  have hw : (SetActiveModule env w modName).1
      = setOptions { w with ActiveModule := mapGet w.Modules modName } q
          (optionsAfterUpdate env (w.heap q).AgentConfig.Exec (w.heap q).IsLocal opts) := by
    simp only [SetActiveModule, hr, if_true, hu, ht]
    simp
  have hopt : ((SetActiveModule env w modName).1.heap q).Options
      = some (optionsAfterUpdate env (w.heap q).AgentConfig.Exec (w.heap q).IsLocal opts) := by
    rw [hw]; simp [setOptions]
  refine ⟨?_, hopt, ?_, ?_, ?_⟩
  · rw [hw]; simpa [setOptions] using hq
  · intro k v hk
    refine ⟨_, hopt, ?_⟩
    unfold optionsAfterUpdate
    split
    · rename_i hc
      have hne : k ≠ "download_addr" := by
        intro h; subst h; rw [hc.2.2] at hk; cases hk
      rw [mapGet_mapSet_ne _ _ _ _ hne]; exact hk
    · exact hk
  · intro a ha
    rw [hw]; simp [setOptions, ha]
  · simp only [SetActiveModule, hr, if_true, hu, ht]
    simp [crashed, ht]
    refine ⟨?_, ?_⟩
    · simpa [crashed, List.any_eq_false] using ht
    · simp [setOptions, hq]

/-! ## The build step -/

/-- C8: for a module that declares a build step whose command is run (the change of directory
succeeded): if the command fails with error `e`, `build_module` returns the error text
made of the captured output followed by ` (e)`, and `moduleCustom` stops after logging it,
with the world unchanged, no packaging or shipping event and no command sent; if the command
succeeds, `build_module` returns the output and `moduleCustom` goes on with the rest of the
pipeline (`moduleCustomAfterBuild`). -/
theorem C8_build_failure_aborts (env : Env) (o : Oracle) (w : World) (p q : Nat)
    (hm : w.ActiveModule = some p) (hq : mapGet w.Modules (w.heap p).Name = some q)
    (hb : (w.heap q).Build ≠ "") (hc : o.chdirErr = none) :
    (∀ e, o.buildErr = some e →
        (build_module env o (w.heap q) (w.heap p)).1 = .error (o.buildOut ++ " (" ++ e ++ ")")
          ∧ moduleCustom env o w = (w,
              [Event.log .print "Building %s..." [(w.heap q).Name]] ++
              (build_module env o (w.heap q) (w.heap p)).2 ++
              [Event.log .error "Build module %s: %v"
                [(w.heap q).Name, o.buildOut ++ " (" ++ e ++ ")"]])
          ∧ (∀ ev ∈ (moduleCustom env o w).2, ships ev = false)
          ∧ sentCmds (moduleCustom env o w).2 = [])
      ∧ (o.buildErr = none →
          (build_module env o (w.heap q) (w.heap p)).1 = .ok o.buildOut
            ∧ moduleCustom env o w = ((moduleCustomAfterBuild env o w q p).1,
                [Event.log .print "Building %s..." [(w.heap q).Name]] ++
                (build_module env o (w.heap q) (w.heap p)).2 ++
                [Event.log .print "Module output:\n%s" [o.buildOut]] ++
                (moduleCustomAfterBuild env o w q p).2)) := by
  constructor
  · intro e he
    have h1 : (build_module env o (w.heap q) (w.heap p)).1
        = .error (o.buildOut ++ " (" ++ e ++ ")") := by
      simp [build_module, hc, he]
    have h2 : moduleCustom env o w = (w,
        [Event.log .print "Building %s..." [(w.heap q).Name]] ++
        (build_module env o (w.heap q) (w.heap p)).2 ++
        [Event.log .error "Build module %s: %v"
          [(w.heap q).Name, o.buildOut ++ " (" ++ e ++ ")"]]) := by
      simp [moduleCustom, hm, hq, hb, h1]
    have h3 : ∀ ev ∈ (moduleCustom env o w).2, ships ev = false := by
      intro ev hev
      rw [h2] at hev
      simp only [List.mem_append, List.mem_singleton] at hev
      rcases hev with (hev | hev) | hev
      · subst hev; rfl
      · exact (ships_build_module env o _ _ ev hev).1
      · subst hev; rfl
    refine ⟨h1, h2, h3, ?_⟩
    simp only [sentCmds, List.filterMap_eq_nil_iff]
    intro ev hev
    have h4 := h3 ev hev
    cases ev <;> simp_all [ships]
  · intro he
    have h1 : (build_module env o (w.heap q) (w.heap p)).1 = .ok o.buildOut := by
      simp [build_module, hc, he]
    refine ⟨h1, ?_⟩
    simp [moduleCustom, hm, hq, hb, h1]

/-- C8, at a module whose build command `make` fails with "exit status 2" after printing
"cc: error". -/
theorem C8_build_failure_aborts_witness :
    (build_module sampleEnv { buildOut := "cc: error", buildErr := some "exit status 2" }
        { Name := "b", Build := "make" } { Name := "b", Build := "make" }).1
      = .error ("cc: error" ++ " (" ++ "exit status 2" ++ ")") :=
  ((C8_build_failure_aborts sampleEnv { buildOut := "cc: error", buildErr := some "exit status 2" }
    (worldWith { Name := "b", Build := "make" } none) 0 0 rfl (by decide) (by decide) rfl).1
    "exit status 2" rfl).1

/-! ## The start command -/

theorem sentCmds_append (a b : List Event) : sentCmds (a ++ b) = sentCmds a ++ sentCmds b := by
  simp [sentCmds, List.filterMap_append]

theorem sentCmds_nil : sentCmds [] = [] := rfl

theorem sentCmds_cons_log (l : Level) (f : String) (a : List String) (t : List Event) :
    sentCmds (Event.log l f a :: t) = sentCmds t := rfl

theorem sentCmds_cons_tarXZ (d a : String) (t : List Event) :
    sentCmds (Event.tarXZ d a :: t) = sentCmds t := rfl

theorem sentCmds_cons_readFile (f : String) (t : List Event) :
    sentCmds (Event.readFile f :: t) = sentCmds t := rfl

theorem sentCmds_cons_compressXz (d : Bytes) (t : List Event) :
    sentCmds (Event.compressXz d :: t) = sentCmds t := rfl

theorem sentCmds_cons_writeFile (f : String) (d : Bytes) (t : List Event) :
    sentCmds (Event.writeFile f d :: t) = sentCmds t := rfl

theorem sentCmds_of_not_ships (t : List Event) (h : ∀ e ∈ t, ships e = false) :
    sentCmds t = [] := by
  simp only [sentCmds, List.filterMap_eq_nil_iff]
  intro e he
  have h1 := h e he
  cases e <;> simp_all [ships]

theorem sentCmds_build_module (env : Env) (o : Oracle) (config active : ModuleConfig) :
    sentCmds (build_module env o config active).2 = [] :=
  sentCmds_of_not_ships _ (fun e he => (ships_build_module env o config active e he).1)

theorem sentCmds_sendEvents (o : Oracle) (cmd tag : String) :
    sentCmds (sendEvents o cmd tag) = [cmd] := by
  cases h : o.sendErr <;> simp [sendEvents, sentCmds, h]

theorem sentCmds_probeWait (arrivals : Nat → List (String × String) → List (String × String)) (look_for cmd_id : String)
    (n i : Nat) (T : List (String × String)) :
    sentCmds (probeWait arrivals look_for n i T cmd_id).2.2 = [] := by
  induction n generalizing i T with
  | zero => rfl
  | succ n ih =>
    unfold probeWait
    by_cases h : Contains ((mapGet (arrivals i T) cmd_id).getD "") look_for = true
    · simp [h, sentCmds]
    · simp only [h]
      have := ih (i + 1) (arrivals i T)
      simpa [sentCmds] using this

theorem handleInteractiveModule_sends_nothing (env : Env) (o : Oracle) (w : World) (q p : Nat)
    (cmd_id : String) :
    sentCmds (handleInteractiveModule env o w q p cmd_id).2 = []
      ∧ (handleInteractiveModule env o w q p cmd_id).1.fs = w.fs := by
  unfold handleInteractiveModule
  cases h1 : (w.heap q).Options with
  | none => simp [h1, sentCmds]
  | some opts =>
    cases h2 : mapGet opts "args" with
    | none => simp [h1, h2, sentCmds, setOptions]
    | some x =>
      cases x with
      | none => simp [h1, h2, sentCmds]
      | some opt =>
        have h3 := sentCmds_probeWait o.arrivals (env.SHA256SumRaw env.MagicString) cmd_id 10 0
          w.CmdResults
        cases h4 : o.sshErr <;> simp [h1, h2, h4, sentCmds_append, h3] <;> simp [sentCmds]

theorem sendCompressedModule_sends (env : Env) (o : Oracle) (w : World) (q p : Nat) (a : Agent)
    (payload_type exec_cmd envStr download_addr : String) (ha : w.ActiveAgent = some a) :
    sentCmds (sendCompressedModule env o w q p payload_type exec_cmd envStr download_addr).2
        = [appendDownloadAddr env
            (compressedBaseCmd env (w.heap p).Name
              (env.SHA256SumFile w.fs (env.WWWRoot ++ (w.heap p).Name ++ ".tar.xz")) envStr
              payload_type (env.Base (env.WWWRoot ++ (w.heap p).Name ++ ".tar.xz")) exec_cmd)
            download_addr]
      ∧ (sendCompressedModule env o w q p payload_type exec_cmd envStr download_addr).1.fs
        = w.fs := by
  unfold sendCompressedModule
  have hi := handleInteractiveModule_sends_nothing env o w q p o.cmd_id
  cases h : (w.heap q).AgentConfig.IsInteractive <;>
    simp [ha, h, sentCmds_append, sentCmds_sendEvents, hi.1, hi.2]

theorem handleCompressedModule_sends (env : Env) (o : Oracle) (w : World) (q p : Nat) (a : Agent)
    (payload_type exec_cmd envStr download_addr : String) (ha : w.ActiveAgent = some a)
    (harch : IsFileExist w.fs (env.WWWRoot ++ (w.heap p).Name ++ ".tar.xz") = true
      ∨ ∃ data, o.tarXZ = .ok data) :
    sentCmds (handleCompressedModule env o w q p payload_type exec_cmd envStr download_addr).2
      = [appendDownloadAddr env
          (compressedBaseCmd env (w.heap p).Name
            (env.SHA256SumFile
              (handleCompressedModule env o w q p payload_type exec_cmd envStr download_addr).1.fs
              (env.WWWRoot ++ (w.heap p).Name ++ ".tar.xz")) envStr
            payload_type (env.Base (env.WWWRoot ++ (w.heap p).Name ++ ".tar.xz")) exec_cmd)
          download_addr] := by
  unfold handleCompressedModule
  by_cases hex : IsFileExist w.fs (env.WWWRoot ++ (w.heap p).Name ++ ".tar.xz") = true
  · have hs := sendCompressedModule_sends env o w q p a payload_type exec_cmd envStr
      download_addr ha
    simp only [hex]
    simp [sentCmds_cons_log, hs.1, hs.2]
  · have hex2 : IsFileExist w.fs (env.WWWRoot ++ (w.heap p).Name ++ ".tar.xz") = false := by
      simpa using hex
    rcases harch with h | ⟨data, hd⟩
    · exact absurd h hex
    · obtain ⟨hs1, hs2⟩ := sendCompressedModule_sends env o
        { w with fs := mapSet w.fs (env.WWWRoot ++ (w.heap p).Name ++ ".tar.xz") (.file data) }
        q p a payload_type exec_cmd envStr download_addr ha
      simp only [hex2, hd, ↓reduceIte, sentCmds_append, sentCmds_cons_log, sentCmds_cons_tarXZ,
        sentCmds_nil, List.nil_append, List.cons_append]
      rw [hs1, hs2]

theorem handleInMemoryModule_sends (env : Env) (o : Oracle) (w : World) (config : ModuleConfig)
    (p : Nat) (a : Agent) (payload_type envStr download_addr f : String) (fs : List String)
    (data compressedBytes : Bytes) (ha : w.ActiveAgent = some a)
    (hf : config.AgentConfig.Files = f :: fs)
    (hread : ReadFile w.fs (config.Path ++ "/" ++ f) = .ok data)
    (hxz : env.CompressXz data = .ok compressedBytes) (hwrite : o.writeErr = none) :
    sentCmds (handleInMemoryModule env o w config p payload_type envStr download_addr).2
      = [appendDownloadAddr env
          (inMemoryBaseCmd env (w.heap p).Name payload_type
            (FileBaseName env (env.WWWRoot ++ (w.heap p).Name ++ ".xz"))
            (env.SHA256SumFile
              (handleInMemoryModule env o w config p payload_type envStr download_addr).1.fs
              (env.WWWRoot ++ (w.heap p).Name ++ ".xz")) envStr)
          download_addr] := by
  unfold handleInMemoryModule
  simp only [hf, hread, hxz, hwrite, ha]
  simp only [sentCmds_append, sentCmds_cons_log, sentCmds_cons_readFile, sentCmds_cons_compressXz,
    sentCmds_cons_writeFile, sentCmds_nil, sentCmds_sendEvents, List.nil_append,
    List.cons_append]

theorem moduleCustom_after_build (env : Env) (o : Oracle) (w : World) (p q : Nat)
    (hm : w.ActiveModule = some p) (hq : mapGet w.Modules (w.heap p).Name = some q)
    (hbuild : (w.heap q).Build = "" ∨ (o.chdirErr = none ∧ o.buildErr = none)) :
    (moduleCustom env o w).1 = (moduleCustomAfterBuild env o w q p).1
      ∧ sentCmds (moduleCustom env o w).2 = sentCmds (moduleCustomAfterBuild env o w q p).2 := by
  by_cases hb : (w.heap q).Build = ""
  · simp [moduleCustom, hm, hq, hb]
  · rcases hbuild with h | ⟨hc, he⟩
    · exact absurd h hb
    · have h1 : (build_module env o (w.heap q) (w.heap p)).1 = .ok o.buildOut := by
        simp [build_module, hc, he]
      have h2 := sentCmds_build_module env o (w.heap q) (w.heap p)
      simp [moduleCustom, hm, hq, hb, h1, sentCmds_append, sentCmds_cons_log, h2, sentCmds_nil]

theorem moduleCustom_sends (env : Env) (o : Oracle) (w : World) (p q : Nat) (a : Agent)
    (ds es : String)
    (hm : w.ActiveModule = some p) (hq : mapGet w.Modules (w.heap p).Name = some q)
    (hbuild : (w.heap q).Build = "" ∨ (o.chdirErr = none ∧ o.buildErr = none))
    (hloc : (w.heap q).IsLocal = false) (ha : w.ActiveAgent = some a)
    (hd : getDownloadAddr (w.heap p) = .ok ds)
    (he : envStrOf ((w.heap q).Options.getD []) = .ok es)
    (hpack : packagingSucceeds env o w (w.heap p) (w.heap q)) :
    sentCmds (moduleCustom env o w).2
      = [appendDownloadAddr env
          (baseStartCmd env (moduleCustom env o w).1.fs (w.heap p) (w.heap q) es) ds] := by
  obtain ⟨h1, h2⟩ := moduleCustom_after_build env o w p q hm hq hbuild
  rw [h1, h2]
  cases hmem : (w.heap q).AgentConfig.InMemory with
  | true =>
    simp only [packagingSucceeds, hmem, if_true] at hpack
    obtain ⟨f, fs, data, cb, hf, hread, hxz, hwrite⟩ := hpack
    have h3 : moduleCustomAfterBuild env o w q p
        = handleInMemoryModule env o w (w.heap q) p (w.heap q).AgentConfig.PayloadType es ds := by
      simp [moduleCustomAfterBuild, hloc, hd, genModStartCmd, he, hmem]
    rw [h3, handleInMemoryModule_sends env o w (w.heap q) p a _ es ds f fs data cb ha hf hread
      hxz hwrite]
    simp [baseStartCmd, hmem]
  | false =>
    have hpack2 : IsFileExist w.fs (env.WWWRoot ++ (w.heap p).Name ++ ".tar.xz") = true
        ∨ ∃ data, o.tarXZ = .ok data := by
      simpa [packagingSucceeds, hmem] using hpack
    have h3 : moduleCustomAfterBuild env o w q p
        = handleCompressedModule env o w q p (w.heap q).AgentConfig.PayloadType
            (if (w.heap q).AgentConfig.IsInteractive then livenessProbe env
              else (w.heap q).AgentConfig.Exec) es ds := by
      simp [moduleCustomAfterBuild, hloc, hd, genModStartCmd, he, hmem]
    rw [h3, handleCompressedModule_sends env o w q p a _ _ es ds ha hpack2]
    simp [baseStartCmd, hmem]

/-- C9 fails as stated on the in-memory path: the start command sent for an interactive
in-memory module does not contain the liveness probe, and the one sent for a non-interactive
in-memory module does not contain the configured exec spec. -/
theorem C9_in_memory_counterexample :
    sentCmds (moduleCustom sampleEnv {} (worldWithPayload interactiveInMemory)).2
        = ["!custom_module --mod_name M --type elf --file_to_download /www/M.xz" ++
            " --checksum 9f86d081884c7d65 --in_mem --env \"\""]
      ∧ Contains ("!custom_module --mod_name M --type elf --file_to_download /www/M.xz" ++
            " --checksum 9f86d081884c7d65 --in_mem --env \"\"") (livenessProbe sampleEnv) = false
      ∧ sentCmds (moduleCustom sampleEnv {} (worldWithPayload plainInMemory)).2
        = ["!custom_module --mod_name M --type elf --file_to_download /www/M.xz" ++
            " --checksum 9f86d081884c7d65 --in_mem --env \"\""]
      ∧ Contains ("!custom_module --mod_name M --type elf --file_to_download /www/M.xz" ++
            " --checksum 9f86d081884c7d65 --in_mem --env \"\"") "shell.sh" = false := by
  decide

/-- C9, amended: when the pipeline reaches the send (build, option reads and packaging
succeed, a target is selected), on the archive path the start command of an interactive
module carries, as its exec argument, `echo` and the Go-quoted SHA-256 digest of the magic
string, a text fixed by the constants alone, and the start command of a non-interactive
module carries the configured exec spec; on the in-memory path the start command is built
without any exec argument. -/
theorem C9_start_command_exec (env : Env) (o : Oracle) (w : World) (p q : Nat) (a : Agent)
    (ds es : String)
    (hm : w.ActiveModule = some p) (hq : mapGet w.Modules (w.heap p).Name = some q)
    (hbuild : (w.heap q).Build = "" ∨ (o.chdirErr = none ∧ o.buildErr = none))
    (hloc : (w.heap q).IsLocal = false) (ha : w.ActiveAgent = some a)
    (hd : getDownloadAddr (w.heap p) = .ok ds)
    (he : envStrOf ((w.heap q).Options.getD []) = .ok es)
    (hpack : packagingSucceeds env o w (w.heap p) (w.heap q)) :
    ((w.heap q).AgentConfig.InMemory = false → (w.heap q).AgentConfig.IsInteractive = true →
        sentCmds (moduleCustom env o w).2
          = [appendDownloadAddr env
              (compressedBaseCmd env (w.heap p).Name
                (env.SHA256SumFile (moduleCustom env o w).1.fs
                  (env.WWWRoot ++ (w.heap p).Name ++ ".tar.xz")) es
                (w.heap q).AgentConfig.PayloadType
                (env.Base (env.WWWRoot ++ (w.heap p).Name ++ ".tar.xz"))
                ("echo " ++ env.Quote (env.SHA256SumRaw env.MagicString))) ds])
      ∧ ((w.heap q).AgentConfig.InMemory = false → (w.heap q).AgentConfig.IsInteractive = false →
          sentCmds (moduleCustom env o w).2
            = [appendDownloadAddr env
                (compressedBaseCmd env (w.heap p).Name
                  (env.SHA256SumFile (moduleCustom env o w).1.fs
                    (env.WWWRoot ++ (w.heap p).Name ++ ".tar.xz")) es
                  (w.heap q).AgentConfig.PayloadType
                  (env.Base (env.WWWRoot ++ (w.heap p).Name ++ ".tar.xz"))
                  (w.heap q).AgentConfig.Exec) ds])
      ∧ ((w.heap q).AgentConfig.InMemory = true →
          sentCmds (moduleCustom env o w).2
            = [appendDownloadAddr env
                (inMemoryBaseCmd env (w.heap p).Name (w.heap q).AgentConfig.PayloadType
                  (FileBaseName env (env.WWWRoot ++ (w.heap p).Name ++ ".xz"))
                  (env.SHA256SumFile (moduleCustom env o w).1.fs
                    (env.WWWRoot ++ (w.heap p).Name ++ ".xz")) es) ds]) := by
  have h := moduleCustom_sends env o w p q a ds es hm hq hbuild hloc ha hd he hpack
  refine ⟨?_, ?_, ?_⟩
  · intro h1 h2
    rw [h]; simp [baseStartCmd, h1, h2, livenessProbe]
  · intro h1 h2
    rw [h]; simp [baseStartCmd, h1, h2]
  · intro h1
    rw [h]; simp [baseStartCmd, h1]

/-- C9 amended, at `interactiveArchive`: the command sent carries the probe. -/
theorem C9_start_command_exec_witness :
    sentCmds (moduleCustom sampleEnv {} (worldWith interactiveArchive (some ⟨"a1", "linux"⟩))).2
      = [appendDownloadAddr sampleEnv
          (compressedBaseCmd sampleEnv "M" "9f86d081884c7d65" "args=-l," "elf" "/www/M.tar.xz"
            ("echo " ++ "\"3e25960a79dbc69b674cd4ec67a72c62\"")) ""] :=
  (C9_start_command_exec sampleEnv {} (worldWith interactiveArchive (some ⟨"a1", "linux"⟩)) 0 0
    ⟨"a1", "linux"⟩ "" "args=-l," rfl (by decide) (Or.inl rfl) rfl rfl rfl rfl
    (Or.inr ⟨[], rfl⟩)).1 rfl rfl

/-- C10: when the pipeline reaches the send, on both dispatch paths the start command sent is
the path's base command followed by ` --download_addr ` and the Go-quoted address if the
active module has a `download_addr` option with a non-empty value, and is the base command
alone if the option is absent or its value is empty. -/
theorem C10_download_addr_suffix (env : Env) (o : Oracle) (w : World) (p q : Nat) (a : Agent)
    (es : String)
    (hm : w.ActiveModule = some p) (hq : mapGet w.Modules (w.heap p).Name = some q)
    (hbuild : (w.heap q).Build = "" ∨ (o.chdirErr = none ∧ o.buildErr = none))
    (hloc : (w.heap q).IsLocal = false) (ha : w.ActiveAgent = some a)
    (he : envStrOf ((w.heap q).Options.getD []) = .ok es)
    (hpack : packagingSucceeds env o w (w.heap p) (w.heap q)) :
    (∀ opt, mapGet ((w.heap p).Options.getD []) "download_addr" = some (some opt) →
        opt.Val ≠ "" →
        getDownloadAddr (w.heap p) = .ok opt.Val
          ∧ sentCmds (moduleCustom env o w).2
            = [baseStartCmd env (moduleCustom env o w).1.fs (w.heap p) (w.heap q) es
                ++ " --download_addr " ++ env.Quote opt.Val])
      ∧ (∀ opt, mapGet ((w.heap p).Options.getD []) "download_addr" = some (some opt) →
          opt.Val = "" →
          getDownloadAddr (w.heap p) = .ok ""
            ∧ sentCmds (moduleCustom env o w).2
              = [baseStartCmd env (moduleCustom env o w).1.fs (w.heap p) (w.heap q) es])
      ∧ (mapGet ((w.heap p).Options.getD []) "download_addr" = none →
          getDownloadAddr (w.heap p) = .ok ""
            ∧ sentCmds (moduleCustom env o w).2
              = [baseStartCmd env (moduleCustom env o w).1.fs (w.heap p) (w.heap q) es]) := by
  refine ⟨?_, ?_, ?_⟩
  · intro opt hopt hval
    have hd : getDownloadAddr (w.heap p) = .ok opt.Val := by simp [getDownloadAddr, hopt]
    refine ⟨hd, ?_⟩
    rw [moduleCustom_sends env o w p q a opt.Val es hm hq hbuild hloc ha hd he hpack]
    simp [appendDownloadAddr, hval, String.append_assoc]
  · intro opt hopt hval
    have hd : getDownloadAddr (w.heap p) = .ok "" := by simp [getDownloadAddr, hopt, hval]
    refine ⟨hd, ?_⟩
    rw [moduleCustom_sends env o w p q a "" es hm hq hbuild hloc ha hd he hpack]
    simp [appendDownloadAddr]
  · intro hopt
    have hd : getDownloadAddr (w.heap p) = .ok "" := by simp [getDownloadAddr, hopt]
    refine ⟨hd, ?_⟩
    rw [moduleCustom_sends env o w p q a "" es hm hq hbuild hloc ha hd he hpack]
    simp [appendDownloadAddr]

/-- C10, at `cachedArchive`: the address is appended, quoted. -/
theorem C10_download_addr_suffix_witness :
    sentCmds (moduleCustom sampleEnv {} (worldWith cachedArchive (some ⟨"a1", "linux"⟩))).2
      = [baseStartCmd sampleEnv
            (moduleCustom sampleEnv {} (worldWith cachedArchive (some ⟨"a1", "linux"⟩))).1.fs
            cachedArchive cachedArchive "download_addr=10.0.0.9:8000,"
          ++ " --download_addr " ++ "\"10.0.0.9:8000\""] :=
  ((C10_download_addr_suffix sampleEnv {} (worldWith cachedArchive (some ⟨"a1", "linux"⟩)) 0 0
    ⟨"a1", "linux"⟩ "download_addr=10.0.0.9:8000," rfl (by decide) (Or.inl rfl) rfl rfl
    rfl (Or.inr ⟨[], rfl⟩)).1
    ⟨"download_addr", "url", "10.0.0.9:8000", []⟩ rfl (by decide)).2

/-! ## The archive cache -/

theorem tarXZCalls_append (a b : List Event) :
    tarXZCalls (a ++ b) = tarXZCalls a + tarXZCalls b := by
  simp [tarXZCalls, List.countP_append]

theorem tarXZCalls_sendEvents (o : Oracle) (cmd tag : String) :
    tarXZCalls (sendEvents o cmd tag) = 0 := by
  cases h : o.sendErr <;> simp [sendEvents, tarXZCalls, h]

theorem tarXZCalls_probeWait (arrivals : Nat → List (String × String) → List (String × String))
    (look_for cmd_id : String) (n i : Nat) (T : List (String × String)) :
    tarXZCalls (probeWait arrivals look_for n i T cmd_id).2.2 = 0 := by
  induction n generalizing i T with
  | zero => rfl
  | succ n ih =>
    unfold probeWait
    by_cases h : Contains ((mapGet (arrivals i T) cmd_id).getD "") look_for = true
    · simp [h, tarXZCalls]
    · simp only [h]
      have := ih (i + 1) (arrivals i T)
      simpa [tarXZCalls] using this

theorem handleInteractiveModule_frame (env : Env) (o : Oracle) (w : World) (q p : Nat)
    (cmd_id : String) :
    tarXZCalls (handleInteractiveModule env o w q p cmd_id).2 = 0
      ∧ (handleInteractiveModule env o w q p cmd_id).1.ActiveAgent = w.ActiveAgent
      ∧ ∀ a, ((handleInteractiveModule env o w q p cmd_id).1.heap a).Name = (w.heap a).Name := by
  unfold handleInteractiveModule
  cases h1 : (w.heap q).Options with
  | none => simp [h1, tarXZCalls]
  | some opts =>
    cases h2 : mapGet opts "args" with
    | none =>
      simp only [h1, h2, setOptions]
      refine ⟨by simp [tarXZCalls], by simp, ?_⟩
      intro a
      by_cases ha : a = q
      · subst ha; simp
      · simp [ha]
    | some x =>
      cases x with
      | none => simp [h1, h2, tarXZCalls]
      | some opt =>
        have h3 := tarXZCalls_probeWait o.arrivals (env.SHA256SumRaw env.MagicString) cmd_id 10 0
          w.CmdResults
        cases h4 : o.sshErr <;> simp [h1, h2, h4, tarXZCalls_append, h3] <;> simp [tarXZCalls]

theorem sendCompressedModule_frame (env : Env) (o : Oracle) (w : World) (q p : Nat)
    (payload_type exec_cmd envStr download_addr : String) :
    tarXZCalls (sendCompressedModule env o w q p payload_type exec_cmd envStr download_addr).2 = 0
      ∧ (sendCompressedModule env o w q p payload_type exec_cmd envStr download_addr).1.fs = w.fs
      ∧ (sendCompressedModule env o w q p payload_type exec_cmd envStr
          download_addr).1.ActiveAgent = w.ActiveAgent
      ∧ ∀ a, ((sendCompressedModule env o w q p payload_type exec_cmd envStr
          download_addr).1.heap a).Name = (w.heap a).Name := by
  unfold sendCompressedModule
  have hi := handleInteractiveModule_frame env o w q p o.cmd_id
  have hfs := (handleInteractiveModule_sends_nothing env o w q p o.cmd_id).2
  cases ha : w.ActiveAgent with
  | none => simp [ha, tarXZCalls]
  | some a =>
    cases h : (w.heap q).AgentConfig.IsInteractive with
    | false => simp [ha, h, tarXZCalls_sendEvents]
    | true =>
      simp only [ha, h, if_true]
      refine ⟨?_, hfs, ?_, hi.2.2⟩
      · rw [tarXZCalls_append, tarXZCalls_sendEvents, hi.1]
      · rw [hi.2.1, ha]

theorem handleCompressedModule_tarXZCalls (env : Env) (o : Oracle) (w : World) (q p : Nat)
    (payload_type exec_cmd envStr download_addr : String) :
    tarXZCalls (handleCompressedModule env o w q p payload_type exec_cmd envStr
        download_addr).2
      = (if IsFileExist w.fs (env.WWWRoot ++ (w.heap p).Name ++ ".tar.xz") then 0 else 1) := by
  unfold handleCompressedModule
  by_cases hex : IsFileExist w.fs (env.WWWRoot ++ (w.heap p).Name ++ ".tar.xz") = true
  · have hs := sendCompressedModule_frame env o w q p payload_type exec_cmd envStr download_addr
    simp only [hex]
    simp [tarXZCalls] at hs ⊢
    exact hs.1
  · have hex2 : IsFileExist w.fs (env.WWWRoot ++ (w.heap p).Name ++ ".tar.xz") = false := by
      simpa using hex
    cases hd : o.tarXZ with
    | error e => simp [hex2, hd, tarXZCalls]
    | ok data =>
      have hs := sendCompressedModule_frame env o
        { w with fs := mapSet w.fs (env.WWWRoot ++ (w.heap p).Name ++ ".tar.xz") (.file data) }
        q p payload_type exec_cmd envStr download_addr
      simp only [hex2, hd, ↓reduceIte]
      simp [tarXZCalls] at hs ⊢
      exact hs.1

theorem handleCompressedModule_frame (env : Env) (o : Oracle) (w : World) (q p : Nat)
    (payload_type exec_cmd envStr download_addr : String)
    (harch : IsFileExist w.fs (env.WWWRoot ++ (w.heap p).Name ++ ".tar.xz") = true
      ∨ ∃ data, o.tarXZ = .ok data) :
    IsFileExist (handleCompressedModule env o w q p payload_type exec_cmd envStr
        download_addr).1.fs (env.WWWRoot ++ (w.heap p).Name ++ ".tar.xz") = true
      ∧ (IsFileExist w.fs (env.WWWRoot ++ (w.heap p).Name ++ ".tar.xz") = true →
          (handleCompressedModule env o w q p payload_type exec_cmd envStr
            download_addr).1.fs = w.fs)
      ∧ (handleCompressedModule env o w q p payload_type exec_cmd envStr
          download_addr).1.ActiveAgent = w.ActiveAgent
      ∧ ∀ x, ((handleCompressedModule env o w q p payload_type exec_cmd envStr
          download_addr).1.heap x).Name = (w.heap x).Name := by
  unfold handleCompressedModule
  by_cases hex : IsFileExist w.fs (env.WWWRoot ++ (w.heap p).Name ++ ".tar.xz") = true
  · have hs := sendCompressedModule_frame env o w q p payload_type exec_cmd envStr download_addr
    simp only [hex]
    simp only [Bool.true_eq_false, ↓reduceIte]
    exact ⟨by rw [hs.2.1]; exact hex, fun _ => hs.2.1, hs.2.2.1, hs.2.2.2⟩
  · have hex2 : IsFileExist w.fs (env.WWWRoot ++ (w.heap p).Name ++ ".tar.xz") = false := by
      simpa using hex
    rcases harch with h | ⟨data, hd⟩
    · exact absurd h hex
    · have hs := sendCompressedModule_frame env o
        { w with fs := mapSet w.fs (env.WWWRoot ++ (w.heap p).Name ++ ".tar.xz") (.file data) }
        q p payload_type exec_cmd envStr download_addr
      simp only [hex2, hd, ↓reduceIte]
      refine ⟨?_, fun h => absurd h (by simp), hs.2.2.1, hs.2.2.2⟩
      rw [hs.2.1]
      simp [IsFileExist, mapGet_mapSet_self]

theorem sendCompressedModule_no_target (env : Env) (o : Oracle) (w : World) (q p : Nat)
    (payload_type exec_cmd envStr download_addr : String) (ha : w.ActiveAgent = none) :
    sentCmds (sendCompressedModule env o w q p payload_type exec_cmd envStr download_addr).2
      = [] := by
  unfold sendCompressedModule
  simp [ha, sentCmds]

/-- The start commands sent by `handleCompressedModule` when the archive is in place after
its first step: one command, carrying the checksum of the archive, when a target is selected
(without one the run ends in a nil dereference before the send). -/
theorem handleCompressedModule_sends_all (env : Env) (o : Oracle) (w : World) (q p : Nat)
    (payload_type exec_cmd envStr download_addr : String)
    (harch : IsFileExist w.fs (env.WWWRoot ++ (w.heap p).Name ++ ".tar.xz") = true
      ∨ ∃ data, o.tarXZ = .ok data) :
    sentCmds (handleCompressedModule env o w q p payload_type exec_cmd envStr download_addr).2
      = if w.ActiveAgent.isSome then
          [appendDownloadAddr env
            (compressedBaseCmd env (w.heap p).Name
              (env.SHA256SumFile
                (handleCompressedModule env o w q p payload_type exec_cmd envStr
                  download_addr).1.fs
                (env.WWWRoot ++ (w.heap p).Name ++ ".tar.xz")) envStr
              payload_type (env.Base (env.WWWRoot ++ (w.heap p).Name ++ ".tar.xz")) exec_cmd)
            download_addr]
        else [] := by
  cases ha : w.ActiveAgent with
  | some a =>
    simp only [Option.isSome_some, ↓reduceIte]
    exact handleCompressedModule_sends env o w q p a payload_type exec_cmd envStr download_addr
      ha harch
  | none =>
    simp only [Option.isSome_none, Bool.false_eq_true, ↓reduceIte]
    unfold handleCompressedModule
    by_cases hex : IsFileExist w.fs (env.WWWRoot ++ (w.heap p).Name ++ ".tar.xz") = true
    · simp only [hex, Bool.true_eq_false, ↓reduceIte, sentCmds_cons_log]
      exact sendCompressedModule_no_target env o w q p _ _ _ _ ha
    · have hex2 : IsFileExist w.fs (env.WWWRoot ++ (w.heap p).Name ++ ".tar.xz") = false := by
        simpa using hex
      rcases harch with h | ⟨data, hd⟩
      · exact absurd h hex
      · simp only [hex2, hd, ↓reduceIte, List.cons_append, List.nil_append, sentCmds_cons_log,
          sentCmds_cons_tarXZ, sentCmds_append, sentCmds_nil]
        exact sendCompressedModule_no_target env o _ q p _ _ _ _ ha

/-- C11 fails as stated, in two ways. First, `os.Stat` of the archive path fails with an
error other than not-exist, so no regular file is found there, yet `handleCompressedModule`
does not call `TarXZ`: it reports the archive as cached and sends the start command. Second,
with no archive on disk and `TarXZ` failing, the first dispatch calls `TarXZ`, leaves the
file system as it was, and the second dispatch right after it calls `TarXZ` again. -/
theorem C11_stat_error_counterexample :
    (mapGet deniedArchiveWorld.fs "/www/M.tar.xz" = some Node.denied
      ∧ tarXZCalls (handleCompressedModule sampleEnv {} deniedArchiveWorld 0 0
          "elf" "run.sh" "" "").2 = 0
      ∧ (handleCompressedModule sampleEnv {} deniedArchiveWorld 0 0 "elf" "run.sh" "" "").2
        = [.log .info "Using cached %s" ["/www/M.tar.xz"],
           .send ("!custom_module --mod_name M --checksum 9f86d081884c7d65 --env \"\"" ++
             " --type elf --file_to_download /www/M.tar.xz --exec \"run.sh\"") "" "a1"])
      ∧ (tarXZCalls (handleCompressedModule sampleEnv { tarXZ := .error "no space left" }
            (worldWith plainArchive (some agentA1)) 0 0 "elf" "run.sh" "" "").2 = 1
        ∧ (handleCompressedModule sampleEnv { tarXZ := .error "no space left" }
            (worldWith plainArchive (some agentA1)) 0 0 "elf" "run.sh" "" "").1.fs
          = (worldWith plainArchive (some agentA1)).fs
        ∧ tarXZCalls (handleCompressedModule sampleEnv { tarXZ := .error "no space left" }
            (handleCompressedModule sampleEnv { tarXZ := .error "no space left" }
              (worldWith plainArchive (some agentA1)) 0 0 "elf" "run.sh" "" "").1
            0 0 "elf" "run.sh" "" "").2 = 1) := by
  decide

/-- C11, amended: `handleCompressedModule` calls `TarXZ` (once) if and only if `IsFileExist`
is false for the archive path, that is when the path does not exist or is a directory (a
path whose `os.Stat` fails otherwise counts as a cached archive). When the compression of a
first dispatch does not fail, a second dispatch of the same module right after it, whatever
environment string and other arguments it is given, calls `TarXZ` no more and leaves the
file system as it is, so there is at most one compression in the two; and the start command
of each dispatch carries the same archive checksum. -/
theorem C11_archive_reuse (env : Env) (o1 o2 : Oracle) (w : World) (q p : Nat)
    (payload_type exec_cmd envStr download_addr : String)
    (payload_type2 exec_cmd2 envStr2 download_addr2 : String) :
    tarXZCalls (handleCompressedModule env o1 w q p payload_type exec_cmd envStr
        download_addr).2
        = (if IsFileExist w.fs (env.WWWRoot ++ (w.heap p).Name ++ ".tar.xz") then 0 else 1)
      ∧ (IsFileExist w.fs (env.WWWRoot ++ (w.heap p).Name ++ ".tar.xz") = false ↔
          (mapGet w.fs (env.WWWRoot ++ (w.heap p).Name ++ ".tar.xz") = none
            ∨ mapGet w.fs (env.WWWRoot ++ (w.heap p).Name ++ ".tar.xz") = some Node.dir))
      ∧ ((IsFileExist w.fs (env.WWWRoot ++ (w.heap p).Name ++ ".tar.xz") = true
            ∨ ∃ data, o1.tarXZ = .ok data) →
          tarXZCalls (handleCompressedModule env o2
              (handleCompressedModule env o1 w q p payload_type exec_cmd envStr download_addr).1
              q p payload_type2 exec_cmd2 envStr2 download_addr2).2 = 0
            ∧ tarXZCalls (handleCompressedModule env o1 w q p payload_type exec_cmd envStr
                download_addr).2
              + tarXZCalls (handleCompressedModule env o2
                  (handleCompressedModule env o1 w q p payload_type exec_cmd envStr
                    download_addr).1
                  q p payload_type2 exec_cmd2 envStr2 download_addr2).2 ≤ 1
            ∧ (handleCompressedModule env o2
                (handleCompressedModule env o1 w q p payload_type exec_cmd envStr
                  download_addr).1
                q p payload_type2 exec_cmd2 envStr2 download_addr2).1.fs
              = (handleCompressedModule env o1 w q p payload_type exec_cmd envStr
                  download_addr).1.fs
            ∧ sentCmds (handleCompressedModule env o1 w q p payload_type exec_cmd envStr
                download_addr).2
              = (if w.ActiveAgent.isSome then
                  [appendDownloadAddr env
                    (compressedBaseCmd env (w.heap p).Name
                      (env.SHA256SumFile
                        (handleCompressedModule env o1 w q p payload_type exec_cmd envStr
                          download_addr).1.fs
                        (env.WWWRoot ++ (w.heap p).Name ++ ".tar.xz")) envStr payload_type
                      (env.Base (env.WWWRoot ++ (w.heap p).Name ++ ".tar.xz")) exec_cmd)
                    download_addr]
                else [])
            ∧ sentCmds (handleCompressedModule env o2
                (handleCompressedModule env o1 w q p payload_type exec_cmd envStr
                  download_addr).1
                q p payload_type2 exec_cmd2 envStr2 download_addr2).2
              = (if w.ActiveAgent.isSome then
                  [appendDownloadAddr env
                    (compressedBaseCmd env (w.heap p).Name
                      (env.SHA256SumFile
                        (handleCompressedModule env o1 w q p payload_type exec_cmd envStr
                          download_addr).1.fs
                        (env.WWWRoot ++ (w.heap p).Name ++ ".tar.xz")) envStr2 payload_type2
                      (env.Base (env.WWWRoot ++ (w.heap p).Name ++ ".tar.xz")) exec_cmd2)
                    download_addr2]
                else [])) := by
  have hc1 := handleCompressedModule_tarXZCalls env o1 w q p payload_type exec_cmd envStr
    download_addr
  refine ⟨hc1, ?_, ?_⟩
  · unfold IsFileExist
    cases hg : mapGet w.fs (env.WWWRoot ++ (w.heap p).Name ++ ".tar.xz") with
    | none => simp
    | some nd => cases nd <;> simp
  · intro harch
    obtain ⟨hex1, _, hag1, hname1⟩ := handleCompressedModule_frame env o1 w q p payload_type
      exec_cmd envStr download_addr harch
    have hname : ((handleCompressedModule env o1 w q p payload_type exec_cmd envStr
        download_addr).1.heap p).Name = (w.heap p).Name := hname1 p
    have hex1' : IsFileExist (handleCompressedModule env o1 w q p payload_type exec_cmd envStr
        download_addr).1.fs (env.WWWRoot ++ ((handleCompressedModule env o1 w q p payload_type
          exec_cmd envStr download_addr).1.heap p).Name ++ ".tar.xz") = true := by
      rw [hname]; exact hex1
    have hc2 := handleCompressedModule_tarXZCalls env o2 (handleCompressedModule env o1 w q p
      payload_type exec_cmd envStr download_addr).1 q p payload_type2 exec_cmd2 envStr2
      download_addr2
    rw [hex1'] at hc2
    have hc2' : tarXZCalls (handleCompressedModule env o2
        (handleCompressedModule env o1 w q p payload_type exec_cmd envStr download_addr).1
        q p payload_type2 exec_cmd2 envStr2 download_addr2).2 = 0 := by simpa using hc2
    obtain ⟨_, hfs2, _, _⟩ := handleCompressedModule_frame env o2 (handleCompressedModule env o1
      w q p payload_type exec_cmd envStr download_addr).1 q p payload_type2 exec_cmd2 envStr2
      download_addr2 (Or.inl hex1')
    have hfs2' := hfs2 hex1'
    have hs1 := handleCompressedModule_sends_all env o1 w q p payload_type exec_cmd envStr
      download_addr harch
    have hs2 := handleCompressedModule_sends_all env o2 (handleCompressedModule env o1 w q p
      payload_type exec_cmd envStr download_addr).1 q p payload_type2 exec_cmd2 envStr2
      download_addr2 (Or.inl hex1')
    refine ⟨hc2', ?_, hfs2', hs1, ?_⟩
    · rw [hc1, hc2']
      split <;> simp
    · rw [hs2, hfs2', hname, hag1]

/-- C11 amended, at `plainArchive` with no archive on disk: the first dispatch compresses, the
second, whose environment string lists the options in another order, does not, and sends a
start command with the same checksum. -/
theorem C11_archive_reuse_witness :
    tarXZCalls (handleCompressedModule sampleEnv {} (worldWith plainArchive (some agentA1)) 0 0
        "elf" "run.sh" "a=1,b=2," "").2 = 1
      ∧ tarXZCalls (handleCompressedModule sampleEnv {}
          (handleCompressedModule sampleEnv {} (worldWith plainArchive (some agentA1)) 0 0
            "elf" "run.sh" "a=1,b=2," "").1 0 0 "elf" "run.sh" "b=2,a=1," "").2 = 0 :=
  have h := C11_archive_reuse sampleEnv {} {} (worldWith plainArchive (some agentA1)) 0 0
    "elf" "run.sh" "a=1,b=2," "" "elf" "run.sh" "b=2,a=1," ""
  ⟨h.1, (h.2.2 (Or.inr ⟨[], rfl⟩)).1⟩

/-! ## The interactive step -/

/-- C12, the failing input: an interactive module with an `args` option whose probe is never
answered (the result table stays empty). None of the 10 polls finds the hash, yet after
the 10 blinks `handleInteractiveModule` calls `SSHClient`, and it logs no failure. -/
theorem C12_bridge_opened_without_match :
    (probeWait (fun _ T => T) (sampleEnv.SHA256SumRaw sampleEnv.MagicString) 10 0 [] "id").1
        = false
      ∧ (handleInteractiveModule sampleEnv {} (worldWith interactiveArchive (some agentA1))
          0 0 "id").2
        = List.replicate 10 Event.blink ++ [Event.ssh "/agent/M/shell.sh" "-l" "1024"] := by
  decide

/-- Whatever the probe wait finds, `handleInteractiveModule` on a module with an `args` option
calls `SSHClient` with the module's executable, the option's value and the chosen port. -/
theorem handleInteractiveModule_opens_bridge (env : Env) (o : Oracle) (w : World) (q p : Nat)
    (cmd_id : String) (opts : List (String × Option ModOption)) (opt : ModOption)
    (h1 : (w.heap q).Options = some opts) (h2 : mapGet opts "args" = some (some opt)) :
    Event.ssh (env.AgentRoot ++ "/" ++ (w.heap p).Name ++ "/" ++ (w.heap q).AgentConfig.Exec)
      opt.Val (toString o.port) ∈ (handleInteractiveModule env o w q p cmd_id).2 := by
  unfold handleInteractiveModule
  simp [h1, h2]

theorem probeWait_table (arrivals : Nat → List (String × String) → List (String × String))
    (look_for cmd_id k : String) (hk : ∀ j T, mapGet (arrivals j T) k = mapGet T k)
    (n i : Nat) (T : List (String × String)) :
    mapGet (probeWait arrivals look_for n i T cmd_id).2.1 k = mapGet T k := by
  induction n generalizing i T with
  | zero => rfl
  | succ n ih =>
    unfold probeWait
    by_cases h : Contains ((mapGet (arrivals i T) cmd_id).getD "") look_for = true
    · simp [h, hk]
    · simp only [h]
      have := ih (i + 1) (arrivals i T)
      simpa [hk] using this

theorem crashed_probeWait (arrivals : Nat → List (String × String) → List (String × String))
    (look_for cmd_id : String) (n i : Nat) (T : List (String × String)) :
    crashed (probeWait arrivals look_for n i T cmd_id).2.2 = false := by
  induction n generalizing i T with
  | zero => rfl
  | succ n ih =>
    unfold probeWait
    by_cases h : Contains ((mapGet (arrivals i T) cmd_id).getD "") look_for = true
    · simp [h, crashed]
    · simp only [h]
      have := ih (i + 1) (arrivals i T)
      simpa [crashed] using this

/-- C13: whenever `handleInteractiveModule` finishes (returns without a panic), for every
table, module config, outcome of the probe wait and outcome of the bridge, the table holds
no entry for the probe command's id, and every other entry that the transport left alone
during the wait is as before. It does finish for every module config that has an `args`
option. -/
theorem C13_probe_entry_removed (env : Env) (o : Oracle) (w : World) (q p : Nat)
    (cmd_id : String) :
    (crashed (handleInteractiveModule env o w q p cmd_id).2 = false →
        mapGet (handleInteractiveModule env o w q p cmd_id).1.CmdResults cmd_id = none
          ∧ ∀ k, k ≠ cmd_id → (∀ j T, mapGet (o.arrivals j T) k = mapGet T k) →
              mapGet (handleInteractiveModule env o w q p cmd_id).1.CmdResults k
                = mapGet w.CmdResults k)
      ∧ (∀ opts opt, (w.heap q).Options = some opts → mapGet opts "args" = some (some opt) →
          crashed (handleInteractiveModule env o w q p cmd_id).2 = false) := by
  constructor
  · intro hc
    unfold handleInteractiveModule at hc ⊢
    cases h1 : (w.heap q).Options with
    | none => simp [h1, crashed] at hc
    | some opts =>
      cases h2 : mapGet opts "args" with
      | none => simp [h1, h2, crashed] at hc
      | some x =>
        cases x with
        | none => simp [h1, h2, crashed] at hc
        | some opt =>
          simp only [h1, h2]
          refine ⟨mapGet_mapDelete_self _ _, ?_⟩
          intro k hk harr
          rw [mapGet_mapDelete_ne _ _ _ hk]
          exact probeWait_table o.arrivals _ cmd_id k harr 10 0 w.CmdResults
  · intro opts opt h1 h2
    unfold handleInteractiveModule
    have h3 := crashed_probeWait o.arrivals (env.SHA256SumRaw env.MagicString) cmd_id 10 0
      w.CmdResults
    simp only [crashed, List.any_eq_false] at h3
    cases h4 : o.sshErr <;> simp [h1, h2, h4, crashed] <;>
      exact fun x hx => by simpa using h3 x hx

/-- C13, at an interactive module whose probe was answered and whose bridge fails: the entry
of the probe id is gone. -/
theorem C13_probe_entry_removed_witness :
    mapGet (handleInteractiveModule sampleEnv { sshErr := some "connection refused" }
      { worldWith interactiveArchive (some agentA1) with
        CmdResults := [("id", "3e25960a79dbc69b674cd4ec67a72c62"), ("other", "x")] }
      0 0 "id").1.CmdResults "id" = none :=
  ((C13_probe_entry_removed sampleEnv { sshErr := some "connection refused" }
    { worldWith interactiveArchive (some agentA1) with
      CmdResults := [("id", "3e25960a79dbc69b674cd4ec67a72c62"), ("other", "x")] }
    0 0 "id").1 (by decide)).1

/-! ## Port-forward "off" -/

theorem string_append_left_cancel (a x y : String) (h : a ++ x = a ++ y) : x = y := by
  have h1 := congrArg String.data h
  simp only [String.data_append] at h1
  exact String.ext (List.append_cancel_left h1)

theorem string_append_right_cancel (x y b : String) (h : x ++ b = y ++ b) : x = y := by
  have h1 := congrArg String.data h
  simp only [String.data_append] at h1
  exact String.ext (List.append_cancel_right h1)

theorem portFwdStopCmd_injective (env : Env) (id1 id2 : String)
    (h : portFwdStopCmd env id1 = portFwdStopCmd env id2) : id1 = id2 := by
  unfold portFwdStopCmd at h
  exact string_append_left_cancel _ _ _ (string_append_right_cancel _ _ _ h)

theorem value_unique_of_nodup_keys {V : Type} (l : List (String × V)) (k : String) (v1 v2 : V)
    (hn : (l.map Prod.fst).Nodup) (h1 : (k, v1) ∈ l) (h2 : (k, v2) ∈ l) : v1 = v2 := by
  induction l with
  | nil => cases h1
  | cons e rest ih =>
    simp only [List.map_cons, List.nodup_cons] at hn
    have hk : ∀ v, (k, v) ∈ rest → k ∈ rest.map Prod.fst :=
      fun v hv => List.mem_map.mpr ⟨(k, v), hv, rfl⟩
    rcases List.mem_cons.mp h1 with h1 | h1 <;> rcases List.mem_cons.mp h2 with h2 | h2
    · have := h1.trans h2.symm
      exact (Prod.mk.inj this).2
    · exact absurd (hk v2 h2) (by rw [← h1] at hn; exact hn.1)
    · exact absurd (hk v1 h1) (by rw [← h2] at hn; exact hn.1)
    · exact ih hn.2 h1 h2

theorem mem_mapDelete {V : Type} (l : List (String × V)) (k : String) (e : String × V) :
    e ∈ mapDelete l k ↔ e ∈ l ∧ e.1 ≠ k := by
  simp [mapDelete]

theorem cancelledIds_append (a b : List Event) :
    cancelledIds (a ++ b) = cancelledIds a ++ cancelledIds b := by
  simp [cancelledIds, List.filterMap_append]

theorem sentTo_append (a b : List Event) : sentTo (a ++ b) = sentTo a ++ sentTo b := by
  simp [sentTo, List.filterMap_append]

theorem quiet_notFound_reports {α : Type} (l : List α) (dest lport : String) :
    cancelledIds (l.map (fun _ => notFoundReport dest lport)) = []
      ∧ sentTo (l.map (fun _ => notFoundReport dest lport)) = [] := by
  induction l with
  | nil => exact ⟨rfl, rfl⟩
  | cons e rest ih =>
    constructor
    · simp [cancelledIds, notFoundReport]
    · simp [sentTo, notFoundReport]

theorem quiet_sendCmdErrEvents (o : Oracle) (cmd : String) :
    cancelledIds (sendCmdErrEvents o cmd) = [] ∧ sentTo (sendCmdErrEvents o cmd) = [] := by
  unfold sendCmdErrEvents
  cases o.sendErrOf cmd <;> exact ⟨rfl, rfl⟩

/-- The "off" loop on sessions none of which has the requested tuple: one not-found report per
session, nothing else. -/
theorem portFwdOffLoop_no_match (env : Env) (o : Oracle) (opts : List (String × Option ModOption))
    (activeTag : String) (all : List (String × PortFwdSession)) (toOpt listenPortOpt : ModOption)
    (hto : mapGet opts "to" = some (some toOpt))
    (hlp : mapGet opts "listen_port" = some (some listenPortOpt))
    (l : List (String × PortFwdSession))
    (hl : ∀ e ∈ l, ¬ (e.2.To = toOpt.Val ∧ e.2.Lport = listenPortOpt.Val)) :
    portFwdOffLoop env o opts activeTag all l
      = (all, l.map (fun _ => notFoundReport toOpt.Val listenPortOpt.Val)) := by
  induction l with
  | nil => rfl
  | cons e rest ih =>
    obtain ⟨id, session⟩ := e
    have h1 := hl (id, session) (List.mem_cons_self _ _)
    have h2 := ih (fun x hx => hl x (List.mem_cons_of_mem _ hx))
    simp only [portFwdOffLoop, hto, hlp, h2]
    simp only at h1
    simp [h1]

/-- The "off" loop on sessions of which `(id, s)` is the first with the requested tuple: one
not-found report per session before it, then the teardown of `id`. -/
theorem portFwdOffLoop_first_match (env : Env) (o : Oracle)
    (opts : List (String × Option ModOption)) (activeTag : String)
    (all : List (String × PortFwdSession)) (toOpt listenPortOpt : ModOption)
    (hto : mapGet opts "to" = some (some toOpt))
    (hlp : mapGet opts "listen_port" = some (some listenPortOpt))
    (pre post : List (String × PortFwdSession)) (id : String) (s : PortFwdSession)
    (hpre : ∀ e ∈ pre, ¬ (e.2.To = toOpt.Val ∧ e.2.Lport = listenPortOpt.Val))
    (hs : s.To = toOpt.Val ∧ s.Lport = listenPortOpt.Val) :
    portFwdOffLoop env o opts activeTag all (pre ++ (id, s) :: post)
      = (mapDelete all id,
          pre.map (fun _ => notFoundReport toOpt.Val listenPortOpt.Val) ++
            [Event.cancel id, Event.send (portFwdStopCmd env id) "" activeTag] ++
            sendCmdErrEvents o (portFwdStopCmd env id)) := by
  induction pre with
  | nil =>
    simp only [List.nil_append, portFwdOffLoop, hto, hlp, List.map_nil]
    simp [hs.1, hs.2]
  | cons e rest ih =>
    obtain ⟨id0, session⟩ := e
    have h1 := hpre (id0, session) (List.mem_cons_self _ _)
    have h2 := ih (fun x hx => hpre x (List.mem_cons_of_mem _ hx))
    simp only [List.cons_append, portFwdOffLoop, hto, hlp]
    simp only at h1
    simp [h1, h2]

theorem first_match_split (l : List (String × PortFwdSession)) (dest lport : String) :
    (∀ e ∈ l, ¬ (e.2.To = dest ∧ e.2.Lport = lport))
      ∨ ∃ pre id s post, l = pre ++ (id, s) :: post
          ∧ (∀ e ∈ pre, ¬ (e.2.To = dest ∧ e.2.Lport = lport))
          ∧ (s.To = dest ∧ s.Lport = lport) := by
  induction l with
  | nil => exact Or.inl (fun e he => absurd he (List.not_mem_nil e))
  | cons e rest ih =>
    by_cases he : e.2.To = dest ∧ e.2.Lport = lport
    · obtain ⟨id, s⟩ := e
      exact Or.inr ⟨[], id, s, rest, rfl, fun x hx => absurd hx (List.not_mem_nil x), he⟩
    · rcases ih with h | ⟨pre, id, s, post, hl, hpre, hs⟩
      · left
        intro x hx
        rcases List.mem_cons.mp hx with hx | hx
        · rw [hx]; exact he
        · exact h x hx
      · right
        refine ⟨e :: pre, id, s, post, by rw [hl]; rfl, ?_, hs⟩
        intro x hx
        rcases List.mem_cons.mp hx with hx | hx
        · rw [hx]; exact he
        · exact hpre x hx

/-- What `modulePortFwd` does with an "off" request whose options are in place, when an active
agent is returned. -/
theorem modulePortFwd_off (env : Env) (o : Oracle) (w : World) (p : Nat) (a : Agent)
    (switchOpt : ModOption) (ha : o.activeAgent = some a) (hm : w.ActiveModule = some p)
    (hsw : mapGet ((w.heap p).Options.getD []) "switch" = some (some switchOpt))
    (hoff : switchOpt.Val = "off") :
    modulePortFwd env o w
      = ({ w with PortFwds :=
            (portFwdOffLoop env o ((w.heap p).Options.getD []) a.Tag w.PortFwds w.PortFwds).1 },
          (portFwdOffLoop env o ((w.heap p).Options.getD []) a.Tag w.PortFwds w.PortFwds).2) := by
  simp [modulePortFwd, ha, hm, hsw, hoff]

/-- The run of an "off" request on a registry in which `(id, s)` is the first session with
the requested destination and listen port. -/
theorem modulePortFwd_first_match (env : Env) (o : Oracle) (w : World) (p : Nat) (a : Agent)
    (switchOpt toOpt listenPortOpt : ModOption) (pre post : List (String × PortFwdSession))
    (id : String) (s : PortFwdSession)
    (ha : o.activeAgent = some a) (hm : w.ActiveModule = some p)
    (hsw : mapGet ((w.heap p).Options.getD []) "switch" = some (some switchOpt))
    (hoff : switchOpt.Val = "off")
    (hto : mapGet ((w.heap p).Options.getD []) "to" = some (some toOpt))
    (hlp : mapGet ((w.heap p).Options.getD []) "listen_port" = some (some listenPortOpt))
    (hreg : w.PortFwds = pre ++ (id, s) :: post)
    (hpre : ∀ e ∈ pre, ¬ (e.2.To = toOpt.Val ∧ e.2.Lport = listenPortOpt.Val))
    (hs : s.To = toOpt.Val ∧ s.Lport = listenPortOpt.Val) :
    modulePortFwd env o w
        = ({ w with PortFwds := mapDelete w.PortFwds id },
            pre.map (fun _ => notFoundReport toOpt.Val listenPortOpt.Val) ++
              [Event.cancel id, Event.send (portFwdStopCmd env id) "" a.Tag] ++
              sendCmdErrEvents o (portFwdStopCmd env id))
      ∧ cancelledIds (modulePortFwd env o w).2 = [id] := by
  have hloop := portFwdOffLoop_first_match env o ((w.heap p).Options.getD []) a.Tag
    w.PortFwds toOpt listenPortOpt hto hlp pre post id s hpre hs
  rw [← hreg] at hloop
  have h : modulePortFwd env o w
      = ({ w with PortFwds := mapDelete w.PortFwds id },
          pre.map (fun _ => notFoundReport toOpt.Val listenPortOpt.Val) ++
            [Event.cancel id, Event.send (portFwdStopCmd env id) "" a.Tag] ++
            sendCmdErrEvents o (portFwdStopCmd env id)) := by
    rw [modulePortFwd_off env o w p a switchOpt ha hm hsw hoff, hloop]
  refine ⟨h, ?_⟩
  rw [h]
  have hq := quiet_notFound_reports pre toOpt.Val listenPortOpt.Val
  have he := quiet_sendCmdErrEvents o (portFwdStopCmd env id)
  simp only [cancelledIds_append, hq.1, he.1]
  simp [cancelledIds]

/-- C14: for every session registry (its keys distinct, as in a Go map) and every "off" request
whose options hold a destination and a listen port, a registered session whose destination
or listen port differs from the request is not cancelled, stays in the registry, and no
stop command naming its id is sent, to any agent. -/
theorem C14_off_leaves_other_sessions (env : Env) (o : Oracle) (w : World) (p : Nat)
    (switchOpt toOpt listenPortOpt : ModOption) (id : String) (s : PortFwdSession)
    (hm : w.ActiveModule = some p)
    (hsw : mapGet ((w.heap p).Options.getD []) "switch" = some (some switchOpt))
    (hoff : switchOpt.Val = "off")
    (hto : mapGet ((w.heap p).Options.getD []) "to" = some (some toOpt))
    (hlp : mapGet ((w.heap p).Options.getD []) "listen_port" = some (some listenPortOpt))
    (hn : (w.PortFwds.map Prod.fst).Nodup) (hmem : (id, s) ∈ w.PortFwds)
    (hdiff : s.To ≠ toOpt.Val ∨ s.Lport ≠ listenPortOpt.Val) :
    id ∉ cancelledIds (modulePortFwd env o w).2
      ∧ (id, s) ∈ (modulePortFwd env o w).1.PortFwds
      ∧ ∀ tag, (portFwdStopCmd env id, tag) ∉ sentTo (modulePortFwd env o w).2 := by
  cases ha : o.activeAgent with
  | none =>
    have h : modulePortFwd env o w = (w, [.log .error "No active agent" []]) := by
      simp [modulePortFwd, ha]
    rw [h]
    exact ⟨by simp [cancelledIds], hmem, fun tag => by simp [sentTo]⟩
  | some a =>
    rw [modulePortFwd_off env o w p a switchOpt ha hm hsw hoff]
    rcases first_match_split w.PortFwds toOpt.Val listenPortOpt.Val with
      hnone | ⟨pre, id2, s2, post, hl, hpre, hs⟩
    · rw [portFwdOffLoop_no_match env o _ a.Tag w.PortFwds toOpt listenPortOpt hto hlp
        w.PortFwds hnone]
      have hq := quiet_notFound_reports w.PortFwds toOpt.Val listenPortOpt.Val
      simp only
      rw [hq.1, hq.2]
      exact ⟨by simp, hmem, fun tag => by simp⟩
    · have hloop := portFwdOffLoop_first_match env o ((w.heap p).Options.getD []) a.Tag
        w.PortFwds toOpt listenPortOpt hto hlp pre post id2 s2 hpre hs
      rw [← hl] at hloop
      rw [hloop]
      have hmem2 : (id2, s2) ∈ w.PortFwds := by rw [hl]; simp
      have hne : id ≠ id2 := by
        intro h
        subst h
        have := value_unique_of_nodup_keys w.PortFwds id s s2 hn hmem hmem2
        subst this
        rcases hdiff with hd | hd
        · exact hd hs.1
        · exact hd hs.2
      have hq := quiet_notFound_reports pre toOpt.Val listenPortOpt.Val
      have he := quiet_sendCmdErrEvents o (portFwdStopCmd env id2)
      simp only [cancelledIds_append, sentTo_append, hq.1, hq.2, he.1, he.2]
      refine ⟨?_, ?_, ?_⟩
      · simp [cancelledIds, hne]
      · exact (mem_mapDelete w.PortFwds id2 (id, s)).mpr ⟨hmem, hne⟩
      · intro tag
        simp only [sentTo, List.filterMap_cons, List.filterMap_nil, List.nil_append,
          List.append_nil, List.mem_singleton, Prod.mk.injEq, not_and]
        intro h
        exact absurd (portFwdStopCmd_injective env id id2 h) hne

/-- C14, at the request (to = "10.0.0.5:80", listen_port = "8080") against a registry that
holds a session to 10.0.0.6:22 under "s1" and a matching session under "s2". -/
theorem C14_off_leaves_other_sessions_witness :
    "s1" ∉ cancelledIds (modulePortFwd sampleEnv oracleA1 (portFwdWorld (portFwdOptions "off" none)
        [("s1", sshSession), ("s2", webSession "tcp" agentA1)])).2
      ∧ ("s1", sshSession) ∈ (modulePortFwd sampleEnv oracleA1
          (portFwdWorld (portFwdOptions "off" none)
            [("s1", sshSession), ("s2", webSession "tcp" agentA1)])).1.PortFwds :=
  have h := C14_off_leaves_other_sessions sampleEnv oracleA1
    (portFwdWorld (portFwdOptions "off" none)
      [("s1", sshSession), ("s2", webSession "tcp" agentA1)]) 0
    ⟨"switch", "operation", "off", ["on", "off", "reverse"]⟩
    ⟨"to", "destination", "10.0.0.5:80", []⟩ ⟨"listen_port", "port", "8080", []⟩
    "s1" sshSession rfl rfl rfl rfl rfl (by decide) (by decide) (Or.inl (by decide))
  ⟨h.1, h.2.1⟩

/-- C15, the failing inputs: with an empty registry an "off" request reports nothing at all,
although no session has the requested tuple; and with a non-matching session visited before
a matching one, the not-found error is reported although a session matches (which is then
torn down). -/
theorem C15_not_found_misreported :
    modulePortFwd sampleEnv oracleA1 (portFwdWorld (portFwdOptions "off" none) [])
        = (portFwdWorld (portFwdOptions "off" none) [], [])
      ∧ (modulePortFwd sampleEnv oracleA1 (portFwdWorld (portFwdOptions "off" none)
          [("s1", sshSession), ("s2", webSession "tcp" agentA1)])).2
        = [notFoundReport "10.0.0.5:80" "8080", .cancel "s2",
           .send "!port_fwd --shID s2 --operation stop" "" "a1"] := by
  constructor
  · simp [modulePortFwd, oracleA1, portFwdWorld, portFwdOptions, mapGet, portFwdOffLoop]
  · decide

/-- C16 fails as stated: a TCP and a UDP session share (to, listen_port); visited in one order
the "off" request tears down the TCP session, visited in the other order the same request
tears down the UDP session. -/
theorem C16_iteration_order_counterexample :
    cancelledIds (modulePortFwd sampleEnv oracleA1 (portFwdWorld (portFwdOptions "off" none)
        [("t", webSession "tcp" agentA1), ("u", webSession "udp" agentA1)])).2 = ["t"]
      ∧ cancelledIds (modulePortFwd sampleEnv oracleA1 (portFwdWorld (portFwdOptions "off" none)
          ([("t", webSession "tcp" agentA1), ("u", webSession "udp" agentA1)].reverse))).2
        = ["u"]
      ∧ (modulePortFwd sampleEnv oracleA1 (portFwdWorld (portFwdOptions "off" none)
          [("t", webSession "tcp" agentA1), ("u", webSession "udp" agentA1)])).1.PortFwds
        = [("u", webSession "udp" agentA1)]
      ∧ (modulePortFwd sampleEnv oracleA1 (portFwdWorld (portFwdOptions "off" none)
          ([("t", webSession "tcp" agentA1), ("u", webSession "udp" agentA1)].reverse))).1.PortFwds
        = [("t", webSession "tcp" agentA1)] := by
  decide

/-- C16, amended: an "off" request tears down the first session, in the order in which the
registry is visited, whose destination and listen port equal the request's; protocol and
description are not looked at and every later session stays. The run reports not-found for
each session visited before it, cancels it, deletes it from the registry and sends one stop
command to the active agent. -/
theorem C16_first_match_torn_down (env : Env) (o : Oracle) (w : World) (p : Nat) (a : Agent)
    (switchOpt toOpt listenPortOpt : ModOption) (pre post : List (String × PortFwdSession))
    (id : String) (s : PortFwdSession)
    (ha : o.activeAgent = some a) (hm : w.ActiveModule = some p)
    (hsw : mapGet ((w.heap p).Options.getD []) "switch" = some (some switchOpt))
    (hoff : switchOpt.Val = "off")
    (hto : mapGet ((w.heap p).Options.getD []) "to" = some (some toOpt))
    (hlp : mapGet ((w.heap p).Options.getD []) "listen_port" = some (some listenPortOpt))
    (hreg : w.PortFwds = pre ++ (id, s) :: post)
    (hpre : ∀ e ∈ pre, ¬ (e.2.To = toOpt.Val ∧ e.2.Lport = listenPortOpt.Val))
    (hs : s.To = toOpt.Val ∧ s.Lport = listenPortOpt.Val) :
    modulePortFwd env o w
        = ({ w with PortFwds := mapDelete w.PortFwds id },
            pre.map (fun _ => notFoundReport toOpt.Val listenPortOpt.Val) ++
              [Event.cancel id, Event.send (portFwdStopCmd env id) "" a.Tag] ++
              sendCmdErrEvents o (portFwdStopCmd env id))
      ∧ cancelledIds (modulePortFwd env o w).2 = [id] :=
  modulePortFwd_first_match env o w p a switchOpt toOpt listenPortOpt pre post id s ha hm hsw hoff
    hto hlp hreg hpre hs

/-- C16 amended, at the registry that is visited UDP session first. -/
theorem C16_first_match_torn_down_witness :
    cancelledIds (modulePortFwd sampleEnv oracleA1 (portFwdWorld (portFwdOptions "off" none)
      [("u", webSession "udp" agentA1), ("t", webSession "tcp" agentA1)])).2 = ["u"] :=
  (C16_first_match_torn_down sampleEnv oracleA1 (portFwdWorld (portFwdOptions "off" none)
      [("u", webSession "udp" agentA1), ("t", webSession "tcp" agentA1)]) 0 agentA1
    ⟨"switch", "operation", "off", ["on", "off", "reverse"]⟩
    ⟨"to", "destination", "10.0.0.5:80", []⟩ ⟨"listen_port", "port", "8080", []⟩
    [] [("t", webSession "tcp" agentA1)] "u" (webSession "udp" agentA1)
    rfl rfl rfl rfl rfl rfl rfl (fun e he => absurd he (List.not_mem_nil e))
    ⟨rfl, rfl⟩).2

/-- C17: after an "off" request has torn down the only session with the requested destination
and listen port, a second identical request (whatever agent is active then, whatever the
sends do) cancels no session, leaves the world and its registry as they are, and sends no
command. -/
theorem C17_second_off_changes_nothing (env : Env) (o1 o2 : Oracle) (w : World) (p : Nat)
    (a : Agent) (switchOpt toOpt listenPortOpt : ModOption)
    (pre post : List (String × PortFwdSession)) (id : String) (s : PortFwdSession)
    (ha : o1.activeAgent = some a) (hm : w.ActiveModule = some p)
    (hsw : mapGet ((w.heap p).Options.getD []) "switch" = some (some switchOpt))
    (hoff : switchOpt.Val = "off")
    (hto : mapGet ((w.heap p).Options.getD []) "to" = some (some toOpt))
    (hlp : mapGet ((w.heap p).Options.getD []) "listen_port" = some (some listenPortOpt))
    (hreg : w.PortFwds = pre ++ (id, s) :: post)
    (hs : s.To = toOpt.Val ∧ s.Lport = listenPortOpt.Val)
    (huniq : ∀ e ∈ pre ++ post, ¬ (e.2.To = toOpt.Val ∧ e.2.Lport = listenPortOpt.Val)) :
    cancelledIds (modulePortFwd env o1 w).2 = [id]
      ∧ (modulePortFwd env o2 (modulePortFwd env o1 w).1).1 = (modulePortFwd env o1 w).1
      ∧ cancelledIds (modulePortFwd env o2 (modulePortFwd env o1 w).1).2 = []
      ∧ sentTo (modulePortFwd env o2 (modulePortFwd env o1 w).1).2 = [] := by
  have hpre : ∀ e ∈ pre, ¬ (e.2.To = toOpt.Val ∧ e.2.Lport = listenPortOpt.Val) :=
    fun e he => huniq e (List.mem_append_left _ he)
  obtain ⟨h1, hc⟩ := modulePortFwd_first_match env o1 w p a switchOpt toOpt listenPortOpt pre post
    id s ha hm hsw hoff hto hlp hreg hpre hs
  refine ⟨hc, ?_⟩
  rw [h1]
  have hrest : ∀ e ∈ mapDelete w.PortFwds id,
      ¬ (e.2.To = toOpt.Val ∧ e.2.Lport = listenPortOpt.Val) := by
    intro e he
    obtain ⟨hin, hne⟩ := (mem_mapDelete w.PortFwds id e).mp he
    rw [hreg] at hin
    rcases List.mem_append.mp hin with hin | hin
    · exact huniq e (List.mem_append_left _ hin)
    · rcases List.mem_cons.mp hin with hin | hin
      · exact absurd (by rw [hin]) hne
      · exact huniq e (List.mem_append_right _ hin)
  cases ha2 : o2.activeAgent with
  | none =>
    have h : modulePortFwd env o2 { w with PortFwds := mapDelete w.PortFwds id }
        = ({ w with PortFwds := mapDelete w.PortFwds id },
            [.log .error "No active agent" []]) := by
      simp [modulePortFwd, ha2]
    rw [h]
    exact ⟨rfl, rfl, rfl⟩
  | some a2 =>
    rw [modulePortFwd_off env o2 { w with PortFwds := mapDelete w.PortFwds id } p a2 switchOpt
      ha2 hm hsw hoff]
    have hloop := portFwdOffLoop_no_match env o2 ((w.heap p).Options.getD []) a2.Tag
      (mapDelete w.PortFwds id) toOpt listenPortOpt hto hlp (mapDelete w.PortFwds id) hrest
    have hq := quiet_notFound_reports (mapDelete w.PortFwds id) toOpt.Val listenPortOpt.Val
    simp only at hloop ⊢
    rw [hloop]
    exact ⟨rfl, hq.1, hq.2⟩

/-- C17, at a registry whose only session to 10.0.0.5:80 on 8080 is "s2": after the first
"off" request, the second one cancels nothing and sends nothing. -/
theorem C17_second_off_changes_nothing_witness :
    cancelledIds (modulePortFwd sampleEnv oracleA1
        (modulePortFwd sampleEnv oracleA1 (portFwdWorld (portFwdOptions "off" none)
          [("s1", sshSession), ("s2", webSession "tcp" agentA1)])).1).2 = []
      ∧ sentTo (modulePortFwd sampleEnv oracleA1
        (modulePortFwd sampleEnv oracleA1 (portFwdWorld (portFwdOptions "off" none)
          [("s1", sshSession), ("s2", webSession "tcp" agentA1)])).1).2 = [] :=
  have h := C17_second_off_changes_nothing sampleEnv oracleA1 oracleA1
    (portFwdWorld (portFwdOptions "off" none)
      [("s1", sshSession), ("s2", webSession "tcp" agentA1)]) 0 agentA1
    ⟨"switch", "operation", "off", ["on", "off", "reverse"]⟩
    ⟨"to", "destination", "10.0.0.5:80", []⟩ ⟨"listen_port", "port", "8080", []⟩
    [("s1", sshSession)] [] "s2" (webSession "tcp" agentA1)
    rfl rfl rfl rfl rfl rfl rfl ⟨rfl, rfl⟩ (by decide)
  ⟨h.2.2.1, h.2.2.2⟩

/-- C18, the failing input: the session "s2" is owned by agent `a2` while `a1` is the active
agent. The "off" request sends exactly one command, with the text
`<C2CmdPortFwd> --shID s2 --operation stop`, but addresses it to `a1`, not to the owner. -/
theorem C18_stop_sent_to_active_agent :
    (webSession "tcp" agentA2).Agent = some agentA2
      ∧ agentA2.Tag ≠ agentA1.Tag
      ∧ sentTo (modulePortFwd sampleEnv oracleA1 (portFwdWorld (portFwdOptions "off" none)
          [("s2", webSession "tcp" agentA2)])).2
        = [(portFwdStopCmd sampleEnv "s2", "a1")]
      ∧ portFwdStopCmd sampleEnv "s2" = "!port_fwd --shID s2 --operation stop" := by
  decide

/-! ## Proxy "off" and bind addresses -/

/-- What `moduleProxy` does with an "off" request whose options are in place, when an active
agent is returned: the world stays as it is and the loop runs over the registry. -/
theorem moduleProxy_off (env : Env) (o : Oracle) (w : World) (p : Nat) (a : Agent)
    (portOpt statusOpt : ModOption) (b : String)
    (ha : o.activeAgent = some a) (hm : w.ActiveModule = some p)
    (hport : mapGet ((w.heap p).Options.getD []) "port" = some (some portOpt))
    (hstatus : mapGet ((w.heap p).Options.getD []) "status" = some (some statusOpt))
    (hoff : statusOpt.Val = "off")
    (hbind : proxyBindAddr ((w.heap p).Options.getD []) = some b) :
    moduleProxy env o w
      = (w, proxyOffLoop env o
          (proxyTcpDescription b portOpt.Val ("127.0.0.1:" ++ env.AgentSocksServerPort))
          (proxyUdpDescription b portOpt.Val ("127.0.0.1:" ++ env.AgentSocksServerPort))
          w.PortFwds) := by
  have hne : ¬ ("off" = "on") := by decide
  simp [moduleProxy, ha, hm, hport, hstatus, hoff, hbind, hne, proxyTcpSession, proxyUdpSession]

theorem proxyOffLoop_cancels_only_matching (env : Env) (o : Oracle) (td ud : String)
    (l : List (String × PortFwdSession)) :
    ∀ id ∈ cancelledIds (proxyOffLoop env o td ud l),
      ∃ s, (id, s) ∈ l ∧ (s.Description = td ∨ s.Description = ud) := by
  induction l with
  | nil => intro id h; simp [proxyOffLoop, cancelledIds] at h
  | cons e rest ih =>
    obtain ⟨id0, session⟩ := e
    intro id h
    unfold proxyOffLoop at h
    by_cases hd : session.Description = td ∨ session.Description = ud
    · simp only [hd, if_true] at h
      cases hag : session.Agent with
      | none =>
        simp [hag, cancelledIds] at h
        exact ⟨session, by simp [h], hd⟩
      | some owner =>
        cases hs : o.sendErrOf (proxyDeleteCmd env id0) with
        | some err =>
          simp [hag, hs, cancelledIds] at h
          exact ⟨session, by simp [h], hd⟩
        | none =>
          simp only [hag, hs] at h
          have h2 : id = id0 ∨ id ∈ cancelledIds (proxyOffLoop env o td ud rest) := by
            simpa [cancelledIds] using h
          rcases h2 with h2 | h2
          · exact ⟨session, by simp [h2], hd⟩
          · obtain ⟨s, hs1, hs2⟩ := ih id h2
            exact ⟨s, List.mem_cons_of_mem _ hs1, hs2⟩
    · simp only [hd, if_false] at h
      obtain ⟨s, hs1, hs2⟩ := ih id h
      exact ⟨s, List.mem_cons_of_mem _ hs1, hs2⟩

theorem proxyOffLoop_all_sends_succeed (env : Env) (o : Oracle) (td ud : String)
    (hsend : ∀ cmd, o.sendErrOf cmd = none) (l : List (String × PortFwdSession))
    (howner : ∀ e ∈ l, (e.2.Description = td ∨ e.2.Description = ud) → e.2.Agent ≠ none) :
    ∀ id s owner, (id, s) ∈ l → (s.Description = td ∨ s.Description = ud) →
      s.Agent = some owner →
      id ∈ cancelledIds (proxyOffLoop env o td ud l)
        ∧ (proxyDeleteCmd env id, owner.Tag) ∈ sentTo (proxyOffLoop env o td ud l) := by
  induction l with
  | nil => intro id s owner h; cases h
  | cons e rest ih =>
    obtain ⟨id0, session⟩ := e
    intro id s owner hmem hd hag
    have ih2 := ih (fun x hx => howner x (List.mem_cons_of_mem _ hx))
    unfold proxyOffLoop
    by_cases hd0 : session.Description = td ∨ session.Description = ud
    · have hne := howner (id0, session) (List.mem_cons_self _ _) hd0
      cases hag0 : session.Agent with
      | none => exact absurd hag0 hne
      | some owner0 =>
        simp only [hd0, if_true, hsend]
        rcases List.mem_cons.mp hmem with hmem | hmem
        · obtain ⟨h1, h2⟩ := Prod.mk.inj hmem
          subst h1; subst h2
          rw [hag0] at hag
          cases hag
          simp [cancelledIds, sentTo]
        · obtain ⟨h1, h2⟩ := ih2 id s owner hmem hd hag
          constructor
          · simp only [cancelledIds] at h1 ⊢
            simp [h1]
          · simp only [sentTo] at h2 ⊢
            simp [h2]
    · simp only [hd0, if_false]
      rcases List.mem_cons.mp hmem with hmem | hmem
      · obtain ⟨h1, h2⟩ := Prod.mk.inj hmem
        subst h1; subst h2
        exact absurd hd hd0
      · exact ih2 id s owner hmem hd hag

theorem proxyOffLoop_stops_at_failed_send (env : Env) (o : Oracle) (td ud : String)
    (pre post : List (String × PortFwdSession)) (id : String) (s : PortFwdSession)
    (owner : Agent) (err : String)
    (hpre : ∀ e ∈ pre, (e.2.Description = td ∨ e.2.Description = ud) →
      e.2.Agent ≠ none ∧ o.sendErrOf (proxyDeleteCmd env e.1) = none)
    (hd : s.Description = td ∨ s.Description = ud) (hag : s.Agent = some owner)
    (hfail : o.sendErrOf (proxyDeleteCmd env id) = some err) :
    proxyOffLoop env o td ud (pre ++ (id, s) :: post)
      = proxyOffLoop env o td ud pre ++
          [Event.cancel id, Event.send (proxyDeleteCmd env id) "" owner.Tag,
            Event.log .error "SendCmd: %v" [err]] := by
  induction pre with
  | nil => simp [proxyOffLoop, hd, hag, hfail]
  | cons e rest ih =>
    obtain ⟨id0, session⟩ := e
    have ih2 := ih (fun x hx => hpre x (List.mem_cons_of_mem _ hx))
    by_cases hd0 : session.Description = td ∨ session.Description = ud
    · obtain ⟨hne, hok⟩ := hpre (id0, session) (List.mem_cons_self _ _) hd0
      cases hag0 : session.Agent with
      | none => exact absurd hag0 hne
      | some owner0 =>
        simp only at hok
        simp only [List.cons_append, proxyOffLoop, hd0, if_true, hag0, hok]
        exact congrArg (fun t => Event.cancel id0 ::
          Event.send (proxyDeleteCmd env id0) "" owner0.Tag :: t) ih2
    · simp only [List.cons_append, proxyOffLoop, hd0, if_false]
      exact ih2

/-- C19 fails as stated: the registry holds the TCP and the UDP session of the proxy and every
send fails. The "off" request cancels the first session, fails to send its delete command,
logs the error and returns: the second session, whose description is the UDP proxy
description, is not cancelled. -/
theorem C19_failed_send_counterexample :
    describesProxy sampleEnv "127.0.0.1" "8388" (proxyUdpSession sampleEnv agentA1 "8388" "127.0.0.1")
      ∧ (moduleProxy sampleEnv oracleA1SendFails
          (portFwdWorld (proxyOptions "off") proxyRegistry)).2
        = [.cancel "p1", .send "!delete_portfwd --id p1" "" "a1",
           .log .error "SendCmd: %v" ["agent offline"]]
      ∧ "p2" ∉ cancelledIds (moduleProxy sampleEnv oracleA1SendFails
          (portFwdWorld (proxyOptions "off") proxyRegistry)).2 := by
  refine ⟨Or.inr rfl, ?_, ?_⟩ <;> decide

/-- C19, amended: for a proxy "off" request with port `p` and bind address `b`, the world and
its registry stay as they are; every session that is cancelled has the TCP or the UDP proxy
description built from `(b, p)`; when every send succeeds, each registered session with
one of these descriptions is cancelled and a `<C2CmdDeletePortFwd> --id <id>` command is
sent to its owning agent; when the send for a session fails, the run ends there, after the
error is logged, and the sessions visited later are not looked at. -/
theorem C19_proxy_off (env : Env) (o : Oracle) (w : World) (p : Nat) (a : Agent)
    (portOpt statusOpt : ModOption) (b : String)
    (ha : o.activeAgent = some a) (hm : w.ActiveModule = some p)
    (hport : mapGet ((w.heap p).Options.getD []) "port" = some (some portOpt))
    (hstatus : mapGet ((w.heap p).Options.getD []) "status" = some (some statusOpt))
    (hoff : statusOpt.Val = "off")
    (hbind : proxyBindAddr ((w.heap p).Options.getD []) = some b) :
    (moduleProxy env o w).1 = w
      ∧ (∀ id ∈ cancelledIds (moduleProxy env o w).2,
          ∃ s, (id, s) ∈ w.PortFwds ∧ describesProxy env b portOpt.Val s)
      ∧ ((∀ cmd, o.sendErrOf cmd = none) →
          (∀ e ∈ w.PortFwds, describesProxy env b portOpt.Val e.2 → e.2.Agent ≠ none) →
          ∀ id s owner, (id, s) ∈ w.PortFwds → describesProxy env b portOpt.Val s →
            s.Agent = some owner →
            id ∈ cancelledIds (moduleProxy env o w).2
              ∧ (proxyDeleteCmd env id, owner.Tag) ∈ sentTo (moduleProxy env o w).2)
      ∧ (∀ pre post id s owner err, w.PortFwds = pre ++ (id, s) :: post →
          (∀ e ∈ pre, describesProxy env b portOpt.Val e.2 →
            e.2.Agent ≠ none ∧ o.sendErrOf (proxyDeleteCmd env e.1) = none) →
          describesProxy env b portOpt.Val s → s.Agent = some owner →
          o.sendErrOf (proxyDeleteCmd env id) = some err →
          (moduleProxy env o w).2
            = (moduleProxy env o { w with PortFwds := pre }).2 ++
                [Event.cancel id, Event.send (proxyDeleteCmd env id) "" owner.Tag,
                  Event.log .error "SendCmd: %v" [err]]) := by
  have h := moduleProxy_off env o w p a portOpt statusOpt b ha hm hport hstatus hoff hbind
  refine ⟨by rw [h], ?_, ?_, ?_⟩
  · rw [h]
    exact proxyOffLoop_cancels_only_matching env o _ _ w.PortFwds
  · intro hsend howner id s owner hmem hd hag
    rw [h]
    exact proxyOffLoop_all_sends_succeed env o _ _ hsend w.PortFwds howner id s owner hmem hd hag
  · intro pre post id s owner err hreg hpre hd hag hfail
    have h2 := moduleProxy_off env o { w with PortFwds := pre } p a portOpt statusOpt b ha hm
      hport hstatus hoff hbind
    rw [h, h2, hreg]
    exact proxyOffLoop_stops_at_failed_send env o _ _ pre post id s owner err hpre hd hag hfail

/-- C19 amended, at the registry of a running proxy with every send succeeding: the UDP
session is cancelled and its delete command goes to its owner. -/
theorem C19_proxy_off_witness :
    "p2" ∈ cancelledIds (moduleProxy sampleEnv oracleA1
        (portFwdWorld (proxyOptions "off") proxyRegistry)).2
      ∧ (proxyDeleteCmd sampleEnv "p2", "a1") ∈ sentTo (moduleProxy sampleEnv oracleA1
        (portFwdWorld (proxyOptions "off") proxyRegistry)).2 :=
  (C19_proxy_off sampleEnv oracleA1 (portFwdWorld (proxyOptions "off") proxyRegistry) 0 agentA1
    ⟨"port", "local port", "8388", []⟩ ⟨"status", "operation", "off", ["on", "off"]⟩
    "127.0.0.1" rfl rfl rfl rfl rfl rfl).2.2.1 (fun _ => rfl)
    (by
      intro e he _
      simp only [portFwdWorld, proxyRegistry, List.mem_cons, List.mem_singleton,
        List.not_mem_nil, or_false] at he
      rcases he with he | he <;> subst he <;> simp [proxyTcpSession, proxyUdpSession])
    "p2" (proxyUdpSession sampleEnv agentA1 "8388" "127.0.0.1") agentA1 (by decide)
    (Or.inr rfl) rfl

/-- C20, the failing input: a port-forward "on" request, and a "reverse" request, with
`bind_addr` set to "localhost" start a session whose bind address is the text "localhost",
not "127.0.0.1"; `moduleProxy` does map the same option value to "127.0.0.1". -/
theorem C20_localhost_not_normalised :
    (modulePortFwd sampleEnv oracleA1
        (portFwdWorld (portFwdOptions "on" (some "localhost")) [])).2
        = forwardGoroutine oracleA1
            { Protocol := "tcp", Lport := "8080", To := "10.0.0.5:80", BindAddr := "localhost",
              SendCmdFunc := true, Agent := some agentA1 }
      ∧ (modulePortFwd sampleEnv oracleA1
          (portFwdWorld (portFwdOptions "reverse" (some "localhost")) [])).2
        = reverseGoroutine oracleA1
            { Lport := "8080", To := "10.0.0.5:80", BindAddr := "localhost",
              SendCmdFunc := true, Agent := some agentA1 }
      ∧ proxyBindAddr (portFwdOptions "on" (some "localhost")) = some "127.0.0.1" := by
  decide

/-- The bind address of the sessions that the requests create: "127.0.0.1" when `bind_addr` is
absent; when it is present, `modulePortFwd` ("on" and "reverse") takes its value as it is,
and `moduleProxy` takes its value with "localhost" replaced by "127.0.0.1". -/
theorem new_session_bind_addr (o : Oracle) (opts : List (String × Option ModOption)) (a : Agent)
    (lport dest protocol : String) (hl : optionVal opts "listen_port" = some lport)
    (hd : optionVal opts "to" = some dest) (hp : optionVal opts "protocol" = some protocol) :
    (mapGet opts "bind_addr" = none →
        portFwdOn o opts a = forwardGoroutine o
            { Lport := lport, To := dest, BindAddr := "127.0.0.1", SendCmdFunc := true,
              Protocol := protocol, Agent := some a }
          ∧ portFwdReverse o opts a = reverseGoroutine o
            { Lport := lport, To := dest, BindAddr := "127.0.0.1", SendCmdFunc := true,
              Agent := some a }
          ∧ proxyBindAddr opts = some "127.0.0.1")
      ∧ (∀ opt, mapGet opts "bind_addr" = some (some opt) →
          portFwdOn o opts a = forwardGoroutine o
              { Lport := lport, To := dest, BindAddr := opt.Val, SendCmdFunc := true,
                Protocol := protocol, Agent := some a }
            ∧ portFwdReverse o opts a = reverseGoroutine o
              { Lport := lport, To := dest, BindAddr := opt.Val, SendCmdFunc := true,
                Agent := some a }
            ∧ proxyBindAddr opts
              = some (if opt.Val = "localhost" then "127.0.0.1" else opt.Val)) := by
  constructor
  · intro hb
    simp [portFwdOn, portFwdReverse, portFwdBindAddr, proxyBindAddr, hl, hd, hp, hb]
  · intro opt hb
    simp [portFwdOn, portFwdReverse, portFwdBindAddr, proxyBindAddr, hl, hd, hp, hb]

/-! ## The bounded wait of the proxy -/

theorem moduleProxyWait_polls (arrivals : Nat → List (String × String) → List (String × String))
    (cmd_id : String) (n i : Nat) (T : List (String × String)) :
    pollsOf (moduleProxyWait arrivals n i T cmd_id) ≤ n := by
  induction n generalizing i T with
  | zero => simp [moduleProxyWait, pollsOf]
  | succ n ih =>
    unfold moduleProxyWait
    cases h : mapGet (arrivals i T) cmd_id with
    | some v => simp [h, pollsOf]
    | none =>
      have := ih (i + 1) (arrivals i T)
      simp only [h, pollsOf, List.length_cons] at this ⊢
      omega

theorem moduleProxyWait_never_present
    (arrivals : Nat → List (String × String) → List (String × String))
    (cmd_id : String) (n i : Nat) (T : List (String × String))
    (h : ∀ k, k < n → mapGet (afterArrivals arrivals (k + 1) i T) cmd_id = none) :
    moduleProxyWait arrivals n i T cmd_id
      = (false, afterArrivals arrivals n i T, List.replicate n Event.blink) := by
  induction n generalizing i T with
  | zero => rfl
  | succ n ih =>
    have h0 : mapGet (arrivals i T) cmd_id = none := h 0 (Nat.succ_pos n)
    have h1 := ih (i + 1) (arrivals i T) (fun k hk => h (k + 1) (Nat.succ_lt_succ hk))
    unfold moduleProxyWait
    simp only [h0, h1, afterArrivals, List.replicate_succ]

theorem afterArrivals_quiet (arrivals : Nat → List (String × String) → List (String × String))
    (h : ∀ i T, arrivals i T = T) (n i : Nat) (T : List (String × String)) :
    afterArrivals arrivals n i T = T := by
  induction n generalizing i T with
  | zero => rfl
  | succ n ih => simp only [afterArrivals, h, ih]

theorem startedSessions_timeout (cmd id tag msg : String) (n : Nat) :
    startedSessions ([Event.send cmd id tag] ++ List.replicate n Event.blink ++
      [Event.log .error msg []]) = [] := by
  simp only [startedSessions, List.filterMap_append, List.filterMap_cons, List.filterMap_nil,
    List.append_nil, List.nil_append]
  rw [List.filterMap_eq_nil_iff]
  intro e he
  rw [List.eq_of_mem_replicate he]

/-- C21: in an "on" request of `moduleProxy` whose command was sent, the wait makes at most
120 polls of the result table. If the table holds no entry for the command id at any of the
polls, the run is: the send, 120 blinks, the error "Timeout waiting for agent to start SOCKS5
proxy"; neither the TCP nor the UDP session is started; and the request writes nothing to the
table: it is left as the transport made it, and as it was when the transport was idle. -/
theorem C21_proxy_wait_bounded (env : Env) (o : Oracle) (w : World) (p : Nat) (a : Agent)
    (portOpt statusOpt : ModOption) (b : String)
    (ha : o.activeAgent = some a) (hm : w.ActiveModule = some p)
    (hport : mapGet ((w.heap p).Options.getD []) "port" = some (some portOpt))
    (hstatus : mapGet ((w.heap p).Options.getD []) "status" = some (some statusOpt))
    (hon : statusOpt.Val = "on")
    (hbind : proxyBindAddr ((w.heap p).Options.getD []) = some b)
    (hsend : o.sendErrOf ("!proxy --mode on --addr 0.0.0.0:" ++ env.AgentSocksServerPort) = none) :
    pollsOf (moduleProxyWait o.arrivals 120 0 w.CmdResults o.cmd_id) ≤ 120
      ∧ ((∀ k, k < 120 →
            mapGet (afterArrivals o.arrivals (k + 1) 0 w.CmdResults) o.cmd_id = none) →
          (moduleProxy env o w).2
              = [Event.send ("!proxy --mode on --addr 0.0.0.0:" ++ env.AgentSocksServerPort)
                  o.cmd_id a.Tag] ++ List.replicate 120 Event.blink ++
                [Event.log .error "Timeout waiting for agent to start SOCKS5 proxy" []]
            ∧ startedSessions (moduleProxy env o w).2 = []
            ∧ (moduleProxy env o w).1
                = { w with CmdResults := afterArrivals o.arrivals 120 0 w.CmdResults }
            ∧ ((∀ i T, o.arrivals i T = T) → (moduleProxy env o w).1 = w)) := by
  refine ⟨moduleProxyWait_polls _ _ _ _ _, ?_⟩
  intro hno
  have hw := moduleProxyWait_never_present o.arrivals o.cmd_id 120 0 w.CmdResults hno
  have hrun : moduleProxy env o w
      = ({ w with CmdResults := afterArrivals o.arrivals 120 0 w.CmdResults },
          [Event.send ("!proxy --mode on --addr 0.0.0.0:" ++ env.AgentSocksServerPort)
            o.cmd_id a.Tag] ++ List.replicate 120 Event.blink ++
          [Event.log .error "Timeout waiting for agent to start SOCKS5 proxy" []]) := by
    unfold moduleProxy
    simp only [ha, hm, hport, hstatus, hbind, hon, ↓reduceIte]
    unfold proxyOn
    simp only [hsend, hw, ↓reduceIte]
    rw [hm]
  refine ⟨by rw [hrun], ?_, by rw [hrun], ?_⟩
  · rw [hrun]
    exact startedSessions_timeout _ _ _ _ _
  · intro hq
    rw [hrun, afterArrivals_quiet o.arrivals hq]

/-- C21, at a proxy "on" request to an agent that never answers while the transport is idle:
no session is started and the world is as before. -/
theorem C21_proxy_wait_bounded_witness :
    startedSessions (moduleProxy sampleEnv oracleA1 (portFwdWorld (proxyOptions "on") [])).2 = []
      ∧ (moduleProxy sampleEnv oracleA1 (portFwdWorld (proxyOptions "on") [])).1
          = portFwdWorld (proxyOptions "on") [] :=
  have h := (C21_proxy_wait_bounded sampleEnv oracleA1 (portFwdWorld (proxyOptions "on") []) 0
    agentA1 ⟨"port", "local port", "8388", []⟩ ⟨"status", "operation", "on", ["on", "off"]⟩
    "127.0.0.1" rfl rfl rfl rfl rfl rfl rfl).2
    (fun k _ => by
      rw [afterArrivals_quiet oracleA1.arrivals (fun _ _ => rfl)]
      rfl)
  ⟨h.2.1, h.2.2.2 (fun _ _ => rfl)⟩

/-! ## The interactive step on a module without `args` -/

theorem handleInteractiveModule_without_args (env : Env) (o : Oracle) (w : World) (q p : Nat)
    (cmd_id : String) (opts : List (String × Option ModOption))
    (h1 : (w.heap q).Options = some opts) (h2 : mapGet opts "args" = none) :
    handleInteractiveModule env o w q p cmd_id
      = (setOptions w q (mapSet opts "args" (some args_option)),
          [Event.panic "nil pointer dereference: opt"]) := by
  unfold handleInteractiveModule
  simp only [h1, h2]

/-- C30 fails in the code: for an interactive module whose options lack `args`, the step does
install the default `args` option in the module's option map, and then reads `opt.Val`
through the nil pointer that the failed lookup gave: the run ends with a panic, before the
probe wait (no blink, no `SSHClient` call). -/
theorem C30_missing_args_panics :
    (handleInteractiveModule sampleEnv {} (worldWith noArgsInteractive (some agentA1)) 0 0
        "id").2 = [Event.panic "nil pointer dereference: opt"]
      ∧ mapGet (((handleInteractiveModule sampleEnv {}
          (worldWith noArgsInteractive (some agentA1)) 0 0 "id").1.heap 0).Options.getD [])
          "args" = some (some args_option) := by
  constructor <;> rfl

/-! ## Holes in a binary -/

theorem find_hole_zeros (n i e : Nat) (rest : Bytes) (h : ∀ b, rest.head? = some b → b ≠ 0) :
    find_hole (List.replicate (n + 1) 0 ++ rest) i e = i + n := by
  induction n generalizing i e with
  | zero =>
    cases rest with
    | nil => simp [find_hole]
    | cons b bs =>
      have := h b rfl
      simp [find_hole, this]
  | succ n ih =>
    rw [List.replicate_succ, List.cons_append, find_hole]
    simp only [↓reduceIte]
    rw [ih]
    omega

theorem FindHolesInBinary_exact_run (n : Nat) :
    FindHolesInBinary (List.replicate (n + 1) 0) ((n : Int) + 1) = [] := by
  have hl : (List.replicate (n + 1) (0 : UInt8)).length = n + 1 := List.length_replicate _ _
  have hf : find_hole (List.replicate (n + 1) 0) 0 0 = n := by
    have := find_hole_zeros n 0 0 [] (by simp)
    simpa using this
  unfold FindHolesInBinary
  rw [hl]
  simp only [findHolesLoop, hl, List.drop_zero, hf]
  simp [List.replicate_succ]

/-- C26 fails in the code: in the bytes 1 0 0 1 the run of exactly 2 zero bytes at offset 1
is not reported for size 2 (the test is `end - i >= size` with `end` the index of the last
zero byte of the run, so a run is reported only from `size + 1` bytes on); the run of 3 zero
bytes in 1 0 0 0 1 is reported for size 2. -/
theorem C26_exact_size_run_missed :
    FindHolesInBinary [1, 0, 0, 1] 2 = [] ∧ FindHolesInBinary [1, 0, 0, 0, 1] 2 = [1] := by
  decide

/-! ## Hex encoding -/

/-- C27 fails in the code: the newline character (value 10) is encoded with one digit, as
`\xa`, so the output for this ASCII string of length 1 has 3 characters, not 4; the example
"Hello" of the documentation is encoded as documented. -/
theorem C27_one_digit_below_sixteen :
    HexEncode "\n" = "\\xa" ∧ (HexEncode "\n").length = 3
      ∧ HexEncode "Hello" = "\\x48\\x65\\x6c\\x6c\\x6f" := by
  decide

/-! ## Random integers -/

theorem randBetween_range (r : Nat) (min max : Int) (h : min < max) :
    ∃ v, randBetween r min max = .ok v ∧ min ≤ v ∧ v < max := by
  have hpos : 0 < max - min := by omega
  have hn : ¬ (max - min ≤ 0) := by omega
  refine ⟨min + (r : Int) % (max - min), ?_, ?_, ?_⟩
  · simp [randBetween, Intn, hn]
  · have := Int.emod_nonneg (r : Int) (ne_of_gt hpos)
    omega
  · have := Int.emod_lt_of_pos (r : Int) hpos
    omega

theorem RandInt_range (r1 r2 r3 : Nat) (min max : Int) (h0 : 0 ≤ min) (h : min < max) :
    ∃ v, RandInt r1 r2 r3 min max = .ok v ∧ min ≤ v ∧ v < max := by
  have hc : ¬ (min > max ∨ min < 0 ∨ max < 0) := by omega
  unfold RandInt
  rw [if_neg hc]
  exact randBetween_range r3 min max h

theorem RandInt_equal_bounds (r1 r2 r3 : Nat) (m : Int) (h0 : 0 ≤ m) :
    RandInt r1 r2 r3 m m = .error "invalid argument to Intn" := by
  have hc : ¬ (m > m ∨ m < 0 ∨ m < 0) := by omega
  unfold RandInt
  rw [if_neg hc]
  simp [randBetween, Intn]

/-- C29 fails in the code: `RandInt(5, 5)` ends in the panic of `rand.Intn(0)`, for every
outcome of the random source (so do all calls with `0 ≤ min = max`); with `min < max` the
value is in `[min, max)`, and the port drawn by `RandInt(1024, 65535)` is in
`[1024, 65535)`. -/
theorem C29_equal_bounds_panic :
    (∀ r1 r2 r3, RandInt r1 r2 r3 5 5 = .error "invalid argument to Intn")
      ∧ (∀ r1 r2 r3, ∃ v, RandInt r1 r2 r3 1024 65535 = .ok v ∧ 1024 ≤ v ∧ v < 65535) :=
  ⟨fun r1 r2 r3 => RandInt_equal_bounds r1 r2 r3 5 (by decide),
    fun r1 r2 r3 => RandInt_range r1 r2 r3 1024 65535 (by decide) (by decide)⟩

/-! ## Removing duplicates -/

theorem removeDupsLoop_acc {α : Type} [DecidableEq α] (xs allKeys list : List α) :
    removeDupsLoop xs allKeys list = list ++ removeDupsLoop xs allKeys [] := by
  induction xs generalizing allKeys list with
  | nil => simp [removeDupsLoop]
  | cons x xs ih =>
    unfold removeDupsLoop
    by_cases h : x ∈ allKeys
    · simp only [h, ↓reduceIte]
      exact ih allKeys list
    · simp only [h, ↓reduceIte]
      rw [ih (x :: allKeys) (list ++ [x]), ih (x :: allKeys) ([] ++ [x])]
      simp

theorem removeDupsLoop_cons_seen {α : Type} [DecidableEq α] (x : α) (xs allKeys : List α)
    (h : x ∈ allKeys) :
    removeDupsLoop (x :: xs) allKeys [] = removeDupsLoop xs allKeys [] := by
  rw [removeDupsLoop, if_pos h]

theorem removeDupsLoop_cons_new {α : Type} [DecidableEq α] (x : α) (xs allKeys : List α)
    (h : x ∉ allKeys) :
    removeDupsLoop (x :: xs) allKeys [] = x :: removeDupsLoop xs (x :: allKeys) [] := by
  rw [removeDupsLoop, if_neg h, removeDupsLoop_acc]
  rfl

theorem mem_removeDupsLoop {α : Type} [DecidableEq α] (a : α) (xs allKeys : List α) :
    a ∈ removeDupsLoop xs allKeys [] ↔ a ∈ xs ∧ a ∉ allKeys := by
  induction xs generalizing allKeys with
  | nil => simp [removeDupsLoop]
  | cons x xs ih =>
    by_cases h : x ∈ allKeys
    · rw [removeDupsLoop_cons_seen x xs allKeys h, ih]
      constructor
      · exact fun ⟨h1, h2⟩ => ⟨List.mem_cons_of_mem x h1, h2⟩
      · rintro ⟨h1, h2⟩
        rcases List.mem_cons.mp h1 with h1 | h1
        · exact absurd (h1 ▸ h) h2
        · exact ⟨h1, h2⟩
    · rw [removeDupsLoop_cons_new x xs allKeys h, List.mem_cons, ih]
      constructor
      · rintro (h1 | ⟨h1, h2⟩)
        · exact ⟨h1 ▸ List.mem_cons_self x xs, h1 ▸ h⟩
        · exact ⟨List.mem_cons_of_mem x h1, fun h3 => h2 (List.mem_cons_of_mem x h3)⟩
      · rintro ⟨h1, h2⟩
        by_cases hax : a = x
        · exact Or.inl hax
        · refine Or.inr ⟨(List.mem_cons.mp h1).resolve_left hax, ?_⟩
          intro h3
          rcases List.mem_cons.mp h3 with h3 | h3
          · exact hax h3
          · exact h2 h3

theorem nodup_removeDupsLoop {α : Type} [DecidableEq α] (xs allKeys : List α) :
    (removeDupsLoop xs allKeys []).Nodup := by
  induction xs generalizing allKeys with
  | nil => simp [removeDupsLoop]
  | cons x xs ih =>
    by_cases h : x ∈ allKeys
    · rw [removeDupsLoop_cons_seen x xs allKeys h]
      exact ih allKeys
    · rw [removeDupsLoop_cons_new x xs allKeys h, List.nodup_cons]
      refine ⟨?_, ih _⟩
      rw [mem_removeDupsLoop]
      exact fun h1 => h1.2 (List.mem_cons_self x allKeys)

theorem removeDupsLoop_order_shift {α : Type} [DecidableEq α] (x : α) (xs allKeys : List α)
    (hx : x ∈ allKeys)
    (ih : (removeDupsLoop xs allKeys []).Pairwise (fun a b => xs.indexOf a < xs.indexOf b)) :
    (removeDupsLoop xs allKeys []).Pairwise
      (fun a b => (x :: xs).indexOf a < (x :: xs).indexOf b) := by
  refine ih.imp_of_mem ?_
  intro a b ha hb hab
  have hax : x ≠ a := fun h => ((mem_removeDupsLoop a xs allKeys).mp ha).2 (h ▸ hx)
  have hbx : x ≠ b := fun h => ((mem_removeDupsLoop b xs allKeys).mp hb).2 (h ▸ hx)
  rw [List.indexOf_cons_ne _ hax, List.indexOf_cons_ne _ hbx]
  omega

theorem removeDupsLoop_order {α : Type} [DecidableEq α] (xs allKeys : List α) :
    (removeDupsLoop xs allKeys []).Pairwise (fun a b => xs.indexOf a < xs.indexOf b) := by
  induction xs generalizing allKeys with
  | nil => simp [removeDupsLoop]
  | cons x xs ih =>
    by_cases h : x ∈ allKeys
    · rw [removeDupsLoop_cons_seen x xs allKeys h]
      exact removeDupsLoop_order_shift x xs allKeys h (ih allKeys)
    · rw [removeDupsLoop_cons_new x xs allKeys h, List.pairwise_cons]
      refine ⟨?_, removeDupsLoop_order_shift x xs (x :: allKeys) (List.mem_cons_self x allKeys)
        (ih _)⟩
      intro b hb
      have hbx : x ≠ b :=
        fun h1 => ((mem_removeDupsLoop b xs (x :: allKeys)).mp hb).2
          (h1 ▸ List.mem_cons_self x allKeys)
      rw [List.indexOf_cons_self, List.indexOf_cons_ne _ hbx]
      omega

theorem removeDupsLoop_nodup_input {α : Type} [DecidableEq α] (xs allKeys : List α)
    (hn : xs.Nodup) (hd : ∀ a, a ∈ xs → a ∉ allKeys) :
    removeDupsLoop xs allKeys [] = xs := by
  induction xs generalizing allKeys with
  | nil => rfl
  | cons x xs ih =>
    rw [List.nodup_cons] at hn
    rw [removeDupsLoop_cons_new x xs allKeys (hd x (List.mem_cons_self x xs))]
    congr 1
    apply ih _ hn.2
    intro a ha h1
    rcases List.mem_cons.mp h1 with h1 | h1
    · exact hn.1 (h1 ▸ ha)
    · exact hd a (List.mem_cons_of_mem x ha) h1

/-- C28: for every list `xs` (of strings, of ints, of any type with decidable equality),
`RemoveDupsFromArray xs` has no element twice, has exactly the elements of `xs`, lists them
in the order of their first occurrence in `xs` (the positions of first occurrence increase
along the result), is idempotent, and is `xs` itself when `xs` has no duplicates. -/
theorem C28_remove_dups {α : Type} [DecidableEq α] (xs : List α) :
    (RemoveDupsFromArray xs).Nodup
      ∧ (∀ a, a ∈ RemoveDupsFromArray xs ↔ a ∈ xs)
      ∧ (RemoveDupsFromArray xs).Pairwise (fun a b => xs.indexOf a < xs.indexOf b)
      ∧ RemoveDupsFromArray (RemoveDupsFromArray xs) = RemoveDupsFromArray xs
      ∧ (xs.Nodup → RemoveDupsFromArray xs = xs) := by
  unfold RemoveDupsFromArray
  refine ⟨nodup_removeDupsLoop xs [], ?_, removeDupsLoop_order xs [], ?_, ?_⟩
  · intro a
    rw [mem_removeDupsLoop]
    simp
  · exact removeDupsLoop_nodup_input _ [] (nodup_removeDupsLoop xs []) (by simp)
  · intro hn
    exact removeDupsLoop_nodup_input xs [] hn (by simp)

/-- C28, at the list "b", "a", "c" without duplicates: it is returned unchanged. -/
theorem C28_remove_dups_witness : RemoveDupsFromArray ["b", "a", "c"] = ["b", "a", "c"] :=
  (C28_remove_dups ["b", "a", "c"]).2.2.2.2 (by decide)

/-! ## Command-line parsing -/

theorem containsChars_singleton (c : Char) (l : List Char) :
    containsChars [c] l = true ↔ c ∈ l := by
  induction l with
  | nil => simp [containsChars, startsWith]
  | cons x xs ih =>
    simp only [containsChars, startsWith, Bool.and_true, Bool.or_eq_true, decide_eq_true_eq, ih,
      List.mem_cons]

theorem Contains_backslash (s : String) : Contains s "\\" = true ↔ '\\' ∈ s.data :=
  containsChars_singleton '\\' s.data

theorem Contains_quote (s : String) : Contains s "'" = true ↔ '\'' ∈ s.data :=
  containsChars_singleton '\'' s.data

theorem Contains_double_quote (s : String) : Contains s "\"" = true ↔ '"' ∈ s.data :=
  containsChars_singleton '"' s.data

theorem ParseCmd_escaped_no_double_quote (cmd : String) (h1 : '\\' ∈ cmd.data)
    (h2 : '"' ∉ cmd.data) : ParseCmd cmd = parseEscapedCmd (symsOf cmd) := by
  have e1 : Contains cmd "\\" = true := (Contains_backslash cmd).mpr h1
  have e2 : Contains cmd "\"" = false := by
    rw [← Bool.not_eq_true, Contains_double_quote]; exact h2
  unfold ParseCmd
  simp [e1, e2]

/-- C24 fails in the code: `ParseCmd` of "put 'my file' a\ b" is "put", "'my", "file'",
"a b": the quoted argument is split at its space and keeps its quotes (a backslash in the
command makes `isQuoted` false, so the command goes to `parseEscapedCmd`); the same command
with double quotes is parsed as the claim says. -/
theorem C24_single_quotes_with_escape :
    ParseCmd "put 'my file' a\\ b" = ["put", "'my", "file'", "a b"]
      ∧ ParseCmd "put \"my file\" a\\ b" = ["put", "my file", "a b"] := by
  decide

theorem escapeName_data (t : String) :
    (escapeName t).data = (t.data.map escapeChar).flatten := by
  unfold escapeName replaceAllChar
  simp only
  induction t.data with
  | nil => rfl
  | cons c cs ih =>
    simp only [List.map_cons, List.flatten_cons, List.map_append, List.flatten_append, ih]
    congr 1
    unfold escapeChar
    by_cases h1 : c = '\t'
    · subst h1; decide
    · by_cases h2 : c = ' '
      · subst h2; decide
      · simp [h1, h2]

theorem replaceAllPair_append_aux (a b : Char) (r : Sym) (B : List Sym) (n : Nat) :
    ∀ A : List Sym, A.length ≤ n → A.getLast? ≠ some (.chr a) →
      replaceAllPair a b r (A ++ B) = replaceAllPair a b r A ++ replaceAllPair a b r B := by
  induction n with
  | zero =>
    intro A hn _
    have : A = [] := List.length_eq_zero.mp (Nat.le_zero.mp hn)
    subst this
    simp [replaceAllPair]
  | succ n ih =>
    intro A hn h
    match A, h, hn with
    | [], _, _ => simp [replaceAllPair]
    | [s], h, _ =>
      have hs : s ≠ .chr a := by simpa using h
      cases B with
      | nil => simp [replaceAllPair]
      | cons t B =>
        simp [replaceAllPair, hs]
    | s :: t :: A, h, hn =>
      have h1 : (t :: A).getLast? ≠ some (.chr a) := by
        simpa [List.getLast?_cons_cons] using h
      have hA : A.getLast? ≠ some (.chr a) := by
        cases A with
        | nil => simp
        | cons x A => simpa [List.getLast?_cons_cons] using h1
      simp only [List.cons_append, replaceAllPair]
      by_cases hm : s = .chr a ∧ t = .chr b
      · simp only [hm, and_self, ↓reduceIte, List.cons_append, List.cons.injEq, true_and]
        exact ih A (by simp at hn; omega) hA
      · simp only [hm, ↓reduceIte, List.cons_append, List.cons.injEq, true_and]
        have := ih (t :: A) (by simp at hn ⊢; omega) h1
        simpa using this

theorem replaceAllPair_append (a b : Char) (r : Sym) (A B : List Sym)
    (h : A.getLast? ≠ some (.chr a)) :
    replaceAllPair a b r (A ++ B) = replaceAllPair a b r A ++ replaceAllPair a b r B :=
  replaceAllPair_append_aux a b r B A.length A (Nat.le_refl _) h

theorem getLast?_append_ne {α : Type} (A B : List α) (x : α) (hA : A.getLast? ≠ some x)
    (hB : B.getLast? ≠ some x) : (A ++ B).getLast? ≠ some x := by
  rw [List.getLast?_append]
  cases h : B.getLast? with
  | none => simpa using hA
  | some y => rw [h] at hB; simpa using hB

theorem getLast?_flatten_ne {α : Type} (blocks : List (List α)) (x : α)
    (h : ∀ B, B ∈ blocks → B.getLast? ≠ some x) : blocks.flatten.getLast? ≠ some x := by
  induction blocks with
  | nil => simp
  | cons B rest ih =>
    rw [List.flatten_cons]
    exact getLast?_append_ne _ _ _ (h B (List.mem_cons_self _ _))
      (ih (fun C hC => h C (List.mem_cons_of_mem _ hC)))

theorem replaceAllPair_flatten (a b : Char) (r : Sym) (blocks : List (List Sym))
    (h : ∀ B, B ∈ blocks → B.getLast? ≠ some (.chr a)) :
    replaceAllPair a b r blocks.flatten = (blocks.map (replaceAllPair a b r)).flatten := by
  induction blocks with
  | nil => simp [replaceAllPair]
  | cons B rest ih =>
    rw [List.flatten_cons, replaceAllPair_append a b r B _ (h B (List.mem_cons_self _ _)),
      ih (fun C hC => h C (List.mem_cons_of_mem _ hC))]
    rfl

theorem escapeChar_first_pass (c : Char) (hc : c ≠ '\\') :
    replaceAllPair '\\' ' ' .space ((escapeChar c).map Sym.chr) = firstPassOf c
      ∧ ((escapeChar c).map Sym.chr).getLast? ≠ some (.chr '\\') := by
  unfold escapeChar firstPassOf
  by_cases h1 : c = '\t'
  · subst h1; decide
  · by_cases h2 : c = ' '
    · subst h2; decide
    · simp [h1, h2, replaceAllPair, hc]

theorem firstPassOf_second_pass (c : Char) (hc : c ≠ '\\') :
    replaceAllPair '\\' 't' .tab (firstPassOf c) = [placeholderOf c]
      ∧ (firstPassOf c).getLast? ≠ some (.chr '\\') := by
  unfold firstPassOf placeholderOf
  by_cases h1 : c = '\t'
  · subst h1; decide
  · by_cases h2 : c = ' '
    · subst h2; decide
    · simp [h1, h2, replaceAllPair, hc]

theorem first_pass_token (cs : List Char) (h : ∀ c, c ∈ cs → c ≠ '\\') :
    replaceAllPair '\\' ' ' .space ((cs.map escapeChar).flatten.map Sym.chr)
        = (cs.map firstPassOf).flatten
      ∧ ((cs.map escapeChar).flatten.map Sym.chr).getLast? ≠ some (.chr '\\') := by
  have e : (cs.map escapeChar).flatten.map Sym.chr
      = (cs.map (fun c => (escapeChar c).map Sym.chr)).flatten := by
    rw [List.map_flatten, List.map_map]
    rfl
  have hb : ∀ B, B ∈ cs.map (fun c => (escapeChar c).map Sym.chr) →
      B.getLast? ≠ some (.chr '\\') := by
    intro B hB
    obtain ⟨c, hc, rfl⟩ := List.mem_map.mp hB
    exact (escapeChar_first_pass c (h c hc)).2
  rw [e]
  refine ⟨?_, getLast?_flatten_ne _ _ hb⟩
  rw [replaceAllPair_flatten _ _ _ _ hb, List.map_map]
  congr 1
  apply List.map_congr_left
  intro c hc
  exact (escapeChar_first_pass c (h c hc)).1

theorem second_pass_token (cs : List Char) (h : ∀ c, c ∈ cs → c ≠ '\\') :
    replaceAllPair '\\' 't' .tab (cs.map firstPassOf).flatten = cs.map placeholderOf
      ∧ (cs.map firstPassOf).flatten.getLast? ≠ some (.chr '\\') := by
  have hb : ∀ B, B ∈ cs.map firstPassOf → B.getLast? ≠ some (.chr '\\') := by
    intro B hB
    obtain ⟨c, hc, rfl⟩ := List.mem_map.mp hB
    exact (firstPassOf_second_pass c (h c hc)).2
  refine ⟨?_, getLast?_flatten_ne _ _ hb⟩
  rw [replaceAllPair_flatten _ _ _ _ hb, List.map_map]
  have : ∀ l : List Char, (∀ c, c ∈ l → c ≠ '\\') →
      (l.map (replaceAllPair '\\' 't' .tab ∘ firstPassOf)).flatten = l.map placeholderOf := by
    intro l
    induction l with
    | nil => intro _; rfl
    | cons c l ih =>
      intro hl
      simp only [List.map_cons, List.flatten_cons, Function.comp]
      rw [(firstPassOf_second_pass c (hl c (List.mem_cons_self _ _))).1]
      have := ih (fun d hd => hl d (List.mem_cons_of_mem _ hd))
      simp only [Function.comp] at this
      rw [this]
      rfl
  exact this cs h

/-- Both substitutions of `parseEscapedCmd` on an escaped token followed by more text. -/
theorem unescape_token_append (t : String) (h : ∀ c, c ∈ t.data → c ≠ '\\') (R : List Sym) :
    replaceAllPair '\\' 't' .tab
        (replaceAllPair '\\' ' ' .space (symsOf (escapeName t) ++ Sym.chr ' ' :: R))
      = t.data.map placeholderOf ++ Sym.chr ' ' ::
          replaceAllPair '\\' 't' .tab (replaceAllPair '\\' ' ' .space R) := by
  have h1 := first_pass_token t.data h
  have h2 := second_pass_token t.data h
  have hs : ([Sym.chr ' '] : List Sym).getLast? ≠ some (.chr '\\') := by decide
  unfold symsOf
  rw [escapeName_data, replaceAllPair_append _ _ _ _ _ h1.2, h1.1,
    replaceAllPair_append _ _ _ _ _ h2.2, h2.1]
  congr 1
  have e1 : Sym.chr ' ' :: R = [Sym.chr ' '] ++ R := rfl
  rw [e1, replaceAllPair_append _ _ _ _ _ hs]
  have e2 : replaceAllPair '\\' ' ' .space [Sym.chr ' '] = [Sym.chr ' '] := rfl
  rw [e2, replaceAllPair_append _ _ _ _ _ hs]
  rfl

theorem unescape_token (t : String) (h : ∀ c, c ∈ t.data → c ≠ '\\') :
    replaceAllPair '\\' 't' .tab (replaceAllPair '\\' ' ' .space (symsOf (escapeName t)))
      = t.data.map placeholderOf := by
  unfold symsOf
  rw [escapeName_data, (first_pass_token t.data h).1, (second_pass_token t.data h).1]

theorem symsOf_append (a b : String) : symsOf (a ++ b) = symsOf a ++ symsOf b := by
  simp [symsOf, String.data_append]

theorem unescape_join (ts : List String) (h : ∀ t, t ∈ ts → ∀ c, c ∈ t.data → c ≠ '\\') :
    replaceAllPair '\\' 't' .tab
        (replaceAllPair '\\' ' ' .space (symsOf (Join (ts.map escapeName) " ")))
      = joinSyms (ts.map (fun t => t.data.map placeholderOf)) := by
  induction ts with
  | nil => rfl
  | cons t rest ih =>
    cases rest with
    | nil => exact unescape_token t (h t (List.mem_cons_self _ _))
    | cons t2 rest =>
      have ih2 := ih (fun u hu => h u (List.mem_cons_of_mem _ hu))
      simp only [List.map_cons, Join, joinSyms] at ih2 ⊢
      have e : symsOf (escapeName t ++ " " ++ Join (escapeName t2 :: rest.map escapeName) " ")
          = symsOf (escapeName t) ++ Sym.chr ' ' ::
              symsOf (Join (escapeName t2 :: rest.map escapeName) " ") := by
        rw [symsOf_append, symsOf_append]
        simp [symsOf]
      rw [e, unescape_token_append t (h t (List.mem_cons_self _ _)), ih2]

theorem fieldsAux_block (tok rest cur : List Sym) (h : ∀ s, s ∈ tok → symIsSpace s = false) :
    fieldsAux (tok ++ rest) cur = fieldsAux rest (cur ++ tok) := by
  induction tok generalizing cur with
  | nil => simp
  | cons s tok ih =>
    rw [List.cons_append]
    simp only [fieldsAux, h s (List.mem_cons_self _ _), Bool.false_eq_true, ↓reduceIte]
    rw [ih _ (fun u hu => h u (List.mem_cons_of_mem _ hu))]
    simp

theorem Fields_joinSyms (es : List (List Sym))
    (h : ∀ e, e ∈ es → e ≠ [] ∧ ∀ s, s ∈ e → symIsSpace s = false) :
    Fields (joinSyms es) = es := by
  unfold Fields
  induction es with
  | nil => rfl
  | cons e rest ih =>
    obtain ⟨hne, hsp⟩ := h e (List.mem_cons_self _ _)
    obtain ⟨s, e1, rfl⟩ := List.exists_cons_of_ne_nil hne
    cases rest with
    | nil =>
      have := fieldsAux_block (s :: e1) [] [] hsp
      simp only [List.append_nil, List.nil_append] at this
      rw [joinSyms, this]
      rfl
    | cons e2 rest =>
      have ih2 := ih (fun u hu => h u (List.mem_cons_of_mem _ hu))
      rw [joinSyms, fieldsAux_block (s :: e1) _ [] hsp, List.nil_append, fieldsAux]
      simp only [symIsSpace, isSpace, decide_True, Bool.or_true, Bool.true_or, ↓reduceIte]
      rw [ih2]

theorem restore_placeholders (t : String) : restore (t.data.map placeholderOf) = t := by
  unfold restore
  rw [List.map_map]
  have : ∀ l : List Char, l.map ((fun s => match s with
      | Sym.chr c => c
      | .space => ' '
      | .tab => '\t') ∘ placeholderOf) = l := by
    intro l
    induction l with
    | nil => rfl
    | cons c l ih =>
      rw [List.map_cons, ih]
      congr 1
      simp only [Function.comp, placeholderOf]
      by_cases h1 : c = '\t'
      · simp [h1]
      · by_cases h2 : c = ' '
        · simp [h2]
        · simp [h1, h2]
  rw [this]

theorem escapeChar_not_quote (c q : Char) (hq : q ≠ '\\' ∧ q ≠ 't' ∧ q ≠ ' ') (hc : c ≠ q) :
    q ∉ escapeChar c := by
  unfold escapeChar
  by_cases h1 : c = '\t'
  · simp [h1, hq.1, hq.2.1]
  · by_cases h2 : c = ' '
    · simp [h2, hq.1, hq.2.2]
    · simp [h1, h2, Ne.symm hc]

theorem Join_escaped_no_quote (q : Char) (hq : q ≠ '\\' ∧ q ≠ 't' ∧ q ≠ ' ') (ts : List String)
    (h : ∀ t, t ∈ ts → ∀ c, c ∈ t.data → c ≠ q) :
    q ∉ (Join (ts.map escapeName) " ").data := by
  have htok : ∀ t : String, (∀ c, c ∈ t.data → c ≠ q) → q ∉ (escapeName t).data := by
    intro t ht
    rw [escapeName_data, List.mem_flatten]
    rintro ⟨B, hB, hqB⟩
    obtain ⟨c, hc, rfl⟩ := List.mem_map.mp hB
    exact escapeChar_not_quote c q hq (ht c hc) hqB
  induction ts with
  | nil => simp [Join]
  | cons t rest ih =>
    cases rest with
    | nil => exact htok t (h t (List.mem_cons_self _ _))
    | cons t2 rest =>
      have ih2 := ih (fun u hu => h u (List.mem_cons_of_mem _ hu))
      simp only [List.map_cons, Join, String.data_append, List.mem_append, not_or] at ih2 ⊢
      refine ⟨⟨htok t (h t (List.mem_cons_self _ _)), ?_⟩, ih2⟩
      simp [hq.2.2]

theorem replaceAllPair_no_first (a b : Char) (r : Sym) (l : List Sym) (h : Sym.chr a ∉ l) :
    replaceAllPair a b r l = l := by
  induction l with
  | nil => rfl
  | cons s rest ih =>
    have hs : s ≠ .chr a := fun e => h (e ▸ List.mem_cons_self _ _)
    have hr : Sym.chr a ∉ rest := fun e => h (List.mem_cons_of_mem _ e)
    cases rest with
    | nil => rfl
    | cons t rest =>
      rw [replaceAllPair]
      simp only [hs, false_and, ↓reduceIte]
      rw [ih hr]

/-- On a command without quotes, `ParseCmd` gives the fields of the text after the two
substitutions, with the placeholders put back (when the command has no backslash either, the
substitutions change nothing). -/
theorem ParseCmd_no_quotes (cmd : String) (h1 : '\'' ∉ cmd.data) (h2 : '"' ∉ cmd.data) :
    ParseCmd cmd = (Fields (replaceAllPair '\\' 't' .tab
      (replaceAllPair '\\' ' ' .space (symsOf cmd)))).map restore := by
  have e1 : Contains cmd "'" = false := by
    rw [← Bool.not_eq_true, Contains_quote]; exact h1
  have e2 : Contains cmd "\"" = false := by
    rw [← Bool.not_eq_true, Contains_double_quote]; exact h2
  unfold ParseCmd
  simp only [e1, e2, Bool.false_and, Bool.or_false, Bool.and_false, Bool.false_eq_true,
    ↓reduceIte]
  by_cases h3 : Contains cmd "\\" = true
  · simp only [h3, ↓reduceIte, parseEscapedCmd]
  · have h4 : Sym.chr '\\' ∉ symsOf cmd := by
      intro hm
      unfold symsOf at hm
      obtain ⟨c, hc, hcc⟩ := List.mem_map.mp hm
      have : c = '\\' := by injection hcc
      exact h3 ((Contains_backslash cmd).mpr (this ▸ hc))
    simp only [h3, Bool.false_eq_true, ↓reduceIte]
    rw [replaceAllPair_no_first _ _ _ _ h4, replaceAllPair_no_first _ _ _ _ h4]

/-- C22: for every list of tokens that are not empty and contain no backslash, no single or
double quote and no white space other than space and tab, `ParseCmd` applied to the escaped
tokens (tab to backslash-t, then space to backslash-space, as `escapeName` does) joined with
single spaces returns exactly the tokens. The two placeholders of `ParseCmd` are fresh
symbols in the embedding. -/
theorem C22_escape_parse_round_trip (tokens : List String)
    (h : ∀ t, t ∈ tokens → plainToken t) :
    ParseCmd (Join (tokens.map escapeName) " ") = tokens := by
  have hq1 : '\'' ∉ (Join (tokens.map escapeName) " ").data :=
    Join_escaped_no_quote '\'' (by decide) tokens (fun t ht c hc => ((h t ht).2 c hc).2.1)
  have hq2 : '"' ∉ (Join (tokens.map escapeName) " ").data :=
    Join_escaped_no_quote '"' (by decide) tokens (fun t ht c hc => ((h t ht).2 c hc).2.2.1)
  rw [ParseCmd_no_quotes _ hq1 hq2,
    unescape_join tokens (fun t ht c hc => ((h t ht).2 c hc).1), Fields_joinSyms, List.map_map]
  · have : ∀ l : List String,
        l.map (restore ∘ fun t => t.data.map placeholderOf) = l := by
      intro l
      induction l with
      | nil => rfl
      | cons t l ih =>
        rw [List.map_cons, ih]
        congr 1
        exact restore_placeholders t
    exact this tokens
  · intro e he
    obtain ⟨t, ht, rfl⟩ := List.mem_map.mp he
    obtain ⟨hne, hch⟩ := h t ht
    constructor
    · intro hnil
      have : t.data = [] := List.map_eq_nil_iff.mp hnil
      exact hne (String.ext this)
    · intro s hs
      obtain ⟨c, hc, rfl⟩ := List.mem_map.mp hs
      unfold placeholderOf
      by_cases c1 : c = '\t'
      · simp [c1, symIsSpace]
      · by_cases c2 : c = ' '
        · simp [c2, symIsSpace]
        · simp only [c1, c2, ↓reduceIte, symIsSpace]
          cases hsp : isSpace c with
          | false => rfl
          | true =>
            rcases (hch c hc).2.2.2 hsp with e | e
            · exact absurd e c2
            · exact absurd e c1

/-- C22, at the tokens "ls", "my file", "a", tab, "b": they come back from `ParseCmd`. -/
theorem C22_escape_parse_round_trip_witness :
    ParseCmd (Join (["ls", "my file", "a\tb"].map escapeName) " ") = ["ls", "my file", "a\tb"] :=
  C22_escape_parse_round_trip ["ls", "my file", "a\tb"] (by
    intro t ht
    simp only [List.mem_cons, List.mem_singleton, List.not_mem_nil, or_false] at ht
    rcases ht with rfl | rfl | rfl <;> (unfold plainToken; decide))

/-! ## The quoting round trip of the file-system commands -/

theorem ParseCmd_single_quoted (cmd : String) (h1 : '\'' ∈ cmd.data)
    (h2 : cmd.data.count '\'' % 2 = 0) (h3 : '\\' ∉ cmd.data) :
    ParseCmd cmd = (parseQuotedCmd (symsOf cmd)).map restore := by
  have e1 : Contains cmd "'" = true := (Contains_quote cmd).mpr h1
  have e3 : Contains cmd "\\" = false := by
    rw [← Bool.not_eq_true, Contains_backslash]; exact h3
  unfold ParseCmd
  simp [e1, e3, h2]

theorem csvNormalize_line (A : List Sym) (q : Sym) (hA : Sym.chr '\n' ∉ A)
    (h1 : q ≠ .chr '\r') (h2 : q ≠ .chr '\n') : csvNormalize (A ++ [q]) = A ++ [q] := by
  induction A with
  | nil => simp [csvNormalize, h1]
  | cons s A ih =>
    have hA2 : Sym.chr '\n' ∉ A := fun e => hA (List.mem_cons_of_mem _ e)
    cases A with
    | nil =>
      show csvNormalize [s, q] = [s, q]
      simp [csvNormalize, h1, h2]
    | cons t A =>
      have ht : t ≠ .chr '\n' := fun e => hA2 (e ▸ List.mem_cons_self _ _)
      have := ih hA2
      simp only [List.cons_append] at this ⊢
      rw [csvNormalize]
      simp only [ht, and_false, ↓reduceIte, this]

theorem csv_unquoted_run (w rest cur : List Sym)
    (h : ∀ s, s ∈ w → s ≠ .chr ' ' ∧ s ≠ .chr '\n') :
    csvFields .unquoted cur (w ++ Sym.chr ' ' :: rest)
      = (cur ++ w) :: csvFields .fieldStart [] rest := by
  induction w generalizing cur with
  | nil => simp [csvFields]
  | cons s w ih =>
    obtain ⟨h1, h2⟩ := h s (List.mem_cons_self _ _)
    rw [List.cons_append, csvFields]
    simp only [h1, h2, ↓reduceIte]
    rw [ih _ (fun u hu => h u (List.mem_cons_of_mem _ hu))]
    simp

theorem csv_bare_field (w rest : List Sym)
    (h : ∀ s, s ∈ w → s ≠ .chr ' ' ∧ s ≠ .chr '\n' ∧ s ≠ .chr '"') :
    csvFields .fieldStart [] (w ++ Sym.chr ' ' :: rest)
      = w :: csvFields .fieldStart [] rest := by
  cases w with
  | nil => simp [csvFields]
  | cons s w =>
    obtain ⟨h1, h2, h3⟩ := h s (List.mem_cons_self _ _)
    rw [List.cons_append, csvFields]
    simp only [h1, h2, h3, ↓reduceIte]
    rw [csv_unquoted_run w rest [s]
      (fun u hu => ⟨(h u (List.mem_cons_of_mem _ hu)).1, (h u (List.mem_cons_of_mem _ hu)).2.1⟩)]
    rfl

theorem csv_quoted_run (w rest cur : List Sym) (h : ∀ s, s ∈ w → s ≠ .chr '"') :
    csvFields .quoted cur (w ++ Sym.chr '"' :: rest) = csvFields .quoteSeen (cur ++ w) rest := by
  induction w generalizing cur with
  | nil => simp [csvFields]
  | cons s w ih =>
    rw [List.cons_append, csvFields]
    simp only [h s (List.mem_cons_self _ _), ↓reduceIte]
    rw [ih _ (fun u hu => h u (List.mem_cons_of_mem _ hu))]
    simp

theorem csv_quoted_field (w rest : List Sym) (h : ∀ s, s ∈ w → s ≠ .chr '"') :
    csvFields .fieldStart [] (Sym.chr '"' :: (w ++ Sym.chr '"' :: Sym.chr ' ' :: rest))
      = w :: csvFields .fieldStart [] rest := by
  rw [csvFields]
  simp only [↓reduceIte]
  rw [csv_quoted_run w _ [] h, csvFields]
  simp

theorem csv_quoted_last_field (w : List Sym) (h : ∀ s, s ∈ w → s ≠ .chr '"') :
    csvFields .fieldStart [] (Sym.chr '"' :: (w ++ [Sym.chr '"'])) = [w] := by
  rw [csvFields]
  simp only [↓reduceIte]
  rw [csv_quoted_run w _ [] h, csvFields]
  simp

theorem dropWhile_head_neg {α : Type} (p : α → Bool) (l : List α)
    (h : ∀ x, l.head? = some x → p x = false) : l.dropWhile p = l := by
  cases l with
  | nil => rfl
  | cons x l => simp [List.dropWhile, h x rfl]

theorem trimBoth_clean {α : Type} (p : α → Bool) (l : List α)
    (h1 : ∀ x, l.head? = some x → p x = false) (h2 : ∀ x, l.getLast? = some x → p x = false) :
    trimBoth p l = l := by
  unfold trimBoth
  rw [dropWhile_head_neg p l h1, dropWhile_head_neg p l.reverse (by simpa using h2)]
  simp

theorem trimBoth_symsOf (s : String) (h1 : ∀ c, s.data.head? = some c → isSpace c = false)
    (h2 : ∀ c, s.data.getLast? = some c → isSpace c = false) :
    trimBoth symIsSpace (symsOf s) = symsOf s := by
  apply trimBoth_clean
  · intro x hx
    unfold symsOf at hx
    rw [List.head?_map] at hx
    cases h : s.data.head? with
    | none => rw [h] at hx; cases hx
    | some c =>
      rw [h] at hx
      simp only [Option.map_some', Option.some.injEq] at hx
      subst hx
      exact h1 c h
  · intro x hx
    unfold symsOf at hx
    rw [List.getLast?_map] at hx
    cases h : s.data.getLast? with
    | none => rw [h] at hx; cases hx
    | some c =>
      rw [h] at hx
      simp only [Option.map_some', Option.some.injEq] at hx
      subst hx
      exact h2 c h

theorem restore_symsOf (s : String) : restore (symsOf s) = s := by
  unfold restore symsOf
  rw [List.map_map]
  have : ((fun s => match s with
      | Sym.chr c => c
      | .space => ' '
      | .tab => '\t') ∘ Sym.chr) = id := rfl
  rw [this, List.map_id]

theorem mem_symsOf (s : String) (c : Char) : Sym.chr c ∈ symsOf s ↔ c ∈ s.data := by
  unfold symsOf
  constructor
  · intro h
    obtain ⟨d, hd, e⟩ := List.mem_map.mp h
    injection e with e
    exact e ▸ hd
  · exact fun h => List.mem_map.mpr ⟨c, h, rfl⟩

theorem requote_symsOf (s : String) (h : '\'' ∉ s.data) :
    (symsOf s).map (fun x => if x = Sym.chr '\'' then Sym.chr '"' else x) = symsOf s := by
  have : ∀ x, x ∈ symsOf s → (if x = Sym.chr '\'' then Sym.chr '"' else x) = x := by
    intro x hx
    have : x ≠ Sym.chr '\'' := fun e => h ((mem_symsOf s '\'').mp (e ▸ hx))
    simp [this]
  rw [List.map_congr_left this, List.map_id']

theorem bareword_head (cmd : String) (h : bareword cmd) :
    ∀ c, cmd.data.head? = some c → isSpace c = false :=
  fun c hc => (h c (List.mem_of_mem_head? hc)).1

theorem bareword_last (cmd : String) (h : bareword cmd) :
    ∀ c, cmd.data.getLast? = some c → isSpace c = false :=
  fun c hc => (h c (List.mem_of_getLast?_eq_some hc)).1

theorem bareword_syms (cmd : String) (h : bareword cmd) :
    ∀ s, s ∈ symsOf cmd → s ≠ .chr ' ' ∧ s ≠ .chr '\n' ∧ s ≠ .chr '"' := by
  intro s hs
  unfold symsOf at hs
  obtain ⟨c, hc, rfl⟩ := List.mem_map.mp hs
  obtain ⟨h1, _, h3, _⟩ := h c hc
  refine ⟨?_, ?_, ?_⟩
  · intro e
    injection e with e
    subst e
    exact absurd h1 (by decide)
  · intro e
    injection e with e
    subst e
    exact absurd h1 (by decide)
  · intro e
    injection e with e
    exact h3 e

theorem quotablePath_syms (p : String) (h : quotablePath p) :
    ∀ s, s ∈ symsOf p → s ≠ .chr '"' := by
  intro s hs e
  subst e
  exact (h.1 '"' ((mem_symsOf p '"').mp hs)).2.1 rfl

theorem csvRead_line (A : List Sym) (q : Sym) (hA : Sym.chr '\n' ∉ A)
    (h1 : q ≠ .chr '\r') (h2 : q ≠ .chr '\n') :
    csvRead (A ++ [q]) = some (csvFields .fieldStart [] (A ++ [q])) := by
  unfold csvRead
  rw [csvNormalize_line A q hA h1 h2]
  cases A with
  | nil => simp [List.dropWhile, h2]
  | cons s A =>
    have hs : s ≠ .chr '\n' := fun e => hA (e ▸ List.mem_cons_self _ _)
    simp [List.dropWhile, hs]

theorem no_newline_syms (s : String) (h : '\n' ∉ s.data) : Sym.chr '\n' ∉ symsOf s :=
  fun e => h ((mem_symsOf s '\n').mp e)

theorem bareword_no_newline (cmd : String) (h : bareword cmd) : '\n' ∉ cmd.data :=
  fun e => absurd (h '\n' e).1 (by decide)

theorem count_quote_zero (s : String) (h : '\'' ∉ s.data) : s.data.count '\'' = 0 :=
  List.count_eq_zero_of_not_mem h

/-- The fields that `parseQuotedCmd` reads from the text of `CmdFSCmdDst`. -/
theorem parseQuotedCmd_dst (cmd dst : String) (hc : bareword cmd) (hd : quotablePath dst) :
    parseQuotedCmd (symsOf (CmdFSCmdDst cmd dst))
      = [symsOf cmd, symsOf "--dst", symsOf dst] := by
  have hq1 : '\'' ∉ cmd.data := fun e => (hc '\'' e).2.1 rfl
  have hq2 : '\'' ∉ dst.data := fun e => (hd.1 '\'' e).1 rfl
  have hlit : (symsOf " --dst '").map (fun x => if x = Sym.chr '\'' then Sym.chr '"' else x)
      = Sym.chr ' ' :: (symsOf "--dst" ++ [Sym.chr ' ', Sym.chr '"']) := by decide
  have hend : (symsOf "'").map (fun x => if x = Sym.chr '\'' then Sym.chr '"' else x)
      = [Sym.chr '"'] := by decide
  have hT : (symsOf (CmdFSCmdDst cmd dst)).map
        (fun x => if x = Sym.chr '\'' then Sym.chr '"' else x)
      = (symsOf cmd ++ Sym.chr ' ' :: (symsOf "--dst" ++
          Sym.chr ' ' :: Sym.chr '"' :: symsOf dst)) ++ [Sym.chr '"'] := by
    unfold CmdFSCmdDst
    rw [symsOf_append, symsOf_append, symsOf_append, List.map_append, List.map_append,
      List.map_append, requote_symsOf cmd hq1, requote_symsOf dst hq2, hlit, hend]
    simp
  have hnl : Sym.chr '\n' ∉ symsOf cmd ++ Sym.chr ' ' :: (symsOf "--dst" ++
      Sym.chr ' ' :: Sym.chr '"' :: symsOf dst) := by
    have h1 := no_newline_syms cmd (bareword_no_newline cmd hc)
    have h2 := no_newline_syms dst (fun e => (hd.1 '\n' e).2.2.2 rfl)
    have h3 : Sym.chr '\n' ∉ symsOf "--dst" := by decide
    simp [h1, h2, h3]
  have hflag : ∀ s, s ∈ symsOf "--dst" → s ≠ .chr ' ' ∧ s ≠ .chr '\n' ∧ s ≠ .chr '"' := by
    decide
  unfold parseQuotedCmd
  simp only
  rw [hT, csvRead_line _ _ hnl (by decide) (by decide)]
  simp only [List.append_assoc, List.cons_append, List.nil_append]
  rw [csv_bare_field _ _ (bareword_syms cmd hc), csv_bare_field _ _ hflag,
    csv_quoted_last_field _ (quotablePath_syms dst hd)]
  simp only [List.map_cons, List.map_nil]
  rw [trimBoth_symsOf cmd (bareword_head cmd hc) (bareword_last cmd hc),
    trimBoth_symsOf dst hd.2.1 hd.2.2]
  rfl

/-- The fields that `parseQuotedCmd` reads from the text of `CmdFSCmdSrcDst`. -/
theorem parseQuotedCmd_src_dst (cmd src dst : String) (hc : bareword cmd)
    (hs : quotablePath src) (hd : quotablePath dst) :
    parseQuotedCmd (symsOf (CmdFSCmdSrcDst cmd src dst))
      = [symsOf cmd, symsOf "--src", symsOf src, symsOf "--dst", symsOf dst] := by
  have hq1 : '\'' ∉ cmd.data := fun e => (hc '\'' e).2.1 rfl
  have hq2 : '\'' ∉ dst.data := fun e => (hd.1 '\'' e).1 rfl
  have hq3 : '\'' ∉ src.data := fun e => (hs.1 '\'' e).1 rfl
  have hlit1 : (symsOf " --src '").map (fun x => if x = Sym.chr '\'' then Sym.chr '"' else x)
      = Sym.chr ' ' :: (symsOf "--src" ++ [Sym.chr ' ', Sym.chr '"']) := by decide
  have hlit2 : (symsOf "' --dst '").map (fun x => if x = Sym.chr '\'' then Sym.chr '"' else x)
      = Sym.chr '"' :: Sym.chr ' ' :: (symsOf "--dst" ++ [Sym.chr ' ', Sym.chr '"']) := by
    decide
  have hend : (symsOf "'").map (fun x => if x = Sym.chr '\'' then Sym.chr '"' else x)
      = [Sym.chr '"'] := by decide
  have hT : (symsOf (CmdFSCmdSrcDst cmd src dst)).map
        (fun x => if x = Sym.chr '\'' then Sym.chr '"' else x)
      = (symsOf cmd ++ Sym.chr ' ' :: (symsOf "--src" ++
          Sym.chr ' ' :: Sym.chr '"' :: (symsOf src ++ Sym.chr '"' :: Sym.chr ' ' ::
            (symsOf "--dst" ++ Sym.chr ' ' :: Sym.chr '"' :: symsOf dst)))) ++
          [Sym.chr '"'] := by
    unfold CmdFSCmdSrcDst
    rw [symsOf_append, symsOf_append, symsOf_append, symsOf_append, symsOf_append,
      List.map_append, List.map_append, List.map_append, List.map_append, List.map_append,
      requote_symsOf cmd hq1, requote_symsOf dst hq2, requote_symsOf src hq3, hlit1, hlit2,
      hend]
    simp
  have hnl : Sym.chr '\n' ∉ symsOf cmd ++ Sym.chr ' ' :: (symsOf "--src" ++
          Sym.chr ' ' :: Sym.chr '"' :: (symsOf src ++ Sym.chr '"' :: Sym.chr ' ' ::
            (symsOf "--dst" ++ Sym.chr ' ' :: Sym.chr '"' :: symsOf dst))) := by
    have h1 := no_newline_syms cmd (bareword_no_newline cmd hc)
    have h2 := no_newline_syms dst (fun e => (hd.1 '\n' e).2.2.2 rfl)
    have h3 : Sym.chr '\n' ∉ symsOf "--dst" := by decide
    have h4 := no_newline_syms src (fun e => (hs.1 '\n' e).2.2.2 rfl)
    have h5 : Sym.chr '\n' ∉ symsOf "--src" := by decide
    simp [h1, h2, h3, h4, h5]
  have hflag1 : ∀ s, s ∈ symsOf "--src" → s ≠ .chr ' ' ∧ s ≠ .chr '\n' ∧ s ≠ .chr '"' := by
    decide
  have hflag2 : ∀ s, s ∈ symsOf "--dst" → s ≠ .chr ' ' ∧ s ≠ .chr '\n' ∧ s ≠ .chr '"' := by
    decide
  unfold parseQuotedCmd
  simp only
  rw [hT, csvRead_line _ _ hnl (by decide) (by decide)]
  simp only [List.append_assoc, List.cons_append, List.nil_append]
  rw [csv_bare_field _ _ (bareword_syms cmd hc), csv_bare_field _ _ hflag1,
    csv_quoted_field _ _ (quotablePath_syms src hs), csv_bare_field _ _ hflag2,
    csv_quoted_last_field _ (quotablePath_syms dst hd)]
  simp only [List.map_cons, List.map_nil]
  rw [trimBoth_symsOf cmd (bareword_head cmd hc) (bareword_last cmd hc),
    trimBoth_symsOf dst hd.2.1 hd.2.2, trimBoth_symsOf src hs.2.1 hs.2.2]
  rfl

/-- C23: for every bare word `cmd` (no white space, quote or backslash) and all paths `src`,
`dst` without quote, backslash or newline and without white space at either end, `ParseCmd`
applied to the text of `CmdFSCmdDst` returns `cmd`, "--dst", `dst`, and applied to the text
of `CmdFSCmdSrcDst` returns `cmd`, "--src", `src`, "--dst", `dst`. -/
theorem C23_quoting_round_trip (cmd src dst : String) (hc : bareword cmd)
    (hs : quotablePath src) (hd : quotablePath dst) :
    ParseCmd (CmdFSCmdDst cmd dst) = [cmd, "--dst", dst]
      ∧ ParseCmd (CmdFSCmdSrcDst cmd src dst) = [cmd, "--src", src, "--dst", dst] := by
  have hq1 : '\'' ∉ cmd.data := fun e => (hc '\'' e).2.1 rfl
  have hq2 : '\'' ∉ dst.data := fun e => (hd.1 '\'' e).1 rfl
  have hq3 : '\'' ∉ src.data := fun e => (hs.1 '\'' e).1 rfl
  have hb1 : '\\' ∉ cmd.data := fun e => (hc '\\' e).2.2.2 rfl
  have hb2 : '\\' ∉ dst.data := fun e => (hd.1 '\\' e).2.2.1 rfl
  have hb3 : '\\' ∉ src.data := fun e => (hs.1 '\\' e).2.2.1 rfl
  constructor
  · rw [ParseCmd_single_quoted, parseQuotedCmd_dst cmd dst hc hd]
    · simp only [List.map_cons, List.map_nil, restore_symsOf]
    · simp [CmdFSCmdDst, String.data_append]
    · simp only [CmdFSCmdDst, String.data_append, List.count_append, count_quote_zero cmd hq1,
        count_quote_zero dst hq2]
      decide
    · simp [CmdFSCmdDst, String.data_append, hb1, hb2]
  · rw [ParseCmd_single_quoted, parseQuotedCmd_src_dst cmd src dst hc hs hd]
    · simp only [List.map_cons, List.map_nil, restore_symsOf]
    · simp [CmdFSCmdSrcDst, String.data_append]
    · simp only [CmdFSCmdSrcDst, String.data_append, List.count_append,
        count_quote_zero cmd hq1, count_quote_zero dst hq2, count_quote_zero src hq3]
      decide
    · simp [CmdFSCmdSrcDst, String.data_append, hb1, hb2, hb3]

/-- C23, at the command "put" with the paths "my file" and "/tmp/out dir". -/
theorem C23_quoting_round_trip_witness :
    ParseCmd (CmdFSCmdDst "put" "/tmp/out dir") = ["put", "--dst", "/tmp/out dir"]
      ∧ ParseCmd (CmdFSCmdSrcDst "put" "my file" "/tmp/out dir")
          = ["put", "--src", "my file", "--dst", "/tmp/out dir"] :=
  C23_quoting_round_trip "put" "my file" "/tmp/out dir" (by unfold bareword; decide)
    (by unfold quotablePath; decide) (by unfold quotablePath; decide)

/-! ## The environment string -/

theorem splitAux_piece (sep : Char) (w rest cur : List Char) (h : sep ∉ w) :
    splitAux sep (w ++ sep :: rest) cur
      = String.mk (cur.reverse ++ w) :: splitAux sep rest [] := by
  induction w generalizing cur with
  | nil => simp [splitAux]
  | cons c w ih =>
    have hc : c ≠ sep := fun e => h (e ▸ List.mem_cons_self _ _)
    rw [List.cons_append, splitAux, if_neg hc, ih _ (fun e => h (List.mem_cons_of_mem _ e))]
    simp

theorem takeWhile_until {α : Type} (p : α → Bool) (a : List α) (b : α) (c : List α)
    (ha : ∀ x, x ∈ a → p x = true) (hb : p b = false) :
    (a ++ b :: c).takeWhile p = a ∧ (a ++ b :: c).dropWhile p = b :: c := by
  induction a with
  | nil => simp [List.takeWhile, List.dropWhile, hb]
  | cons x a ih =>
    have hx := ha x (List.mem_cons_self _ _)
    have := ih (fun y hy => ha y (List.mem_cons_of_mem _ hy))
    simp [List.takeWhile, List.dropWhile, hx, this.1, this.2]

theorem TrimSpace_trimmed (s : String) (h : trimmed s) : TrimSpace s = s := by
  unfold TrimSpace
  rw [trimBoth_clean isSpace s.data h.1 h.2]

/-- What the loop of `ParseEnvStr` does with the line `name=val`. -/
theorem parseEnvLines_entry (name val : String) (rest : List String)
    (envMap : List (String × String)) (h1 : '=' ∉ name.data) (h2 : trimmed name)
    (h3 : trimmed val) :
    parseEnvLines (String.mk (name.data ++ '=' :: val.data) :: rest) envMap
      = parseEnvLines rest (mapSet envMap name val) := by
  have hp := takeWhile_until (fun c => decide (c ≠ '=')) name.data '=' val.data
    (fun x hx => by
      have : x ≠ '=' := fun e => h1 (e ▸ hx)
      simpa using this) (by simp)
  have hc : Contains (String.mk (name.data ++ '=' :: val.data)) "=" = true :=
    (containsChars_singleton '=' _).mpr (by simp)
  have hb : beforeEq (String.mk (name.data ++ '=' :: val.data)) = name := by
    unfold beforeEq
    simp only [hp.1]
  have ha : afterEq (String.mk (name.data ++ '=' :: val.data)) = val := by
    unfold afterEq
    simp only [hp.2, List.drop_succ_cons, List.drop_zero]
  rw [parseEnvLines, if_pos hc, hb, ha, TrimSpace_trimmed name h2, TrimSpace_trimmed val h3]

theorem parseEnvLines_envStr (l : List (String × Option ModOption))
    (hwf : ∀ e, e ∈ l → envEntry e) :
    ∃ s, envStrOf l = .ok s
      ∧ ∀ envMap, parseEnvLines (Split s ',') envMap
          = (valuesOf l).foldl (fun m e => mapSet m e.1 e.2) envMap := by
  induction l with
  | nil => exact ⟨"", rfl, fun _ => rfl⟩
  | cons e rest ih =>
    obtain ⟨s, hs, hrest⟩ := ih (fun x hx => hwf x (List.mem_cons_of_mem _ hx))
    obtain ⟨name, ptr⟩ := e
    have he := hwf (name, ptr) (List.mem_cons_self _ _)
    cases ptr with
    | none => exact absurd he (by simp [envEntry])
    | some o =>
      simp only [envEntry] at he
      obtain ⟨c1, c2, c3, c4, c5⟩ := he
      refine ⟨name ++ "=" ++ o.Val ++ "," ++ s, by simp only [envStrOf, hs], ?_⟩
      intro envMap
      have hd : (name ++ "=" ++ o.Val ++ "," ++ s).data
          = (name.data ++ '=' :: o.Val.data) ++ ',' :: s.data := by
        simp [String.data_append]
      have hno : ',' ∉ name.data ++ '=' :: o.Val.data := by
        simp [c1, c3]
      unfold Split
      rw [hd, splitAux_piece ',' _ _ [] hno]
      simp only [List.reverse_nil, List.nil_append]
      rw [parseEnvLines_entry name o.Val _ envMap c2 c4 c5]
      have := hrest (mapSet envMap name o.Val)
      unfold Split at this
      rw [this]
      rfl

theorem mapGet_valuesOf_absent (l : List (String × Option ModOption)) (k : String)
    (h : k ∉ l.map Prod.fst) : mapGet (valuesOf l) k = none := by
  induction l with
  | nil => rfl
  | cons e rest ih =>
    obtain ⟨name, ptr⟩ := e
    simp only [List.map_cons, List.mem_cons, not_or] at h
    have ih2 := ih h.2
    cases ptr with
    | none => simpa [valuesOf] using ih2
    | some o =>
      have hne : ¬ name = k := fun e => h.1 e.symm
      simp only [valuesOf, List.filterMap_cons, Option.map_some', mapGet, hne, ↓reduceIte]
        at ih2 ⊢
      exact ih2

theorem mapGet_foldl_mapSet (l : List (String × String)) (envMap : List (String × String))
    (k : String) (hn : (l.map Prod.fst).Nodup) :
    mapGet (l.foldl (fun m e => mapSet m e.1 e.2) envMap) k
      = match mapGet l k with
        | some v => some v
        | none => mapGet envMap k := by
  induction l generalizing envMap with
  | nil => rfl
  | cons e rest ih =>
    obtain ⟨name, val⟩ := e
    simp only [List.map_cons, List.nodup_cons] at hn
    rw [List.foldl_cons, ih _ hn.2]
    by_cases hk : name = k
    · subst hk
      have hnone : mapGet rest name = none := by
        cases hg : mapGet rest name with
        | none => rfl
        | some v =>
          exfalso
          apply hn.1
          clear ih hn
          induction rest with
          | nil => simp [mapGet] at hg
          | cons x rest ih2 =>
            obtain ⟨a, b⟩ := x
            by_cases hab : a = name
            · simp [hab]
            · simp only [mapGet, hab, ↓reduceIte] at hg
              exact List.mem_cons_of_mem _ (ih2 hg)
      simp only [hnone, mapGet, ↓reduceIte, mapGet_mapSet_self]
    · simp only [mapGet, hk, ↓reduceIte]
      cases mapGet rest k with
      | some v => rfl
      | none => exact mapGet_mapSet_ne _ _ _ _ (fun e => hk e.symm)

theorem valuesOf_keys (l : List (String × Option ModOption)) (hn : (l.map Prod.fst).Nodup) :
    ((valuesOf l).map Prod.fst).Nodup := by
  induction l with
  | nil => simp [valuesOf]
  | cons e rest ih =>
    obtain ⟨name, ptr⟩ := e
    simp only [List.map_cons, List.nodup_cons] at hn
    have hsub : ∀ k, k ∈ (valuesOf rest).map Prod.fst → k ∈ rest.map Prod.fst := by
      intro k hk
      obtain ⟨x, hx, rfl⟩ := List.mem_map.mp hk
      unfold valuesOf at hx
      obtain ⟨y, hy, hxy⟩ := List.mem_filterMap.mp hx
      cases hp : y.2 with
      | none => simp [hp] at hxy
      | some o =>
        simp only [hp, Option.map_some', Option.some.injEq] at hxy
        subst hxy
        exact List.mem_map.mpr ⟨y, hy, rfl⟩
    cases ptr with
    | none => simpa [valuesOf] using ih hn.2
    | some o =>
      have := ih hn.2
      simp only [valuesOf, List.filterMap_cons, Option.map_some', List.map_cons,
        List.nodup_cons] at this ⊢
      exact ⟨fun hm => hn.1 (hsub _ hm), this⟩

/-- With distinct keys, a lookup finds `v` under `k` exactly when `(k, v)` is an entry. -/
theorem mapGet_eq_some_iff {V : Type} (l : List (String × V)) (k : String) (v : V)
    (hn : (l.map Prod.fst).Nodup) : mapGet l k = some v ↔ (k, v) ∈ l := by
  induction l with
  | nil => simp [mapGet]
  | cons e rest ih =>
    obtain ⟨a, b⟩ := e
    simp only [List.map_cons, List.nodup_cons] at hn
    by_cases hab : a = k
    · subst hab
      simp only [mapGet, ↓reduceIte, Option.some.injEq, List.mem_cons, Prod.mk.injEq, true_and]
      constructor
      · exact fun h => Or.inl h.symm
      · rintro (h | h)
        · exact h.symm
        · exact absurd (List.mem_map.mpr ⟨(a, v), h, rfl⟩) hn.1
    · simp only [mapGet, hab, ↓reduceIte, List.mem_cons, Prod.mk.injEq]
      rw [ih hn.2]
      constructor
      · exact fun h => Or.inr h
      · rintro (h | h)
        · exact absurd h.1.symm hab
        · exact h

theorem mapGet_perm {V : Type} (l1 l2 : List (String × V)) (k : String) (hp : l1.Perm l2)
    (hn : (l2.map Prod.fst).Nodup) : mapGet l1 k = mapGet l2 k := by
  have hn1 : (l1.map Prod.fst).Nodup := (hp.map Prod.fst).nodup_iff.mpr hn
  apply Option.ext
  intro v
  rw [Option.mem_def, Option.mem_def, mapGet_eq_some_iff l1 k v hn1,
    mapGet_eq_some_iff l2 k v hn]
  exact hp.mem_iff

/-- C25: let the options of a config have values (no nil pointer), names without `,` and
`=`, values without `,`, and no white space at the start or end of a name or value. Then
`genModStartCmd` returns (it never returns an error) the payload type and the exec spec of
the config unchanged and an environment string of which `ParseEnvStr` is the map
name ↦ value; and so it does for every order in which its loop visits the options. -/
theorem C25_env_string_round_trip (config : ModuleConfig)
    (hn : ((config.Options.getD []).map Prod.fst).Nodup)
    (hwf : ∀ e, e ∈ config.Options.getD [] → envEntry e) :
    (∃ envStr, genModStartCmd config
          = .ok (config.AgentConfig.PayloadType, config.AgentConfig.Exec, envStr)
        ∧ ∀ k, mapGet (ParseEnvStr envStr) k = mapGet (valuesOf (config.Options.getD [])) k)
      ∧ ∀ order, order.Perm (config.Options.getD []) →
          ∃ envStr, genModStartCmd { config with Options := some order }
              = .ok (config.AgentConfig.PayloadType, config.AgentConfig.Exec, envStr)
            ∧ ∀ k, mapGet (ParseEnvStr envStr) k
                = mapGet (valuesOf (config.Options.getD [])) k := by
  have key : ∀ order : List (String × Option ModOption), order.Perm (config.Options.getD []) →
      ∃ envStr, envStrOf order = .ok envStr
        ∧ ∀ k, mapGet (ParseEnvStr envStr) k
            = mapGet (valuesOf (config.Options.getD [])) k := by
    intro order hp
    have hn2 : (order.map Prod.fst).Nodup := (hp.map Prod.fst).nodup_iff.mpr hn
    obtain ⟨s, hs, hfold⟩ := parseEnvLines_envStr order
      (fun e he => hwf e (hp.mem_iff.mp he))
    refine ⟨s, hs, ?_⟩
    intro k
    unfold ParseEnvStr
    rw [hfold [], mapGet_foldl_mapSet _ _ _ (valuesOf_keys order hn2)]
    have hperm : mapGet (valuesOf order) k = mapGet (valuesOf (config.Options.getD [])) k :=
      mapGet_perm _ _ k (hp.filterMap _) (valuesOf_keys _ hn)
    rw [hperm]
    cases mapGet (valuesOf (config.Options.getD [])) k <;> rfl
  constructor
  · obtain ⟨s, hs, hk⟩ := key (config.Options.getD []) (List.Perm.refl _)
    exact ⟨s, by simp only [genModStartCmd, hs], hk⟩
  · intro order hp
    obtain ⟨s, hs, hk⟩ := key order hp
    exact ⟨s, by simp only [genModStartCmd, Option.getD_some, hs], hk⟩

/-- C25, at a module with the options target=10.0.0.5 and query="a=b c", visited in the
other order: the value of `query` is read back from the string that `genModStartCmd`
returns. -/
theorem C25_env_string_round_trip_witness :
    ∃ envStr, genModStartCmd { twoOptionModule with
          Options := some [("query", some ⟨"query", "filter", "a=b c", []⟩),
            ("target", some ⟨"target", "host", "10.0.0.5", []⟩)] }
        = .ok ("bash", "run.sh", envStr)
      ∧ mapGet (ParseEnvStr envStr) "query" = some "a=b c" := by
  obtain ⟨s, hs, h⟩ := (C25_env_string_round_trip twoOptionModule (by decide) (by
      intro e he
      simp only [twoOptionModule, Option.getD_some, List.mem_cons, List.mem_singleton,
        List.not_mem_nil, or_false] at he
      rcases he with rfl | rfl <;> (simp only [envEntry, trimmed]; decide))).2
    [("query", some ⟨"query", "filter", "a=b c", []⟩),
      ("target", some ⟨"target", "host", "10.0.0.5", []⟩)]
    (List.Perm.swap _ _ _)
  exact ⟨s, hs, (h "query").trans rfl⟩

end Emp3r0r
